import Mathlib

/-!
# Avi Controller session client (`sdk/go/session/avisession.go`)

A shallow embedding of the hand-written session logic of the Avi SDK:
session state, request builder, cookie collection, retry schedule,
readiness probe, re-authentication, the JSON verbs and the two multipart
channels.

Conventions of the embedding

* The controller is a sequence of answers `World.controller : Nat → DoResult`;
  every `client.Do` consumes the answer at the position `Machine.clock` and
  advances the clock.
* Everything the code does to the outside world is appended, in order, to
  `Machine.trace`: sleeps, dispatches, probe requests, and the entry of the
  two recovery routines.  Each entry carries the nesting depth of
  `initiateSession` at which it happened, so that the dispatches of one
  logical call (depth of the caller) can be told from the dispatches of a
  re-login it triggers (greater depth).
* Recursion of the Go code (retry, re-login) is bounded by a call budget
  `fuel`; a result `none` means the budget ran out before the call returned.
* Go standard-library behaviour the code relies on (`http.NewRequest`,
  `json.Unmarshal`, `fmt.Sprintf("%v", …)`) is a parameter in `World`.
* Cookies are kept as the `http.Cookie` values handed to `AddCookie` and
  returned by `resp.Cookies()`; their wire encoding is not modelled.
-/

namespace Avi

/-! ## Data model -/

/-- An `http.Cookie`, reduced to the two fields the session uses. -/
structure Cookie where
  name : String
  value : String
  deriving DecidableEq, Repr

/-- A value handed to `json.Marshal` as `interface{}`; `null` is the nil
interface, `unsupported` stands for any value `json.Marshal` rejects
(a channel, a function, a NaN). -/
inductive GoValue where
  | null
  | bool (b : Bool)
  | int (n : Int)
  | str (s : String)
  | list (xs : List GoValue)
  | map (kvs : List (String × GoValue))
  | unsupported
  deriving Repr

/-- The body handed to `http.NewRequest`. -/
inductive Body where
  | empty
  | bytes (s : String)
  | multipart (fileName content uriField : String)
  deriving DecidableEq, Repr

/-- An `http.Request` as far as the session code fills it in. -/
structure Request where
  verb : String
  url : String
  header : List (String × String)
  cookies : List Cookie
  body : Body
  deriving DecidableEq, Repr

/-- An `http.Response`: status code, the cookies of `resp.Cookies()`, the
body bytes that `ioutil.ReadAll` yields and the error it ends with, if any. -/
structure Response where
  status : Nat
  cookies : List Cookie := []
  body : String := ""
  readError : Option String := none
  deriving DecidableEq, Repr

/-- The outcome of `client.Do`: a response or a transport error. -/
inductive DoResult where
  | resp (r : Response)
  | fail (msg : String)
  deriving DecidableEq, Repr

/-- The Go struct `AviError` (with the embedded `AviResult`). -/
structure AviError where
  code : Int := 0
  message : Option String := none
  verb : String
  url : String
  httpStatusCode : Nat := 0
  err : Option String := none
  deriving DecidableEq, Repr

/-- A Go `error` value: an `AviError` or any other error. -/
inductive GoError where
  | avi (e : AviError)
  | other (msg : String)
  deriving DecidableEq, Repr

/-- The `http.Transport` built or injected at construction. -/
structure Transport where
  insecureSkipVerify : Bool
  deriving DecidableEq, Repr

/-- The `http.Client` of the session. -/
structure Client where
  transport : Option Transport
  timeout : Int
  deriving DecidableEq, Repr

/-- The Go struct `AviSession`.  The field `urlPrefix` is the source's
`prefix`; `refreshAuthToken` is the optional callback, given as the token
it returns at its n-th invocation. -/
structure AviSession where
  host : String
  username : String
  password : String := ""
  authToken : String := ""
  refreshAuthToken : Option (Nat → String) := none
  insecure : Bool := false
  timeout : Int := 0
  tenant : String := ""
  version : String := ""
  sessionid : String := ""
  csrfToken : String := ""
  urlPrefix : String := ""
  transport : Option Transport := none
  client : Option Client := none

/-- An `os.File` handle: its name, the bytes not yet read, the bytes
written to it, and whether it has been closed. -/
structure File where
  name : String := ""
  unread : String := ""
  written : String := ""
  closed : Bool := false
  deriving DecidableEq, Repr

/-- What the session does to the outside world. -/
inductive Event where
  | sleep (ms : Nat)
  | dispatch (req : Request)
  | reauth
  | readiness
  | probe (url : String)
  | probeSleep (round : Nat)
  deriving DecidableEq, Repr

/-- The running state: the session, the number of answers consumed from the
controller, the number of calls of the refresh callback, the file handle in
use by a multipart call, the nesting depth of `initiateSession`, and the
trace. -/
structure Machine where
  sess : AviSession
  clock : Nat := 0
  refreshes : Nat := 0
  file : File := {}
  depth : Nat := 0
  trace : List (Nat × Event) := []

/-- The Go struct `AviCollectionResult`: the count and the raw JSON of the
results (`none` is the nil `json.RawMessage`). -/
structure AviCollectionResult where
  Count : Int := 0
  Results : Option String := none
  deriving DecidableEq, Repr

/-- The environment of a run: the controller's answers and the behaviour of
the Go standard library the code calls into.  `unmarshalCollection` is
`json.Unmarshal` into an `AviCollectionResult` (the struct as it is left and
the error, if any); `unmarshalRawList` is `json.Unmarshal` of the raw results
into a slice of `json.RawMessage` (the slice as it is left, or the error);
`dumpRequestOut` is the error of `httputil.DumpRequestOut(req, true)`, none
when the request could be dumped. -/
structure World where
  controller : Nat → DoResult
  newRequestError : String → String → Option String := fun _ _ => none
  jsonUnmarshal : String → Except String GoValue := fun _ => .ok .null
  sprintv : GoValue → String := fun _ => ""
  boundary : String := ""
  unmarshalCollection : String → AviCollectionResult × Option String := fun _ => ({}, none)
  unmarshalRawList : Option String → Except String (List String) := fun _ => .ok []
  dumpRequestOut : Request → Option String := fun _ => none

def DEFAULT_AVI_VERSION : String := "17.1.2"

/-- The default timeout, 60 seconds in nanoseconds. -/
def DEFAULT_API_TIMEOUT : Int := 60 * 1000000000

def DEFAULT_API_TENANT : String := "admin"

/-! ## Trace helpers -/

/-- Append one event to the trace at the current depth. -/
def Machine.log (m : Machine) (e : Event) : Machine :=
  { m with trace := m.trace ++ [(m.depth, e)] }

/-- The call `avisess.client.Do`: log the event, take the controller's next
answer. -/
def clientDo (w : World) (e : Event) (m : Machine) : DoResult × Machine :=
  (w.controller m.clock, { m.log e with clock := m.clock + 1 })

/-! ## Headers -/

/-- The call `Header.Set` on keys that are already canonical. -/
def headerSet : List (String × String) → String → String → List (String × String)
  | [], k, v => [(k, v)]
  | (k0, v0) :: rest, k, v =>
    if k0 = k then (k, v) :: rest else (k0, v0) :: headerSet rest k v

/-- The call `Header.Get` on a canonical key. -/
def headerGet : List (String × String) → String → Option String
  | [], _ => none
  | (k0, v0) :: rest, k => if k0 = k then some v0 else headerGet rest k

def Request.setHeader (r : Request) (k v : String) : Request :=
  { r with header := headerSet r.header k v }

def Request.addCookie (r : Request) (c : Cookie) : Request :=
  { r with cookies := r.cookies ++ [c] }

/-! ## Session construction -/

/-- An option of `NewAviSession`: a Go `func(*AviSession) error`. -/
abbrev SessionOption := AviSession → AviSession × Option GoError

def AviSession.setPassword (s : AviSession) (password : String) : AviSession × Option GoError :=
  ({ s with password := password }, none)

def SetPassword (password : String) : SessionOption := fun s => s.setPassword password

def AviSession.setVersion (s : AviSession) (version : String) : AviSession × Option GoError :=
  ({ s with version := version }, none)

def SetVersion (version : String) : SessionOption := fun s => s.setVersion version

def AviSession.setAuthToken (s : AviSession) (authToken : String) : AviSession × Option GoError :=
  ({ s with authToken := authToken }, none)

def SetAuthToken (authToken : String) : SessionOption := fun s => s.setAuthToken authToken

def AviSession.setRefreshAuthTokenCallback (s : AviSession) (f : Nat → String) :
    AviSession × Option GoError :=
  ({ s with refreshAuthToken := some f }, none)

def SetRefreshAuthTokenCallback (f : Nat → String) : SessionOption :=
  fun s => s.setRefreshAuthTokenCallback f

def AviSession.setTenant (s : AviSession) (tenant : String) : AviSession × Option GoError :=
  ({ s with tenant := tenant }, none)

def SetTenant (tenant : String) : SessionOption := fun s => s.setTenant tenant

def SetInsecure : SessionOption := fun s => ({ s with insecure := true }, none)

def AviSession.setTransport (s : AviSession) (t : Option Transport) : AviSession × Option GoError :=
  ({ s with transport := t }, none)

def SetTransport (t : Option Transport) : SessionOption := fun s => s.setTransport t

def AviSession.setTimeout (s : AviSession) (timeout : Int) : AviSession × Option GoError :=
  ({ s with timeout := timeout }, none)

def SetTimeout (timeout : Int) : SessionOption := fun s => s.setTimeout timeout

def AviSession.isTokenAuth (s : AviSession) : Bool :=
  s.authToken != "" || s.refreshAuthToken.isSome

/-- The method `SwitchTenant`; it always returns a nil error. -/
def AviSession.SwitchTenant (s : AviSession) (tenant : String) : AviSession × Option GoError :=
  let s1 := { s with tenant := tenant }
  if s1.tenant = "" then ({ s1 with tenant := DEFAULT_API_TENANT }, none) else (s1, none)

def AviSession.GetTenant (s : AviSession) : String := s.tenant

/-! ## Retry schedule -/

/-- The method `checkRetryForSleep`: the sleep that precedes attempt `retry`,
or the abort error once the budget is spent. -/
def checkRetryForSleep (retry : Int) (verb url : String) (m : Machine) :
    Option AviError × Machine :=
  if retry = 0 then (none, m)
  else if retry = 1 then (none, m.log (.sleep 100))
  else if retry = 2 then (none, m.log (.sleep 500))
  else if retry = 3 then (none, m.log (.sleep 1000))
  else if retry > 3 then
    (some { verb := verb, url := url, err := some "tried 3 times and failed" }, m)
  else (none, m)

/-! ## Request builder -/

/-- The method `newAviRequest`.  The request is `none` exactly when
`http.NewRequest` fails, which is when the returned error carries `err`. -/
def newAviRequest (w : World) (s : AviSession) (verb url : String) (payload : Body) :
    Option Request × AviError :=
  let errorResult : AviError := { verb := verb, url := url }
  match w.newRequestError verb url with
  | some e => (none, { errorResult with err := some ("http.NewRequest failed: " ++ e) })
  | none =>
    let req : Request := { verb := verb, url := url, header := [], cookies := [], body := payload }
    let req := req.setHeader "Content-Type" "application/json"
    let req := req.setHeader "X-Avi-Version" s.version
    let req :=
      if s.csrfToken ≠ "" then
        ({ req with header := headerSet req.header "X-CSRFToken" s.csrfToken }).addCookie
          { name := "csrftoken", value := s.csrfToken }
      else req
    let req := if s.urlPrefix ≠ "" then req.setHeader "Referer" s.urlPrefix else req
    let req := if s.tenant ≠ "" then req.setHeader "X-Avi-Tenant" s.tenant else req
    let req :=
      if s.sessionid ≠ "" then
        (req.addCookie { name := "sessionid", value := s.sessionid }).addCookie
          { name := "avi-sessionid", value := s.sessionid }
      else req
    (some req, errorResult)

/-! ## Cookie collection -/

/-- One iteration of the loop of `collectCookiesFromResp`. -/
def collectCookie (s : AviSession) (cookie : Cookie) : AviSession :=
  let s := if cookie.name = "csrftoken" then { s with csrfToken := cookie.value } else s
  let s := if cookie.name = "sessionid" then { s with sessionid := cookie.value } else s
  if cookie.name = "avi-sessionid" then { s with sessionid := cookie.value } else s

/-- The method `collectCookiesFromResp`. -/
def collectCookiesFromResp (s : AviSession) (resp : Response) : AviSession :=
  resp.cookies.foldl collectCookie s

/-! ## JSON encoding (`json.Marshal`) -/

/-- A hexadecimal digit as `encoding/json` prints it. -/
def hexDigit (n : Nat) : Char :=
  if n < 10 then Char.ofNat (48 + n) else Char.ofNat (87 + n)

/-- The escape `\u00XX` of a byte below 0x80. -/
def unicodeEscape (c : Char) : List Char :=
  ['\\', 'u', '0', '0', hexDigit (c.toNat / 16), hexDigit (c.toNat % 16)]

/-- One character of a JSON string as `json.Marshal` writes it (HTML escaping
on, as it is by default). -/
def escapeChar (c : Char) : List Char :=
  if c = '"' then ['\\', '"']
  else if c = '\\' then ['\\', '\\']
  else if c = '\n' then ['\\', 'n']
  else if c = '\r' then ['\\', 'r']
  else if c = '\t' then ['\\', 't']
  else if c.toNat < 32 ∨ c = '<' ∨ c = '>' ∨ c = '&' then unicodeEscape c
  else if c.toNat = 8232 then ['\\', 'u', '2', '0', '2', '8']
  else if c.toNat = 8233 then ['\\', 'u', '2', '0', '2', '9']
  else [c]

/-- A Go string as a JSON string literal. -/
def quoteString (s : String) : String :=
  String.mk ('"' :: (s.data.flatMap escapeChar ++ ['"']))

/-- The decimal digits of a natural number, least significant first; the
budget bounds the number of digits. -/
def digitsRev : Nat → Nat → List Char
  | 0, _ => []
  | fuel + 1, n =>
    if n < 10 then [Char.ofNat (48 + n)]
    else Char.ofNat (48 + n % 10) :: digitsRev fuel (n / 10)

def showNat (n : Nat) : String := String.mk (digitsRev (n + 1) n).reverse

def showInt : Int → String
  | Int.ofNat n => showNat n
  | Int.negSucc n => "-" ++ showNat (n + 1)

/-- The order of Go strings on their characters: code point by code point,
a proper prefix coming first (the order of the UTF-8 bytes). -/
def charsLt : List Char → List Char → Bool
  | _, [] => false
  | [], _ :: _ => true
  | a :: as, b :: bs =>
    if a.toNat < b.toNat then true
    else if b.toNat < a.toNat then false
    else charsLt as bs

/-- Insert a key/value pair into a list sorted by key. -/
def insertField (kv : String × String) : List (String × String) → List (String × String)
  | [] => [kv]
  | x :: xs => if charsLt kv.1.data x.1.data then kv :: x :: xs else x :: insertField kv xs

/-- Sort the encoded fields of a map by key, as `json.Marshal` does. -/
def sortFields (kvs : List (String × String)) : List (String × String) :=
  kvs.foldr insertField []

/-- Join encoded items with commas. -/
def joinComma : List String → String
  | [] => ""
  | [x] => x
  | x :: xs => x ++ "," ++ joinComma xs

mutual
/-- The function `json.Marshal` on a value: the JSON text, or `none` when the
value holds something that cannot be encoded. -/
def marshal : GoValue → Option String
  | .null => some "null"
  | .bool b => some (if b then "true" else "false")
  | .int n => some (showInt n)
  | .str s => some (quoteString s)
  | .list xs => (marshalList xs).map fun items => "[" ++ joinComma items ++ "]"
  | .map kvs =>
    (marshalFields kvs).map fun fs =>
      "\x7b" ++ joinComma ((sortFields fs).map fun kv => quoteString kv.1 ++ ":" ++ kv.2) ++ "\x7d"
  | .unsupported => none

def marshalList : List GoValue → Option (List String)
  | [] => some []
  | x :: xs =>
    match marshal x, marshalList xs with
    | some a, some as => some (a :: as)
    | _, _ => none

def marshalFields : List (String × GoValue) → Option (List (String × String))
  | [] => some []
  | (k, v) :: kvs =>
    match marshal v, marshalFields kvs with
    | some a, some as => some ((k, a) :: as)
    | _, _ => none
end

/-! ## Readiness probe -/

/-- The loop of `CheckControllerStatus`: `n` rounds are left, `round` is the
loop counter. -/
def probeRounds (w : World) (url : String) : Nat → Nat → Machine →
    (Bool × Option GoError) × Machine
  | 0, _, m => ((true, none), m)
  | n + 1, round, m =>
    match w.newRequestError "GET" url with
    | some e => ((false, some (.other e)), m)
    | none =>
      match clientDo w (.probe url) m with
      | (.resp stateResp, m1) =>
        if stateResp.status ≠ 503 ∧ stateResp.status ≠ 502 ∧ stateResp.status ≠ 500 then
          ((true, none), m1)
        else probeRounds w url n (round + 1) (m1.log (.probeSleep round))
      | (.fail _, m1) => probeRounds w url n (round + 1) (m1.log (.probeSleep round))

/-- The method `CheckControllerStatus`. -/
def CheckControllerStatus (w : World) (m : Machine) : (Bool × Option GoError) × Machine :=
  probeRounds w (m.sess.urlPrefix ++ "/api/cluster/status") 10 0 (m.log .readiness)

/-! ## JSON verbs over a given `restRequest` -/

/-- The result of `restRequest`: the bytes (`none` is the nil slice) and the
error. -/
abbrev RestResult := Option String × Option GoError

/-- The method `restRequest` called without the optional retry counter, as
the verbs call it: verb, uri, payload, tenant. -/
abbrev RestFn := String → String → GoValue → String → Machine → Option RestResult × Machine

/-- The result of a verb: the error and the contents of the caller's sink
(`none` when the caller passed a nil sink). -/
abbrev VerbResult := Option GoError × Option GoValue

/-- The call `json.Unmarshal(bytes, &response)` where `response` is the
interface that holds the caller's sink: the contents of the sink afterwards,
or the error.  A nil sink stays nil, and a JSON null leaves the sink as it
is, since the decoder does not follow the pointer for a null. -/
def unmarshalInto (w : World) (bytes : String) (response : Option GoValue) :
    Except String (Option GoValue) :=
  match w.jsonUnmarshal bytes with
  | .ok .null => .ok response
  | .ok v => .ok (response.map fun _ => v)
  | .error e => .error e

/-- The method `restRequestInterfaceResponse`; every caller passes exactly
one tenant. -/
def restRequestInterfaceResponse (w : World) (rest : RestFn) (verb url : String)
    (payload : GoValue) (response : Option GoValue) (tenant : String) (m : Machine) :
    Option VerbResult × Machine :=
  match rest verb url payload tenant m with
  | (none, m1) => (none, m1)
  | (some (res, rerror), m1) =>
    match rerror, res with
    | some e, _ => (some (some e, response), m1)
    | none, none => (some (none, response), m1)
    | none, some bytes =>
      match unmarshalInto w bytes response with
      | .ok sink => (some (none, sink), m1)
      | .error e => (some (some (.other e), response), m1)

/-- The tenant a variadic verb hands on: the session's when none is given,
the first one given otherwise. -/
def locTenant (m : Machine) (tenant : List String) : String :=
  match tenant with
  | [] => m.sess.tenant
  | t :: _ => t

/-- The method `Get`. -/
def Get (w : World) (rest : RestFn) (uri : String) (response : Option GoValue)
    (tenant : List String) (m : Machine) : Option VerbResult × Machine :=
  restRequestInterfaceResponse w rest "GET" uri .null response (locTenant m tenant) m

/-- The method `Post`. -/
def Post (w : World) (rest : RestFn) (uri : String) (payload : GoValue)
    (response : Option GoValue) (tenant : List String) (m : Machine) :
    Option VerbResult × Machine :=
  restRequestInterfaceResponse w rest "POST" uri payload response (locTenant m tenant) m

/-- The method `Put`. -/
def Put (w : World) (rest : RestFn) (uri : String) (payload : GoValue)
    (response : Option GoValue) (tenant : List String) (m : Machine) :
    Option VerbResult × Machine :=
  restRequestInterfaceResponse w rest "PUT" uri payload response (locTenant m tenant) m

/-- The method `Patch`. -/
def Patch (w : World) (rest : RestFn) (uri : String) (payload : GoValue) (patchOp : String)
    (response : Option GoValue) (tenant : List String) (m : Machine) :
    Option VerbResult × Machine :=
  let patchPayload := GoValue.map [(patchOp, payload)]
  restRequestInterfaceResponse w rest "PATCH" uri patchPayload response (locTenant m tenant) m

/-- The method `Delete`: the first optional parameter is the payload, the
second, when exactly two are given, the sink. -/
def Delete (w : World) (rest : RestFn) (uri : String) (tenant : String)
    (params : List GoValue) (m : Machine) : Option VerbResult × Machine :=
  let payload := match params with
    | [] => GoValue.null
    | p :: _ => p
  let response := match params with
    | [_, r] => some r
    | _ => none
  restRequestInterfaceResponse w rest "DELETE" uri payload response tenant m

/-- The method `GetRaw`. -/
def GetRaw (rest : RestFn) (uri : String) (tenant : String) (m : Machine) :
    Option RestResult × Machine :=
  rest "GET" uri .null tenant m

/-- The method `PostRaw`. -/
def PostRaw (rest : RestFn) (uri : String) (payload : GoValue) (tenant : String)
    (m : Machine) : Option RestResult × Machine :=
  rest "POST" uri payload tenant m

/-! ## Auth engine -/

/-- The login payload of `initiateSession`. -/
def loginCred (s : AviSession) : GoValue :=
  if s.isTokenAuth then .map [("username", .str s.username), ("token", .str s.authToken)]
  else .map [("username", .str s.username), ("password", .str s.password)]

/-- The start of `initiateSession` (lines 199-204): in token mode, a
configured refresh callback is invoked and its result stored as the auth
token. -/
def refreshToken (m : Machine) : Machine :=
  if m.sess.isTokenAuth then
    match m.sess.refreshAuthToken with
    | some f =>
      { m with sess := (m.sess.setAuthToken (f m.refreshes)).1, refreshes := m.refreshes + 1 }
    | none => m
  else m

/-- The method `initiateSession`, over the `restRequest` its `Get` and `Post`
reach.  Its trace entries lie one level deeper than the caller's. -/
def initiateSession (w : World) (rest : RestFn) (m : Machine) :
    Option (Option GoError) × Machine :=
  let m0 := { m.log .reauth with depth := m.depth + 1 }
  let m1 := refreshToken m0
  match Get w rest "" none [] m1 with
  | (none, m2) => (none, { m2 with depth := m.depth })
  | (some _, m2) =>
    match Post w rest "login" (loginCred m2.sess) none [] m2 with
    | (none, m3) => (none, { m3 with depth := m.depth })
    | (some (some rerror, _), m3) => (some (some rerror), { m3 with depth := m.depth })
    | (some (none, _), m3) => (some none, { m3 with depth := m.depth })

/-! ## The retry / recovery controller -/

/-- The function `convertAviResponseToMapInterface` followed by
`fmt.Sprintf("%v", mres)`: the decoded body, nil when it does not decode,
printed. -/
def showDecoded (w : World) (bytes : String) : String :=
  match w.jsonUnmarshal bytes with
  | .ok v => w.sprintv v
  | .error _ => w.sprintv .null

/-- The retry decision taken after each response, the same block in
`restRequest` (lines 438-450), in the upload (560-572) and in the download
(639-651).  The result is `none` when the call budget ran out inside the
re-login; otherwise the error to return at once, if any, and `retryReq`. -/
def retryDecision (w : World) (rest : RestFn) (resp : Response) (uri : String) (m3 : Machine) :
    Option (Option GoError × Bool) × Machine :=
  if resp.status = 401 ∧ m3.sess.sessionid ≠ "" ∧ uri ≠ "login" then
    match initiateSession w rest m3 with
    | (none, m4) => (none, m4)
    | (some (some err), m4) => (some (some err, false), m4)
    | (some none, m4) => (some (none, true), m4)
  else if resp.status = 419 ∨ (resp.status ≥ 500 ∧ resp.status < 599) then
    (some (none, true), m3)
  else (some (none, false), m3)

/-- The end of `restRequest` (lines 462-483): what is returned for a
response that is not retried. -/
def readResponse (w : World) (errorResult : AviError) (resp : Response) : RestResult :=
  if resp.status = 204 then (none, none)
  else
    match resp.readError with
    | none =>
      if resp.status < 200 ∨ resp.status > 299 then
        (some resp.body,
          some (.avi { errorResult with message := some (showDecoded w resp.body) }))
      else (some resp.body, none)
    | some e =>
      (some resp.body,
        some (.avi { errorResult with message := some ("Response body read failed: " ++ e) }))

/-- The error the multipart calls return for a status outside 200..299: the
decoded body becomes the message when the body could be read. -/
def errorWithBody (w : World) (errorResult : AviError) (resp : Response) : AviError :=
  match resp.readError with
  | none => { errorResult with message := some (showDecoded w resp.body) }
  | some _ => errorResult

/-- The JSON body of a request: none for a nil payload, the encoding of the
payload otherwise; `none` when `json.Marshal` fails. -/
def marshalPayload (payload : GoValue) : Option Body :=
  match payload with
  | .null => some .empty
  | p => (marshal p).map Body.bytes

/-- The method `restRequest`.  The optional retry counter comes first. -/
def restRequest (w : World) : Nat → Int → RestFn
  | 0, _, _, _, _, _, m => (none, m)
  | fuel + 1, retry, verb, uri, payload, tenant, m =>
    let url := m.sess.urlPrefix ++ uri
    let tenant := if tenant = "" then m.sess.tenant else tenant
    match checkRetryForSleep retry verb url m with
    | (some errorResult, m1) => (some (none, some (.avi errorResult)), m1)
    | (none, m1) =>
      match marshalPayload payload with
      | none =>
        (some (none, some (.avi { verb := verb, url := url, err := some "json: unsupported value" })), m1)
      | some body =>
        match newAviRequest w m1.sess verb url body with
        | (none, errorResult) => (some (none, some (.avi errorResult)), m1)
        | (some req, errorResult) =>
          let req := req.setHeader "Accept" "application/json"
          let req := req.setHeader "X-Avi-Tenant" tenant
          match clientDo w (.dispatch req) m1 with
          | (.fail e, m2) =>
            (some (none, some (.avi { errorResult with err := some ("client.Do failed: " ++ e) })), m2)
          | (.resp resp, m2) =>
            let errorResult := { errorResult with httpStatusCode := resp.status }
            let m3 := { m2 with sess := collectCookiesFromResp m2.sess resp }
            match retryDecision w (restRequest w fuel 0) resp uri m3 with
            | (none, m4) => (none, m4)
            | (some (some err, _), m4) => (some (none, some err), m4)
            | (some (none, true), m4) =>
              match CheckControllerStatus w m4 with
              | ((false, err), m5) => (some (none, err), m5)
              | ((true, _), m5) => restRequest w fuel (retry + 1) verb uri payload tenant m5
            | (some (none, false), m4) =>
              (some (readResponse w errorResult resp), m4)

/-! ## Multipart channels -/

/-- Reading a file to its end with `io.Copy`: the bytes read and the handle
afterwards, or the error of reading a closed handle. -/
def File.readAll (f : File) : Except String (String × File) :=
  if f.closed then .error "file already closed" else .ok (f.unread, { f with unread := "" })

/-- Writing bytes to a file with `io.Copy`.  A source without bytes leads to
no `Write`, so the copy succeeds whatever the state of the handle; a `Write`
on a closed handle fails. -/
def File.write (f : File) (bytes : String) : Except String File :=
  if bytes = "" then .ok f
  else if f.closed then .error "file already closed"
  else .ok { f with written := f.written ++ bytes }

def File.close (f : File) : File := { f with closed := true }

/-- The deferred `x.Close()` of the upload: it runs on every return. -/
def closeOnReturn {α : Type} (r : α × Machine) : α × Machine :=
  (r.1, { r.2 with file := r.2.file.close })

/-- The call `strings.Split(s, "?")`: the pieces of `s` between its question
marks, in order. -/
def stringsSplit : List Char → List (List Char)
  | [] => [[]]
  | c :: cs =>
    if c = '?' then [] :: stringsSplit cs
    else
      match stringsSplit cs with
      | [] => [[c]]
      | piece :: pieces => (c :: piece) :: pieces

/-- The first element of `strings.Split(s, "?")`: the characters that
precede the first question mark. -/
def splitHead : List Char → List Char
  | [] => []
  | c :: cs => if c = '?' then [] else c :: splitHead cs

/-- The method `restMultipartUploadRequest`; the file handle is
`Machine.file`.  The source closes the multipart writer before it writes the
form field `uri`, so in the bytes of the body the field follows the
terminating boundary; `Body.multipart` records the file part and the field
as they were written, not their order.  When `client.Do` fails, the source
declares a second `err` for the result of `httputil.DumpRequestOut` and
returns that one: the error of the dump, nil when the dump succeeds. -/
def restMultipartUploadRequest (w : World) : Nat → Int → String → String → Machine →
    Option (Option GoError) × Machine
  | 0, _, _, _, m => (none, m)
  | fuel + 1, retry, verb, uri, m =>
    let url := m.sess.urlPrefix ++ "/api/fileservice/" ++ uri
    match checkRetryForSleep retry verb url m with
    | (some errorResult, m1) => (some (some (.avi errorResult)), m1)
    | (none, m1) =>
      closeOnReturn <|
      match m1.file.readAll with
      | .error e => (some (some (.other e)), m1)
      | .ok (content, f1) =>
        let m1 := { m1 with file := f1 }
        let uri_temp := "controller://" ++ String.mk (splitHead uri.data)
        let body := Body.multipart f1.name content uri_temp
        match newAviRequest w m1.sess verb url body with
        | (none, errorResult) => (some (some (.avi errorResult)), m1)
        | (some req, errorResult) =>
          let req := req.setHeader "Content-Type" ("multipart/form-data; boundary=" ++ w.boundary)
          match clientDo w (.dispatch req) m1 with
          | (.fail _, m2) => (some ((w.dumpRequestOut req).map .other), m2)
          | (.resp resp, m2) =>
            let errorResult := { errorResult with httpStatusCode := resp.status }
            let m3 := { m2 with sess := collectCookiesFromResp m2.sess resp }
            match retryDecision w (restRequest w fuel 0) resp uri m3 with
            | (none, m4) => (none, m4)
            | (some (some err, _), m4) => (some (some err), m4)
            | (some (none, true), m4) =>
              match CheckControllerStatus w m4 with
              | ((false, err), m5) => (some err, m5)
              | ((true, _), m5) => restMultipartUploadRequest w fuel (retry + 1) verb uri m5
            | (some (none, false), m4) =>
              if resp.status < 200 ∨ resp.status > 299 then
                (some (some (.avi (errorWithBody w errorResult resp))), m4)
              else (some none, m4)

/-- The method `restMultipartDownloadRequest`; the file handle is
`Machine.file`.  The recursive call passes no retry counter, so the callee
starts again at 0. -/
def restMultipartDownloadRequest (w : World) : Nat → Int → String → String → Machine →
    Option (Option GoError) × Machine
  | 0, _, _, _, m => (none, m)
  | fuel + 1, retry, verb, uri, m =>
    let url := m.sess.urlPrefix ++ "/api/fileservice/" ++ uri
    match checkRetryForSleep retry verb url m with
    | (some errorResult, m1) => (some (some (.avi errorResult)), m1)
    | (none, m1) =>
      match newAviRequest w m1.sess verb url .empty with
      | (none, errorResult) => (some (some (.avi errorResult)), m1)
      | (some req, errorResult) =>
        let req := req.setHeader "Accept" "application/json"
        match clientDo w (.dispatch req) m1 with
        | (.fail e, m2) =>
          let msg := "restMultipartDownloadRequest Error for during client request: " ++ e
          (some (some (.avi { errorResult with err := some msg })), m2)
        | (.resp resp, m2) =>
          let errorResult := { errorResult with httpStatusCode := resp.status }
          let m3 := { m2 with sess := collectCookiesFromResp m2.sess resp }
          match retryDecision w (restRequest w fuel 0) resp uri m3 with
          | (none, m4) => (none, m4)
          | (some (some err, _), m4) => (some (some err), m4)
          | (some (none, true), m4) =>
            match CheckControllerStatus w m4 with
            | ((false, err), m5) => (some err, m5)
            | ((true, _), m5) => restMultipartDownloadRequest w fuel 0 verb uri m5
          | (some (none, false), m4) =>
            if resp.status = 204 then (some none, m4)
            else if resp.status < 200 ∨ resp.status > 299 then
              (some (some (.avi (errorWithBody w errorResult resp))), m4)
            else
              match m4.file.write resp.body, resp.readError with
              | .error e, _ => (some (some (.other e)), { m4 with file := m4.file.close })
              | .ok f, some e => (some (some (.other e)), { m4 with file := f.close })
              | .ok f, none => (some none, { m4 with file := f.close })

/-- The method `GetMultipartRaw`; its first parameter is not used. -/
def GetMultipartRaw (w : World) (fuel : Nat) (_verv : String) (uri : String) (m : Machine) :
    Option (Option GoError) × Machine :=
  restMultipartDownloadRequest w fuel 0 "GET" uri m

/-- The method `PostMultipartRequest`; its first parameter is not used. -/
def PostMultipartRequest (w : World) (fuel : Nat) (_verb : String) (uri : String) (m : Machine) :
    Option (Option GoError) × Machine :=
  restMultipartUploadRequest w fuel 0 "POST" uri m

/-! ## Construction -/

/-- The loop of `NewAviSession` over its options: it stops at the first
option that returns an error. -/
def applyOptions : List SessionOption → AviSession → AviSession × Option GoError
  | [], s => (s, none)
  | option :: rest, s =>
    match option s with
    | (s1, some err) => (s1, some err)
    | (s1, none) => applyOptions rest s1

/-- The defaults `NewAviSession` fills in after the options: tenant,
version, transport, timeout, client. -/
def applyDefaults (s : AviSession) : AviSession :=
  let s := if s.tenant = "" then { s with tenant := DEFAULT_API_TENANT } else s
  let s := if s.version = "" then { s with version := DEFAULT_AVI_VERSION } else s
  let s := if s.transport = none then
      { s with transport := some { insecureSkipVerify := true } } else s
  let s := if s.timeout = 0 then { s with timeout := DEFAULT_API_TIMEOUT } else s
  { s with client := some { transport := s.transport, timeout := s.timeout } }

/-- The session `NewAviSession` starts from, before any option is applied. -/
def freshSession (host username : String) : AviSession :=
  { host := host, username := username, sessionid := "", csrfToken := "",
    urlPrefix := "https://" ++ host ++ "/", tenant := "", insecure := false }

/-- The function `NewAviSession`: the error it returns and the session it
returns, as the session of the machine. -/
def NewAviSession (w : World) (fuel : Nat) (host username : String)
    (options : List SessionOption) : Option (Option GoError) × Machine :=
  match applyOptions options (freshSession host username) with
  | (avisess, some err) => (some (some err), { sess := avisess })
  | (avisess, none) =>
    initiateSession w (restRequest w fuel 0) { sess := applyDefaults avisess }

/-! ## Object lookup -/

/-- The Go struct `ApiOptions`; `result` is the sink (`none` when nil). -/
structure ApiOptions where
  name : String := ""
  cloud : String := ""
  cloudUUID : String := ""
  skipDefault : Bool := false
  includeName : Bool := false
  result : Option GoValue := none

/-- The Go type `ApiOptionsParams`: a `func(*ApiOptions) error`. -/
abbrev ApiOptionsParams := ApiOptions → ApiOptions × Option GoError

def ApiOptions.setName (opts : ApiOptions) (name : String) : ApiOptions × Option GoError :=
  ({ opts with name := name }, none)

def SetName (name : String) : ApiOptionsParams := fun opts => opts.setName name

def ApiOptions.setCloud (opts : ApiOptions) (cloud : String) : ApiOptions × Option GoError :=
  ({ opts with cloud := cloud }, none)

def SetCloud (cloud : String) : ApiOptionsParams := fun opts => opts.setCloud cloud

def ApiOptions.setCloudUUID (opts : ApiOptions) (cloudUUID : String) :
    ApiOptions × Option GoError :=
  ({ opts with cloudUUID := cloudUUID }, none)

def SetCloudUUID (cloudUUID : String) : ApiOptionsParams := fun opts => opts.setCloudUUID cloudUUID

def ApiOptions.setSkipDefault (opts : ApiOptions) (skipDefault : Bool) :
    ApiOptions × Option GoError :=
  ({ opts with skipDefault := skipDefault }, none)

def SetSkipDefault (skipDefault : Bool) : ApiOptionsParams :=
  fun opts => opts.setSkipDefault skipDefault

def ApiOptions.setIncludeName (opts : ApiOptions) (includeName : Bool) :
    ApiOptions × Option GoError :=
  ({ opts with includeName := includeName }, none)

def SetIncludeName (includeName : Bool) : ApiOptionsParams :=
  fun opts => opts.setIncludeName includeName

def ApiOptions.setResult (opts : ApiOptions) (result : Option GoValue) :
    ApiOptions × Option GoError :=
  ({ opts with result := result }, none)

def SetResult (result : Option GoValue) : ApiOptionsParams := fun opts => opts.setResult result

/-- The loop over the options at the head of `GetUri` and of `GetObject`: it
stops at the first option that returns an error. -/
def applyApiOptions : List ApiOptionsParams → ApiOptions → ApiOptions × Option GoError
  | [], opts => (opts, none)
  | opt :: rest, opts =>
    match opt opts with
    | (opts1, some err) => (opts1, some err)
    | (opts1, none) => applyApiOptions rest opts1

/-- The method `GetUri`: the URI and the error. -/
def GetUri (obj : String) (options : List ApiOptionsParams) : String × Option GoError :=
  match applyApiOptions options {} with
  | (_, some err) => ("", some err)
  | (opts, none) =>
    if opts.result.isNone then ("", some (.other "reference to result provided"))
    else if opts.name = "" then ("", some (.other "Name not specified"))
    else
      let uri := "api/" ++ obj ++ "?name=" ++ opts.name
      let uri :=
        if opts.cloud ≠ "" then uri ++ "&cloud=" ++ opts.cloud
        else if opts.cloudUUID ≠ "" then uri ++ "&cloud_ref.uuid=" ++ opts.cloudUUID
        else uri
      let uri := if opts.skipDefault then uri ++ "&skip_default=true" else uri
      let uri := if opts.includeName then uri ++ "&include_name=true" else uri
      (uri, none)

/-- The method `GetCollectionRaw`. -/
def GetCollectionRaw (w : World) (rest : RestFn) (uri tenant : String) (m : Machine) :
    Option (AviCollectionResult × Option GoError) × Machine :=
  match rest "GET" uri .null tenant m with
  | (none, m1) => (none, m1)
  | (some (res, rerror), m1) =>
    match rerror, res with
    | some e, _ => (some ({}, some e), m1)
    | none, none => (some ({}, none), m1)
    | none, some bytes =>
      match w.unmarshalCollection bytes with
      | (result, none) => (some (result, none), m1)
      | (result, some e) => (some (result, some (.other e)), m1)

/-- The call `json.Unmarshal(raw, &sink)` on a `json.RawMessage`; a nil raw
message is an unexpected end of input. -/
def unmarshalRawInto (w : World) (raw : Option String) (sink : Option GoValue) :
    Except String (Option GoValue) :=
  match raw with
  | none => .error "unexpected end of JSON input"
  | some bytes => unmarshalInto w bytes sink

/-- The method `GetCollection`. -/
def GetCollection (w : World) (rest : RestFn) (uri : String) (objList : Option GoValue)
    (tenant : String) (m : Machine) : Option VerbResult × Machine :=
  match GetCollectionRaw w rest uri tenant m with
  | (none, m1) => (none, m1)
  | (some (_, some err), m1) => (some (some err, objList), m1)
  | (some (result, none), m1) =>
    if result.Count = 0 then (some (none, objList), m1)
    else
      match unmarshalRawInto w result.Results objList with
      | .ok sink => (some (none, sink), m1)
      | .error e => (some (some (.other e), objList), m1)

/-- How a Go call ends: it returns, or it panics. -/
inductive GoReturn (α : Type) where
  | returned (a : α)
  | panicked (msg : String)

/-- The method `GetObject`: the error and the contents of the sink held by
the options.  The options are applied once here and once more inside
`GetUri`. -/
def GetObject (w : World) (rest : RestFn) (obj tenant : String)
    (options : List ApiOptionsParams) (m : Machine) : Option (GoReturn VerbResult) × Machine :=
  match applyApiOptions options {} with
  | (opts, some err) => (some (.returned (some err, opts.result)), m)
  | (opts, none) =>
    match GetUri obj options with
    | (_, some err) => (some (.returned (some err, opts.result)), m)
    | (uri, none) =>
      match GetCollectionRaw w rest uri tenant m with
      | (none, m1) => (none, m1)
      | (some (_, some err), m1) => (some (.returned (some err, opts.result)), m1)
      | (some (res, none), m1) =>
        if res.Count = 0 then
          (some (.returned (some (.other
            ("No object of type " ++ obj ++ " with name " ++ opts.name ++ "is found")),
            opts.result)), m1)
        else if res.Count > 1 then
          (some (.returned (some (.other
            ("More than one object of type " ++ obj ++ " with name " ++ opts.name ++
              "is found")),
            opts.result)), m1)
        else
          match w.unmarshalRawList res.Results with
          | .error e => (some (.returned (some (.other e), opts.result)), m1)
          | .ok [] => (some (.panicked "index out of range [0] with length 0"), m1)
          | .ok (first :: _) =>
            match unmarshalInto w first opts.result with
            | .ok sink => (some (.returned (none, sink)), m1)
            | .error e => (some (.returned (some (.other e), opts.result)), m1)

/-- The method `GetObjectByName`. -/
def GetObjectByName (w : World) (rest : RestFn) (obj name : String) (result : Option GoValue)
    (tenant : List String) (m : Machine) : Option (GoReturn VerbResult) × Machine :=
  GetObject w rest obj (locTenant m tenant) [SetName name, SetResult result] m

/-! ## Reading the trace -/

/-- The requests dispatched at nesting depth `d`, in order. -/
def dispatchesAt (d : Nat) (trace : List (Nat × Event)) : List Request :=
  trace.filterMap fun e =>
    match e with
    | (k, .dispatch r) => if k = d then some r else none
    | _ => none

/-- The trace entries a call added: those of `m'` beyond those of `m`. -/
def newEntries (m m' : Machine) : List (Nat × Event) :=
  m'.trace.drop m.trace.length

/-- The dispatches a call made of its own request, retries included: the
dispatches at the caller's depth among the new entries.  The requests of a
re-login the call triggered lie deeper and are not among them. -/
def ownDispatches (m m' : Machine) : List Request :=
  dispatchesAt m.depth (newEntries m m')

/-- The value of the most recent cookie called `name` in a sequence of
responses, if there is one. -/
def lastCookieValue (name : String) (resps : List Response) : Option String :=
  (((resps.flatMap fun r => r.cookies).filter fun c => c.name = name).getLast?).map
    fun c => c.value

/-- The tenant a call is to be scoped to: the per-call tenant when one is
provided (an empty string counts as none), the session's default otherwise. -/
def effectiveTenant (sessionDefault : String) (perCall : Option String) : String :=
  match perCall with
  | some t => if t = "" then sessionDefault else t
  | none => sessionDefault

/-- The tenant contract of one call that took the machine from `m` to `m'`:
every dispatch of the call's own request carries the tenant `t` in its
`X-Avi-Tenant` header, `t` is not empty, and the session's default tenant is
what it was. -/
def TenantScoped (t : String) (m m' : Machine) : Prop :=
  (∀ r ∈ ownDispatches m m', headerGet r.header "X-Avi-Tenant" = some t) ∧ t ≠ "" ∧
    m'.sess.tenant = m.sess.tenant

/-- The URI of the object query as the specification writes it:
`api/<obj>?name=<name>[&cloud=…|&cloud_ref.uuid=…][&skip_default=true][&include_name=true]`,
the cloud name taking precedence over the cloud UUID. -/
def specObjectUri (obj : String) (opts : ApiOptions) : String :=
  "api/" ++ obj ++ "?name=" ++ opts.name ++
    (if opts.cloud ≠ "" then "&cloud=" ++ opts.cloud
      else if opts.cloudUUID ≠ "" then "&cloud_ref.uuid=" ++ opts.cloudUUID else "") ++
    (if opts.skipDefault then "&skip_default=true" else "") ++
    (if opts.includeName then "&include_name=true" else "")

/-- Whether an outcome of the cluster-status request ends the polling: a
response whose status is none of 503, 502 and 500.  A transport error does
not. -/
def probeReady : DoResult → Bool
  | .resp r => r.status ≠ 503 ∧ r.status ≠ 502 ∧ r.status ≠ 500
  | .fail _ => false

/-- The number of cluster-status requests in a piece of trace. -/
def probesIn (trace : List (Nat × Event)) : Nat :=
  trace.countP fun e =>
    match e.2 with
    | .probe _ => true
    | _ => false

/-- The number of sleeps of the readiness probe in a piece of trace. -/
def probeSleepsIn (trace : List (Nat × Event)) : Nat :=
  trace.countP fun e =>
    match e.2 with
    | .probeSleep _ => true
    | _ => false

/-- The number of dispatches in a piece of trace, at every depth: those of a
call and those of the re-logins it triggered. -/
def dispatchesIn (trace : List (Nat × Event)) : Nat :=
  trace.countP fun e =>
    match e.2 with
    | .dispatch _ => true
    | _ => false

/-- The number of invocations of the readiness probe in a piece of trace. -/
def readinessIn (trace : List (Nat × Event)) : Nat :=
  trace.countP fun e =>
    match e.2 with
    | .readiness => true
    | _ => false

/-- The sleeps of `checkRetryForSleep` in a piece of trace, in milliseconds
and in order. -/
def sleepsIn (trace : List (Nat × Event)) : List Nat :=
  trace.filterMap fun e =>
    match e.2 with
    | .sleep ms => some ms
    | _ => none

/-- The sleep that precedes the attempt with the retry counter `r`, as
`checkRetryForSleep` takes it: none before the first attempt. -/
def sleepBefore (r : Nat) : List Nat :=
  if r = 1 then [100] else if r = 2 then [500] else if r = 3 then [1000] else []

/-! ## Invariants of a call -/

/-- The relation between the machine before and after a call that is made
at depth `m.depth`: depth, default tenant and URL base are unchanged, the
trace has only grown, the new entries lie at the caller's depth or deeper,
and the dispatches among them at the caller's depth are at most `n` and all
satisfy `P`. -/
structure Step (P : Request → Prop) (n : Nat) (m m' : Machine) : Prop where
  depth_eq : m'.depth = m.depth
  tenant_eq : m'.sess.tenant = m.sess.tenant
  base_eq : m'.sess.urlPrefix = m.sess.urlPrefix
  ext : ∃ new, m'.trace = m.trace ++ new ∧ (∀ e ∈ new, m.depth ≤ e.1) ∧
    (∀ r ∈ dispatchesAt m.depth new, P r) ∧ (dispatchesAt m.depth new).length ≤ n

/-- The request `restRequest` is to send: verb, URL, tenant header and
encoded payload. -/
def RequestOf (verb url tenant : String) (payload : GoValue) (r : Request) : Prop :=
  r.verb = verb ∧ r.url = url ∧ headerGet r.header "X-Avi-Tenant" = some tenant ∧
    marshalPayload payload = some r.body

/-- The request the upload is to send: verb, URL, and a multipart body
whose form field `uri` is "controller://" followed by the first piece of the
uri. -/
def UploadOf (verb url uri : String) (r : Request) : Prop :=
  r.verb = verb ∧ r.url = url ∧
    ∃ name content,
      r.body = .multipart name content ("controller://" ++ String.mk (splitHead uri.data))

/-- The request the download is to send: verb, URL, no body. -/
def DownloadOf (verb url : String) (r : Request) : Prop :=
  r.verb = verb ∧ r.url = url ∧ r.body = .empty

/-- What a call may do to the credentials of the session `s`, leaving `s'`:
user name, password and refresh callback stay; without a callback the auth
token stays, with a callback the auth token stays or becomes a value the
callback returned. -/
def CredsKept (s s' : AviSession) : Prop :=
  s'.username = s.username ∧ s'.password = s.password ∧
    s'.refreshAuthToken = s.refreshAuthToken ∧
    (s.refreshAuthToken = none → s'.authToken = s.authToken) ∧
    (∀ f, s.refreshAuthToken = some f → s'.authToken = s.authToken ∨ ∃ k, s'.authToken = f k)

/-- The token state of the machine is as it was: the number of calls made of
the refresh callback, the auth token and the callback itself. -/
def TokenKept (m m' : Machine) : Prop :=
  m'.refreshes = m.refreshes ∧ m'.sess.authToken = m.sess.authToken ∧
    m'.sess.refreshAuthToken = m.sess.refreshAuthToken

/-- What a call may do to the token state: nothing, or it has called the
refresh callback again and the session holds the value of the most recent
call (the calls are numbered from 0). -/
def TokenAdvanced (m m' : Machine) : Prop :=
  TokenKept m m' ∨
    (m'.sess.refreshAuthToken = m.sess.refreshAuthToken ∧ m.refreshes < m'.refreshes ∧
      ∀ f, m.sess.refreshAuthToken = some f → m'.sess.authToken = f (m'.refreshes - 1))

/-- An error that is an `AviError` with the given verb and URL. -/
def OwnError (verb url : String) (e : GoError) : Prop :=
  ∃ a, e = .avi a ∧ a.verb = verb ∧ a.url = url

/-- The error of a readiness probe that could not build its request, for a
session with the URL base `base`: the error of `http.NewRequest` for the
cluster-status URL, handed on as it is. -/
def ProbeError (w : World) (base : String) (e : GoError) : Prop :=
  ∃ msg, w.newRequestError "GET" (base ++ "/api/cluster/status") = some msg ∧ e = .other msg

/-- An error of `json.Unmarshal` on the body of a response of the controller,
handed on as it is. -/
def DecodeError (w : World) (e : GoError) : Prop :=
  ∃ n r msg, w.controller n = .resp r ∧ w.jsonUnmarshal r.body = .error msg ∧ e = .other msg

/-- The error of a failed re-login of a session with the URL base `base`,
handed on as it is.  It is the error of the POST on "login": an `AviError`
with the verb POST and the login URL, or the error of a readiness probe the
login went through, or the error of `json.Unmarshal` on the answer to the
login. -/
def ReloginError (w : World) (base : String) (e : GoError) : Prop :=
  OwnError "POST" (base ++ "login") e ∨ ProbeError w base e ∨ DecodeError w e

/-- What the upload returns when the dispatch of its own request fails at the
transport and `httputil.DumpRequestOut` fails on that request: the error of
the dump. -/
def DumpError (w : World) (verb url : String) (e : GoError) : Prop :=
  ∃ req n msg d, req.verb = verb ∧ req.url = url ∧ w.controller n = .fail msg ∧
    w.dumpRequestOut req = some d ∧ e = .other d

/-- An error of `io.Copy`, handed on as it is: a closed file handle or a
response body that could not be read. -/
def CopyError (w : World) (e : GoError) : Prop :=
  ∃ msg, e = .other msg ∧
    (msg = "file already closed" ∨ ∃ n r, w.controller n = .resp r ∧ r.readError = some msg)

/-! ## Sample inputs -/

/-- A constructed session on host `h`. -/
def sampleSession : AviSession :=
  { host := "h", username := "u", password := "p", tenant := "admin",
    version := "17.1.2", urlPrefix := "https://h/" }

/-- The sample session with a refresh callback that returns "tok0", "tok1",
and so on. -/
def tokenSession : AviSession :=
  { sampleSession with refreshAuthToken := some fun n => "tok" ++ showNat n }

/-- A machine at rest holding the sample session. -/
def sampleMachine : Machine := { sess := sampleSession }

/-- A controller that answers every request with the same status and an
empty body. -/
def always (status : Nat) : World :=
  { controller := fun _ => .resp { status := status } }

/-- A controller that gives the listed answers in turn and an empty 200 once
the list is used up. -/
def replying (resps : List Response) : World :=
  { controller := fun n => .resp (resps.getD n { status := 200 }) }

/-- A `json.Unmarshal` that knows one document, an object with the key
"error" and the value "gone", and rejects everything else. -/
def sampleDecode (s : String) : Except String GoValue :=
  if s = "\x7b\"error\":\"gone\"\x7d" then .ok (.map [("error", .str "gone")])
  else .error "invalid character"

/-- The `%v` rendering of the document of `sampleDecode`, and of nil. -/
def samplePrint : GoValue → String
  | .map [("error", .str e)] => "map[error:" ++ e ++ "]"
  | _ => "<nil>"

/-- A controller that gives the listed answers in turn, with the decoder and
the printer of the samples. -/
def decoding (resps : List Response) : World :=
  { controller := fun n => .resp (resps.getD n { status := 200 }),
    jsonUnmarshal := sampleDecode, sprintv := samplePrint }

/-- A controller that answers every request with an empty 200 and whose
answers decode to a collection with the given count and the given raw
results, each of which decodes to an object with the name "p". -/
def collecting (count : Int) (elems : List String) : World :=
  { controller := fun _ => .resp { status := 200, body := "collection" },
    unmarshalCollection := fun _ => ({ Count := count, Results := some "results" }, none),
    unmarshalRawList := fun _ => .ok elems,
    jsonUnmarshal := fun _ => .ok (.map [("name", .str "p")]) }

/-- A controller that cannot be reached: every request fails at the
transport. -/
def unreachable : World :=
  { controller := fun _ => .fail "connection refused" }

/-- A controller that answers with the listed statuses in turn and with 200
once the list is used up. -/
def answering (statuses : List Nat) : World :=
  { controller := fun n => .resp { status := statuses.getD n 200 } }


/-! ## Retry schedule -/

theorem checkRetryForSleep_abort (r : Int) (hr : 4 ≤ r) (verb url : String) (m : Machine) :
    checkRetryForSleep r verb url m =
      (some { verb := verb, url := url, err := some "tried 3 times and failed" }, m) := by
  have h0 : r ≠ 0 := by omega
  have h1 : r ≠ 1 := by omega
  have h2 : r ≠ 2 := by omega
  have h3 : r ≠ 3 := by omega
  have h4 : r > 3 := by omega
  simp [checkRetryForSleep, h0, h1, h2, h3, h4]

theorem checkRetryForSleep_none (retry : Int) (verb url : String) (m : Machine)
    (h : (checkRetryForSleep retry verb url m).1 = none) : retry ≤ 3 := by
  by_contra hc
  have h4 : 4 ≤ retry := by omega
  rw [checkRetryForSleep_abort retry h4] at h
  simp at h

/-- C2: `checkRetryForSleep` sleeps 0, 100 ms, 500 ms and 1 s before the
attempts 0, 1, 2 and 3 and returns no error; for every retry counter of 4
or more it does not sleep and returns the `AviError` that carries the given
verb and url and the inner error "tried 3 times and failed". -/
theorem checkRetryForSleep_schedule (verb url : String) (m : Machine) :
    checkRetryForSleep 0 verb url m = (none, m) ∧
    checkRetryForSleep 1 verb url m = (none, m.log (.sleep 100)) ∧
    checkRetryForSleep 2 verb url m = (none, m.log (.sleep 500)) ∧
    checkRetryForSleep 3 verb url m = (none, m.log (.sleep 1000)) ∧
    ∀ r : Int, 4 ≤ r →
      checkRetryForSleep r verb url m =
        (some { code := 0, message := none, verb := verb, url := url, httpStatusCode := 0,
                err := some "tried 3 times and failed" }, m) := by
  refine ⟨by simp [checkRetryForSleep], by simp [checkRetryForSleep],
    by simp [checkRetryForSleep], by simp [checkRetryForSleep], ?_⟩
  intro r hr
  exact checkRetryForSleep_abort r hr verb url m

/-- The schedule of C2 at the retry counter 7, on a GET of the sample
session. -/
theorem checkRetryForSleep_schedule_witness :
    (4 : Int) ≤ 7 ∧
    checkRetryForSleep 7 "GET" "https://h/api/pool" sampleMachine =
      (some { verb := "GET", url := "https://h/api/pool",
              err := some "tried 3 times and failed" }, sampleMachine) :=
  ⟨by decide,
    (checkRetryForSleep_schedule "GET" "https://h/api/pool" sampleMachine).2.2.2.2 7 (by decide)⟩


/-! ## Cookies -/

theorem collectCookie_csrfToken (s : AviSession) (c : Cookie) :
    (collectCookie s c).csrfToken = if c.name = "csrftoken" then c.value else s.csrfToken := by
  unfold collectCookie
  by_cases h1 : c.name = "csrftoken" <;> by_cases h2 : c.name = "sessionid" <;>
    by_cases h3 : c.name = "avi-sessionid" <;> simp [h1, h2, h3]

theorem collectCookie_sessionid (s : AviSession) (c : Cookie) :
    (collectCookie s c).sessionid =
      if c.name = "sessionid" ∨ c.name = "avi-sessionid" then c.value else s.sessionid := by
  unfold collectCookie
  by_cases h1 : c.name = "csrftoken" <;> by_cases h2 : c.name = "sessionid" <;>
    by_cases h3 : c.name = "avi-sessionid" <;> simp [h1, h2, h3]

theorem collectCookie_tenant (s : AviSession) (c : Cookie) :
    (collectCookie s c).tenant = s.tenant ∧ (collectCookie s c).urlPrefix = s.urlPrefix := by
  unfold collectCookie
  by_cases h1 : c.name = "csrftoken" <;> by_cases h2 : c.name = "sessionid" <;>
    by_cases h3 : c.name = "avi-sessionid" <;> simp [h1, h2, h3]

theorem foldl_collectCookie_csrfToken (cs : List Cookie) (s : AviSession) :
    (cs.foldl collectCookie s).csrfToken =
      (((cs.filter fun c => c.name = "csrftoken").getLast?).map fun c => c.value).getD
        s.csrfToken := by
  induction cs using List.reverseRecOn with
  | nil => simp
  | append_singleton cs c ih =>
    rw [List.foldl_append, List.filter_append]
    simp only [List.foldl_cons, List.foldl_nil, collectCookie_csrfToken]
    by_cases h : c.name = "csrftoken"
    · simp [h, List.filter_cons]
    · simp [h, List.filter_cons, ih]

theorem foldl_collectCookie_sessionid (cs : List Cookie) (s : AviSession) :
    (cs.foldl collectCookie s).sessionid =
      (((cs.filter fun c => c.name = "sessionid" ∨ c.name = "avi-sessionid").getLast?).map
        fun c => c.value).getD s.sessionid := by
  induction cs using List.reverseRecOn with
  | nil => simp
  | append_singleton cs c ih =>
    rw [List.foldl_append, List.filter_append]
    simp only [List.foldl_cons, List.foldl_nil, collectCookie_sessionid]
    by_cases h : c.name = "sessionid" ∨ c.name = "avi-sessionid"
    · simp [h, List.filter_cons]
    · simp [h, List.filter_cons, ih]

theorem foldl_collectCookie_tenant (cs : List Cookie) (s : AviSession) :
    (cs.foldl collectCookie s).tenant = s.tenant ∧
      (cs.foldl collectCookie s).urlPrefix = s.urlPrefix := by
  induction cs generalizing s with
  | nil => simp
  | cons c cs ih =>
    simp only [List.foldl_cons]
    rw [(ih _).1, (ih _).2]
    exact collectCookie_tenant s c

theorem foldl_collectCookiesFromResp (resps : List Response) (s : AviSession) :
    resps.foldl collectCookiesFromResp s =
      (resps.flatMap fun r => r.cookies).foldl collectCookie s := by
  induction resps generalizing s with
  | nil => rfl
  | cons r rs ih =>
    simp only [List.foldl_cons, List.flatMap_cons, List.foldl_append]
    rw [ih]
    rfl

/-- What `newAviRequest` builds when `http.NewRequest` succeeds: the headers
it sets and the cookies it adds, in the order of the source. -/
theorem newAviRequest_built (w : World) (s : AviSession) (verb url : String) (body : Body)
    (req : Request) (e : AviError) (h : newAviRequest w s verb url body = (some req, e)) :
    w.newRequestError verb url = none ∧
    e = { verb := verb, url := url } ∧
    req.verb = verb ∧ req.url = url ∧ req.body = body ∧
    req.cookies =
      (if s.csrfToken ≠ "" then [{ name := "csrftoken", value := s.csrfToken }] else []) ++
      (if s.sessionid ≠ "" then
        [{ name := "sessionid", value := s.sessionid },
         { name := "avi-sessionid", value := s.sessionid }] else []) ∧
    headerGet req.header "X-CSRFToken" = (if s.csrfToken ≠ "" then some s.csrfToken else none) := by
  unfold newAviRequest at h
  cases hn : w.newRequestError verb url with
  | some msg => simp [hn] at h
  | none =>
    simp only [hn, Prod.mk.injEq, Option.some.injEq] at h
    obtain ⟨hreq, he⟩ := h
    subst hreq
    subst he
    refine ⟨rfl, rfl, ?_, ?_, ?_, ?_, ?_⟩
    all_goals
      by_cases h1 : s.csrfToken = "" <;> by_cases h2 : s.urlPrefix = "" <;>
        by_cases h3 : s.tenant = "" <;> by_cases h4 : s.sessionid = "" <;>
        simp [h1, h2, h3, h4, Request.setHeader, Request.addCookie, headerSet, headerGet]


/-! ## Trace bookkeeping -/

theorem dispatchesAt_append (d : Nat) (a b : List (Nat × Event)) :
    dispatchesAt d (a ++ b) = dispatchesAt d a ++ dispatchesAt d b := by
  simp [dispatchesAt, List.filterMap_append]

theorem dispatchesAt_nil (d : Nat) : dispatchesAt d [] = [] := rfl

theorem dispatchesAt_dispatch (d : Nat) (r : Request) :
    dispatchesAt d [(d, .dispatch r)] = [r] := by
  simp [dispatchesAt]

theorem dispatchesAt_other (d k : Nat) (e : Event) (h : ∀ r, e ≠ .dispatch r) :
    dispatchesAt d [(k, e)] = [] := by
  cases e <;> simp [dispatchesAt] at h ⊢

theorem dispatchesAt_deeper (d : Nat) (new : List (Nat × Event))
    (h : ∀ e ∈ new, d + 1 ≤ e.1) : dispatchesAt d new = [] := by
  induction new with
  | nil => rfl
  | cons e es ih =>
    have he := h e (List.mem_cons_self _ _)
    have hes : ∀ x ∈ es, d + 1 ≤ x.1 := fun x hx => h x (List.mem_cons_of_mem _ hx)
    have htail := ih hes
    obtain ⟨k, ev⟩ := e
    simp only at he
    have hk : k ≠ d := by omega
    have hsplit : (k, ev) :: es = [(k, ev)] ++ es := rfl
    rw [hsplit, dispatchesAt_append, htail]
    cases ev <;> simp [dispatchesAt, hk]

theorem headerGet_headerSet (h : List (String × String)) (k v : String) :
    headerGet (headerSet h k v) k = some v := by
  induction h with
  | nil => simp [headerSet, headerGet]
  | cons x xs ih =>
    obtain ⟨k0, v0⟩ := x
    by_cases hk : k0 = k
    · simp [headerSet, headerGet, hk]
    · simp [headerSet, headerGet, hk, ih]

theorem headerGet_headerSet_ne (h : List (String × String)) (k k1 v : String) (hne : k ≠ k1) :
    headerGet (headerSet h k v) k1 = headerGet h k1 := by
  induction h with
  | nil => simp [headerSet, headerGet, hne]
  | cons x xs ih =>
    obtain ⟨k0, v0⟩ := x
    by_cases hk : k0 = k
    · subst hk
      simp [headerSet, headerGet, hne]
    · by_cases hk1 : k0 = k1
      · subst hk1
        simp [headerSet, headerGet, hk]
      · simp [headerSet, headerGet, hk, hk1, ih]

/-! ## Composition of steps -/

theorem Step.refl (P : Request → Prop) (n : Nat) (m : Machine) : Step P n m m :=
  ⟨rfl, rfl, rfl, [], by simp, by simp, by simp [dispatchesAt], by simp [dispatchesAt]⟩

theorem Step.trans {P : Request → Prop} {a b : Nat} {m m1 m2 : Machine}
    (h1 : Step P a m m1) (h2 : Step P b m1 m2) : Step P (a + b) m m2 := by
  obtain ⟨d1, t1, b1, n1, e1, g1, p1, c1⟩ := h1
  obtain ⟨d2, t2, b2, n2, e2, g2, p2, c2⟩ := h2
  refine ⟨d2.trans d1, t2.trans t1, b2.trans b1, n1 ++ n2, ?_, ?_, ?_, ?_⟩
  · rw [e2, e1, List.append_assoc]
  · intro e he
    rcases List.mem_append.1 he with h | h
    · exact g1 e h
    · have := g2 e h
      omega
  · intro r hr
    rw [dispatchesAt_append] at hr
    rcases List.mem_append.1 hr with h | h
    · exact p1 r h
    · rw [d1] at p2
      exact p2 r h
  · rw [dispatchesAt_append, List.length_append]
    rw [d1] at c2
    omega

theorem Step.mono {P : Request → Prop} {a b : Nat} {m m1 : Machine}
    (h : Step P a m m1) (hab : a ≤ b) : Step P b m m1 := by
  obtain ⟨d1, t1, b1, n1, e1, g1, p1, c1⟩ := h
  exact ⟨d1, t1, b1, n1, e1, g1, p1, by omega⟩

theorem Step.imp {P Q : Request → Prop} {a : Nat} {m m1 : Machine}
    (h : Step P a m m1) (hPQ : ∀ r, P r → Q r) : Step Q a m m1 := by
  obtain ⟨d1, t1, b1, n1, e1, g1, p1, c1⟩ := h
  exact ⟨d1, t1, b1, n1, e1, g1, fun r hr => hPQ r (p1 r hr), c1⟩

/-- A step without a dispatch at the caller's depth satisfies any `P`. -/
theorem Step.zero {P Q : Request → Prop} {m m1 : Machine} (h : Step P 0 m m1) :
    Step Q 0 m m1 := by
  obtain ⟨d1, t1, b1, n1, e1, g1, p1, c1⟩ := h
  have hnil : dispatchesAt m.depth n1 = [] := List.length_eq_zero.1 (by omega)
  exact ⟨d1, t1, b1, n1, e1, g1, by simp [hnil], by simp [hnil]⟩

theorem step_log (P : Request → Prop) (m : Machine) (e : Event) (h : ∀ r, e ≠ .dispatch r) :
    Step P 0 m (m.log e) := by
  refine ⟨rfl, rfl, rfl, [(m.depth, e)], rfl, by simp, ?_, ?_⟩
  · rw [dispatchesAt_other _ _ _ h]; simp
  · rw [dispatchesAt_other _ _ _ h]; simp

theorem step_dispatch (P : Request → Prop) (w : World) (m : Machine) (req : Request)
    (h : P req) : Step P 1 m (clientDo w (.dispatch req) m).2 := by
  refine ⟨rfl, rfl, rfl, [(m.depth, .dispatch req)], rfl, by simp, ?_, ?_⟩
  · rw [dispatchesAt_dispatch]; simpa using h
  · rw [dispatchesAt_dispatch]; simp

theorem step_probe (P : Request → Prop) (w : World) (m : Machine) (url : String) :
    Step P 0 m (clientDo w (.probe url) m).2 := by
  have h : ∀ r, Event.probe url ≠ .dispatch r := by intro r; simp
  refine ⟨rfl, rfl, rfl, [(m.depth, .probe url)], rfl, by simp, ?_, ?_⟩
  · rw [dispatchesAt_other _ _ _ h]; simp
  · rw [dispatchesAt_other _ _ _ h]; simp

theorem step_sess (P : Request → Prop) (m : Machine) (s : AviSession)
    (ht : s.tenant = m.sess.tenant) (hb : s.urlPrefix = m.sess.urlPrefix) :
    Step P 0 m { m with sess := s } :=
  ⟨rfl, ht, hb, [], by simp, by simp, by simp [dispatchesAt], by simp [dispatchesAt]⟩

theorem step_file (P : Request → Prop) (m : Machine) (f : File) :
    Step P 0 m { m with file := f } :=
  ⟨rfl, rfl, rfl, [], by simp, by simp, by simp [dispatchesAt], by simp [dispatchesAt]⟩

theorem step_collect (P : Request → Prop) (m : Machine) (resp : Response) :
    Step P 0 m { m with sess := collectCookiesFromResp m.sess resp } :=
  step_sess P m _ (foldl_collectCookie_tenant _ _).1 (foldl_collectCookie_tenant _ _).2

theorem step_checkRetryForSleep (P : Request → Prop) (retry : Int) (verb url : String)
    (m : Machine) : Step P 0 m (checkRetryForSleep retry verb url m).2 := by
  unfold checkRetryForSleep
  split
  · exact Step.refl _ _ _
  split
  · exact step_log _ _ _ (by intro r; simp)
  split
  · exact step_log _ _ _ (by intro r; simp)
  split
  · exact step_log _ _ _ (by intro r; simp)
  split
  · exact Step.refl _ _ _
  · exact Step.refl _ _ _

theorem step_probeRounds (P : Request → Prop) (w : World) (url : String) (n round : Nat)
    (m : Machine) : Step P 0 m (probeRounds w url n round m).2 := by
  induction n generalizing round m with
  | zero => exact Step.refl _ _ _
  | succ n ih =>
    unfold probeRounds
    split
    · exact Step.refl _ _ _
    · have hp := step_probe P w m url
      split
      · rename_i stateResp m1 heq
        have hm1 : m1 = (clientDo w (.probe url) m).2 := by rw [heq]
        split
        · rw [hm1]; exact hp
        · have h2 := step_log P m1 (.probeSleep round) (by intro r; simp)
          have h3 := ih (round + 1) (m1.log (.probeSleep round))
          rw [hm1] at h2 h3 ⊢
          exact (hp.trans h2).trans h3
      · rename_i msg m1 heq
        have hm1 : m1 = (clientDo w (.probe url) m).2 := by rw [heq]
        have h2 := step_log P m1 (.probeSleep round) (by intro r; simp)
        have h3 := ih (round + 1) (m1.log (.probeSleep round))
        rw [hm1] at h2 h3 ⊢
        exact (hp.trans h2).trans h3

theorem step_CheckControllerStatus (P : Request → Prop) (w : World) (m : Machine) :
    Step P 0 m (CheckControllerStatus w m).2 := by
  unfold CheckControllerStatus
  have h1 := step_log P m .readiness (by intro r; simp)
  have h2 := step_probeRounds P w (m.sess.urlPrefix ++ "/api/cluster/status") 10 0
    (m.log .readiness)
  exact h1.trans h2


/-! ## The verbs leave the machine as `restRequest` leaves it -/

theorem restRequestInterfaceResponse_machine (w : World) (rest : RestFn) (verb url : String)
    (payload : GoValue) (response : Option GoValue) (tenant : String) (m : Machine) :
    (restRequestInterfaceResponse w rest verb url payload response tenant m).2 =
      (rest verb url payload tenant m).2 := by
  unfold restRequestInterfaceResponse
  split
  · rename_i h; rw [h]
  · rename_i h
    rw [h]
    split
    · rfl
    · rfl
    · split <;> rfl

theorem refreshToken_same (m : Machine) :
    (refreshToken m).depth = m.depth ∧ (refreshToken m).trace = m.trace ∧
    (refreshToken m).clock = m.clock ∧
    (refreshToken m).sess.tenant = m.sess.tenant ∧
    (refreshToken m).sess.urlPrefix = m.sess.urlPrefix := by
  unfold refreshToken
  split
  · split <;> simp [AviSession.setAuthToken]
  · simp

/-- A nested run, one level deeper and behind a `reauth` entry, adds no
dispatch at the caller's depth. -/
theorem step_nested {P Q : Request → Prop} {n : Nat} (m m1 m3 : Machine)
    (hd : m1.depth = m.depth + 1) (ht : m1.trace = m.trace ++ [(m.depth, .reauth)])
    (hten : m1.sess.tenant = m.sess.tenant) (hb : m1.sess.urlPrefix = m.sess.urlPrefix)
    (h : Step Q n m1 m3) : Step P 0 m { m3 with depth := m.depth } := by
  obtain ⟨d1, t1, b1, new, e1, g1, _, _⟩ := h
  have hdeep : ∀ e ∈ new, m.depth + 1 ≤ e.1 := by
    intro e he
    have := g1 e he
    omega
  have hnil : dispatchesAt m.depth ((m.depth, Event.reauth) :: new) = [] := by
    have hsplit : (m.depth, Event.reauth) :: new = [(m.depth, Event.reauth)] ++ new := rfl
    rw [hsplit, dispatchesAt_append, dispatchesAt_deeper _ _ hdeep,
      dispatchesAt_other _ _ _ (by intro r; simp)]
    rfl
  refine ⟨rfl, t1.trans hten, b1.trans hb, (m.depth, .reauth) :: new, ?_, ?_, ?_, ?_⟩
  · show m3.trace = _
    rw [e1, ht, List.append_assoc]
    rfl
  · intro e he
    rcases List.mem_cons.1 he with h | h
    · rw [h]
    · have := hdeep e h
      omega
  · rw [hnil]; simp
  · rw [hnil]; simp

theorem step_initiateSession (P : Request → Prop) (w : World) (rest : RestFn) (k : Nat)
    (hrest : ∀ v u p t m, Step (fun _ => True) k m (rest v u p t m).2) (m : Machine) :
    Step P 0 m (initiateSession w rest m).2 := by
  have hr := refreshToken_same { m.log .reauth with depth := m.depth + 1 }
  obtain ⟨hd, ht, _, hten, hb⟩ := hr
  have hget : Step (fun _ => True) k
      (refreshToken { m.log .reauth with depth := m.depth + 1 })
      (Get w rest "" none [] (refreshToken { m.log .reauth with depth := m.depth + 1 })).2 := by
    unfold Get
    rw [restRequestInterfaceResponse_machine]
    exact hrest _ _ _ _ _
  unfold initiateSession
  dsimp only
  split
  · rename_i m2 heq
    rw [heq] at hget
    exact step_nested m _ m2 hd ht hten hb hget
  · rename_i r m2 heq
    rw [heq] at hget
    have hpost : Step (fun _ => True) k m2
        (Post w rest "login" (loginCred m2.sess) none [] m2).2 := by
      unfold Post
      rw [restRequestInterfaceResponse_machine]
      exact hrest _ _ _ _ _
    have hboth := hget.trans hpost
    split
    · rename_i m3 heq3
      rw [heq3] at hboth
      exact step_nested m _ m3 hd ht hten hb hboth
    · rename_i e s m3 heq3
      rw [heq3] at hboth
      exact step_nested m _ m3 hd ht hten hb hboth
    · rename_i s m3 heq3
      rw [heq3] at hboth
      exact step_nested m _ m3 hd ht hten hb hboth

theorem step_retryDecision (P : Request → Prop) (w : World) (rest : RestFn) (k : Nat)
    (hrest : ∀ v u p t m, Step (fun _ => True) k m (rest v u p t m).2) (resp : Response)
    (uri : String) (m : Machine) : Step P 0 m (retryDecision w rest resp uri m).2 := by
  have hi := step_initiateSession P w rest k hrest m
  unfold retryDecision
  split
  · split
    · rename_i h; rw [h] at hi; exact hi
    · rename_i h; rw [h] at hi; exact hi
    · rename_i h; rw [h] at hi; exact hi
  · split
    · exact Step.refl _ _ _
    · exact Step.refl _ _ _


/-! ## The invariant of `restRequest` -/

theorem resolved_tenant_stable (tenant t0 t1 : String) (h : t1 = t0) :
    (if (if tenant = "" then t0 else tenant) = "" then t1
      else (if tenant = "" then t0 else tenant)) = (if tenant = "" then t0 else tenant) := by
  by_cases ht : tenant = ""
  · simp only [ht, if_true]
    by_cases h0 : t0 = ""
    · simp [h0, h]
    · simp [h0]
  · simp [ht]

/-- Every run of `restRequest`, finished or cut short by the call budget,
leaves depth, default tenant and URL base unchanged, and dispatches its own
request at most `4 - retry` times, each time with the verb, the URL, the
resolved tenant and the encoded payload of the call. -/
theorem restRequest_step (w : World) (fuel : Nat) :
    ∀ (retry : Int) (verb uri : String) (payload : GoValue) (tenant : String) (m : Machine),
      Step (RequestOf verb (m.sess.urlPrefix ++ uri)
          (if tenant = "" then m.sess.tenant else tenant) payload)
        (4 - retry).toNat m (restRequest w fuel retry verb uri payload tenant m).2 := by
  induction fuel with
  | zero =>
    intro retry verb uri payload tenant m
    exact (Step.refl _ 0 m).mono (Nat.zero_le _)
  | succ fuel ih =>
    intro retry verb uri payload tenant m
    have hrest : ∀ v u p t m, Step (fun _ => True) 4 m (restRequest w fuel 0 v u p t m).2 := by
      intro v u p t m
      exact (ih 0 v u p t m).imp (fun _ _ => trivial)
    unfold restRequest
    dsimp only
    generalize htn : (if tenant = "" then m.sess.tenant else tenant) = tn
    have hpre := step_checkRetryForSleep (RequestOf verb (m.sess.urlPrefix ++ uri) tn payload)
      retry verb (m.sess.urlPrefix ++ uri) m
    split
    · rename_i e m1 heq
      rw [heq] at hpre
      exact hpre.mono (Nat.zero_le _)
    · rename_i m1 heq
      have hle : retry ≤ 3 := checkRetryForSleep_none retry verb _ m (by rw [heq])
      rw [heq] at hpre
      dsimp only at hpre
      split
      · exact hpre.mono (Nat.zero_le _)
      · rename_i body hbody
        split
        · exact hpre.mono (Nat.zero_le _)
        · rename_i req errorResult hreq
          have hb := newAviRequest_built w m1.sess verb _ body req errorResult hreq
          have hP : RequestOf verb (m.sess.urlPrefix ++ uri) tn payload
              ((req.setHeader "Accept" "application/json").setHeader "X-Avi-Tenant" tn) := by
            refine ⟨hb.2.2.1, hb.2.2.2.1, ?_, ?_⟩
            · simp only [Request.setHeader]
              exact headerGet_headerSet _ _ _
            · simp only [Request.setHeader]
              rw [hb.2.2.2.2.1]
              exact hbody
          have hdo := step_dispatch _ w m1 _ hP
          have h1 := hpre.trans hdo
          split
          · rename_i e m2 hdoeq
            rw [hdoeq] at h1
            exact h1.mono (by omega)
          · rename_i resp m2 hdoeq
            rw [hdoeq] at h1
            dsimp only at h1
            have hcol := step_collect (RequestOf verb (m.sess.urlPrefix ++ uri) tn payload)
              m2 resp
            have hdec := step_retryDecision (RequestOf verb (m.sess.urlPrefix ++ uri) tn payload)
              w (restRequest w fuel 0) 4 hrest resp uri
              { m2 with sess := collectCookiesFromResp m2.sess resp }
            have h2 := (h1.trans hcol).trans hdec
            split
            · rename_i m4 hd4
              rw [hd4] at h2
              exact h2.mono (by omega)
            · rename_i err b m4 hd4
              rw [hd4] at h2
              exact h2.mono (by omega)
            · rename_i m4 hd4
              rw [hd4] at h2
              dsimp only at h2
              have hchk := step_CheckControllerStatus
                (RequestOf verb (m.sess.urlPrefix ++ uri) tn payload) w m4
              have h3 := h2.trans hchk
              split
              · rename_i err m5 hc5
                rw [hc5] at h3
                exact h3.mono (by omega)
              · rename_i x m5 hc5
                rw [hc5] at h3
                dsimp only at h3
                have hrec := ih (retry + 1) verb uri payload tn m5
                have hstable : (if tn = "" then m5.sess.tenant else tn) = tn := by
                  rw [← htn]
                  exact resolved_tenant_stable tenant m.sess.tenant m5.sess.tenant h3.tenant_eq
                rw [h3.base_eq, hstable] at hrec
                exact (h3.trans hrec).mono (by omega)
            · rename_i m4 hd4
              rw [hd4] at h2
              exact h2.mono (by omega)


/-! ## Positions in the trace -/

/-- An entry of the trace stays where it is whatever follows. -/
theorem Step.getElem? {P : Request → Prop} {n : Nat} {m m1 : Machine} (h : Step P n m m1)
    (i : Nat) (hi : i < m.trace.length) : m1.trace[i]? = m.trace[i]? := by
  obtain ⟨_, _, _, new, e1, _, _, _⟩ := h
  rw [e1, List.getElem?_append_left hi]

theorem Step.length_le {P : Request → Prop} {n : Nat} {m m1 : Machine} (h : Step P n m m1) :
    m.trace.length ≤ m1.trace.length := by
  obtain ⟨_, _, _, new, e1, _, _, _⟩ := h
  rw [e1, List.length_append]
  omega

theorem Step.own {P : Request → Prop} {n : Nat} {m m1 : Machine} (h : Step P n m m1) :
    (∀ r ∈ ownDispatches m m1, P r) ∧ (ownDispatches m m1).length ≤ n := by
  obtain ⟨_, _, _, new, e1, _, p1, c1⟩ := h
  have hnew : newEntries m m1 = new := by
    unfold newEntries
    rw [e1, List.drop_left]
  unfold ownDispatches
  rw [hnew]
  exact ⟨p1, c1⟩

theorem log_getElem? (m : Machine) (e : Event) :
    (m.log e).trace[m.trace.length]? = some (m.depth, e) := by
  simp [Machine.log]

theorem checkRetryForSleep_same (retry : Int) (verb url : String) (m : Machine) :
    (checkRetryForSleep retry verb url m).2.clock = m.clock ∧
    (checkRetryForSleep retry verb url m).2.sess = m.sess ∧
    (checkRetryForSleep retry verb url m).2.depth = m.depth := by
  unfold checkRetryForSleep
  split
  · simp
  split
  · simp [Machine.log]
  split
  · simp [Machine.log]
  split
  · simp [Machine.log]
  split <;> simp

theorem CheckControllerStatus_head (w : World) (m : Machine) :
    (CheckControllerStatus w m).2.trace[m.trace.length]? = some (m.depth, .readiness) := by
  unfold CheckControllerStatus
  have h2 := step_probeRounds (fun _ => True) w (m.sess.urlPrefix ++ "/api/cluster/status") 10 0
    (m.log .readiness)
  rw [h2.getElem? m.trace.length (by simp [Machine.log])]
  exact log_getElem? m .readiness

theorem initiateSession_head (w : World) (rest : RestFn) (k : Nat)
    (hrest : ∀ v u p t m, Step (fun _ => True) k m (rest v u p t m).2) (m : Machine) :
    (initiateSession w rest m).2.trace[m.trace.length]? = some (m.depth, .reauth) := by
  have hr := refreshToken_same { m.log .reauth with depth := m.depth + 1 }
  obtain ⟨hd, ht, _, hten, hb⟩ := hr
  have hlt : m.trace.length <
      (refreshToken { m.log .reauth with depth := m.depth + 1 }).trace.length := by
    rw [ht]; simp [Machine.log]
  have hat : (refreshToken { m.log .reauth with depth := m.depth + 1 }).trace[m.trace.length]?
      = some (m.depth, .reauth) := by
    rw [ht]; simp [Machine.log]
  have hget : Step (fun _ => True) k
      (refreshToken { m.log .reauth with depth := m.depth + 1 })
      (Get w rest "" none [] (refreshToken { m.log .reauth with depth := m.depth + 1 })).2 := by
    unfold Get
    rw [restRequestInterfaceResponse_machine]
    exact hrest _ _ _ _ _
  unfold initiateSession
  dsimp only
  split
  · rename_i m2 heq
    rw [heq] at hget
    show m2.trace[m.trace.length]? = _
    rw [hget.getElem? _ hlt, hat]
  · rename_i r m2 heq
    rw [heq] at hget
    have hpost : Step (fun _ => True) k m2
        (Post w rest "login" (loginCred m2.sess) none [] m2).2 := by
      unfold Post
      rw [restRequestInterfaceResponse_machine]
      exact hrest _ _ _ _ _
    have hboth := hget.trans hpost
    split
    · rename_i m3 heq3
      rw [heq3] at hboth
      show m3.trace[m.trace.length]? = _
      rw [hboth.getElem? _ hlt, hat]
    · rename_i e s m3 heq3
      rw [heq3] at hboth
      show m3.trace[m.trace.length]? = _
      rw [hboth.getElem? _ hlt, hat]
    · rename_i s m3 heq3
      rw [heq3] at hboth
      show m3.trace[m.trace.length]? = _
      rw [hboth.getElem? _ hlt, hat]

/-- The retry decision, case by case: a 401 with a session id on a uri
other than "login" enters `initiateSession`; otherwise the machine is left
as it is and `retryReq` is set exactly for 419 and for 500..598. -/
theorem retryDecision_cases (w : World) (rest : RestFn) (k : Nat)
    (hrest : ∀ v u p t m, Step (fun _ => True) k m (rest v u p t m).2) (resp : Response)
    (uri : String) (m : Machine) :
    ((resp.status = 401 ∧ m.sess.sessionid ≠ "" ∧ uri ≠ "login") →
      (retryDecision w rest resp uri m).2.trace[m.trace.length]? = some (m.depth, .reauth)) ∧
    (¬ (resp.status = 401 ∧ m.sess.sessionid ≠ "" ∧ uri ≠ "login") →
      retryDecision w rest resp uri m =
        (some (none, decide (resp.status = 419 ∨ (resp.status ≥ 500 ∧ resp.status < 599))), m)) := by
  constructor
  · intro hc
    have hi := initiateSession_head w rest k hrest m
    unfold retryDecision
    rw [if_pos hc]
    split
    · rename_i h; rw [h] at hi; exact hi
    · rename_i h; rw [h] at hi; exact hi
    · rename_i h; rw [h] at hi; exact hi
  · intro hc
    unfold retryDecision
    rw [if_neg hc]
    split
    · rename_i h; simp [h]
    · rename_i h; simp [h]


theorem checkRetryForSleep_ok (retry : Int) (hretry : retry ≤ 3) (verb url : String)
    (m : Machine) : (checkRetryForSleep retry verb url m).1 = none := by
  unfold checkRetryForSleep
  split
  · rfl
  split
  · rfl
  split
  · rfl
  split
  · rfl
  split
  · omega
  · rfl

theorem newAviRequest_ok (w : World) (s : AviSession) (verb url : String) (body : Body)
    (h : w.newRequestError verb url = none) :
    ∃ req, newAviRequest w s verb url body = (some req, { verb := verb, url := url }) := by
  unfold newAviRequest
  rw [h]
  exact ⟨_, rfl⟩

/-- One level of `restRequest` for a request that is dispatched and answered:
what follows the response. -/
theorem restRequest_answered (w : World) (fuel : Nat) (retry : Int) (verb uri : String)
    (payload : GoValue) (tenant : String) (m : Machine) (resp : Response) (body : Body)
    (hretry : retry ≤ 3) (hbody : marshalPayload payload = some body)
    (hnew : w.newRequestError verb (m.sess.urlPrefix ++ uri) = none)
    (hresp : w.controller m.clock = .resp resp) :
    ∃ req m3,
      RequestOf verb (m.sess.urlPrefix ++ uri) (if tenant = "" then m.sess.tenant else tenant)
        payload req ∧
      m3.trace = (checkRetryForSleep retry verb (m.sess.urlPrefix ++ uri) m).2.trace ++
        [(m.depth, .dispatch req)] ∧
      m3.depth = m.depth ∧ m3.sess = collectCookiesFromResp m.sess resp ∧
      m3.clock = m.clock + 1 ∧
      restRequest w (fuel + 1) retry verb uri payload tenant m =
        match retryDecision w (restRequest w fuel 0) resp uri m3 with
        | (none, m4) => (none, m4)
        | (some (some err, _), m4) => (some (none, some err), m4)
        | (some (none, true), m4) =>
          match CheckControllerStatus w m4 with
          | ((false, err), m5) => (some (none, err), m5)
          | ((true, _), m5) =>
            restRequest w fuel (retry + 1) verb uri payload
              (if tenant = "" then m.sess.tenant else tenant) m5
        | (some (none, false), m4) =>
          (some (readResponse w
            { verb := verb, url := m.sess.urlPrefix ++ uri, httpStatusCode := resp.status }
            resp), m4) := by
  have hsame := checkRetryForSleep_same retry verb (m.sess.urlPrefix ++ uri) m
  have hce : checkRetryForSleep retry verb (m.sess.urlPrefix ++ uri) m =
      (none, (checkRetryForSleep retry verb (m.sess.urlPrefix ++ uri) m).2) :=
    Prod.ext (checkRetryForSleep_ok retry hretry verb _ m) rfl
  generalize (checkRetryForSleep retry verb (m.sess.urlPrefix ++ uri) m).2 = pre at hsame hce ⊢
  generalize htn : (if tenant = "" then m.sess.tenant else tenant) = tn
  obtain ⟨req, hreq⟩ := newAviRequest_ok w pre.sess verb (m.sess.urlPrefix ++ uri) body hnew
  have hb := newAviRequest_built w _ verb _ body req _ hreq
  obtain ⟨req1, hreq1⟩ : ∃ req1, req1 =
      (req.setHeader "Accept" "application/json").setHeader "X-Avi-Tenant" tn := ⟨_, rfl⟩
  obtain ⟨m2, hm2⟩ : ∃ m2, m2 = (clientDo w (.dispatch req1) pre).2 := ⟨_, rfl⟩
  refine ⟨req1, { m2 with sess := collectCookiesFromResp pre.sess resp }, ?_, ?_, ?_, ?_, ?_, ?_⟩
  · rw [hreq1]
    refine ⟨hb.2.2.1, hb.2.2.2.1, ?_, ?_⟩
    · simp only [Request.setHeader]
      exact headerGet_headerSet _ _ _
    · simp only [Request.setHeader]
      rw [hb.2.2.2.2.1]
      exact hbody
  · simp [hm2, clientDo, Machine.log, hsame.2.2]
  · simp [hm2, clientDo, Machine.log, hsame.2.2]
  · simp [hsame.2.1]
  · simp [hm2, clientDo, Machine.log, hsame.1]
  · conv => lhs; unfold restRequest
    dsimp only
    rw [hce]
    dsimp only
    rw [hbody]
    dsimp only
    rw [htn, hreq]
    dsimp only
    have hdo : clientDo w (.dispatch req1) pre = (.resp resp, m2) := by
      apply Prod.ext
      · simp [clientDo, hsame.1, hresp]
      · exact hm2.symm
    rw [← hreq1, hdo]
    have hsess : m2.sess = pre.sess := by simp [hm2, clientDo, Machine.log]
    dsimp only
    rw [hsess]


theorem getElem?_lt_of_eq_some {α : Type} (l : List α) (i : Nat) (x : α) (h : l[i]? = some x) :
    i < l.length := by
  by_contra hc
  rw [List.getElem?_eq_none (by omega)] at h
  simp at h

/-- What follows a response, seen from the machine `m3` that has absorbed
it: the trace only grows; the next entry is the entry of `initiateSession`
exactly when the status is 401, a session id is held and the uri is not
"login"; and a response that is neither that nor 419 nor 500..598 is
returned at once. -/
theorem after_response (w : World) (fuel : Nat) (retry : Int) (verb uri : String)
    (payload : GoValue) (tn : String) (errorResult : AviError) (resp : Response)
    (m3 : Machine) (out : Option RestResult × Machine)
    (hout : out =
      match retryDecision w (restRequest w fuel 0) resp uri m3 with
      | (none, m4) => (none, m4)
      | (some (some err, _), m4) => (some (none, some err), m4)
      | (some (none, true), m4) =>
        match CheckControllerStatus w m4 with
        | ((false, err), m5) => (some (none, err), m5)
        | ((true, _), m5) => restRequest w fuel (retry + 1) verb uri payload tn m5
      | (some (none, false), m4) => (some (readResponse w errorResult resp), m4)) :
    m3.trace.length ≤ out.2.trace.length ∧
    (∀ i, i < m3.trace.length → out.2.trace[i]? = m3.trace[i]?) ∧
    (out.2.trace[m3.trace.length]? = some (m3.depth, .reauth) ↔
      (resp.status = 401 ∧ m3.sess.sessionid ≠ "" ∧ uri ≠ "login")) ∧
    (¬ (resp.status = 401 ∧ m3.sess.sessionid ≠ "" ∧ uri ≠ "login") →
      ¬ (resp.status = 419 ∨ (resp.status ≥ 500 ∧ resp.status < 599)) →
      out = (some (readResponse w errorResult resp), m3)) := by
  have hrest : ∀ v u p t m, Step (fun _ => True) 4 m (restRequest w fuel 0 v u p t m).2 := by
    intro v u p t m
    exact (restRequest_step w fuel 0 v u p t m).imp (fun _ _ => trivial)
  have hdec := step_retryDecision (fun _ => True) w (restRequest w fuel 0) 4 hrest resp uri m3
  have hcases := retryDecision_cases w (restRequest w fuel 0) 4 hrest resp uri m3
  -- the machine after the decision, and the step from it to the end
  have htail : ∃ m4, m4 = (retryDecision w (restRequest w fuel 0) resp uri m3).2 ∧
      ∃ n, Step (fun _ => True) n m4 out.2 := by
    refine ⟨_, rfl, ?_⟩
    rw [hout]
    split
    · rename_i m4 h; rw [h]; exact ⟨0, Step.refl _ _ _⟩
    · rename_i err b m4 h; rw [h]; exact ⟨0, Step.refl _ _ _⟩
    · rename_i m4 h
      rw [h]
      have hchk := step_CheckControllerStatus (fun _ => True) w m4
      split
      · rename_i err m5 h5; rw [h5] at hchk; exact ⟨0, hchk⟩
      · rename_i x m5 h5
        rw [h5] at hchk
        have hrec := (restRequest_step w fuel (retry + 1) verb uri payload tn m5).imp
          (fun _ _ => trivial)
        exact ⟨_, hchk.trans hrec⟩
    · rename_i m4 h; rw [h]; exact ⟨0, Step.refl _ _ _⟩
  obtain ⟨m4, hm4, n, hstep⟩ := htail
  rw [← hm4] at hdec
  have hall := hdec.trans hstep
  refine ⟨hall.length_le, fun i hi => hall.getElem? i hi, ?_, ?_⟩
  · constructor
    · intro hre
      by_contra hc
      have hno := hcases.2 hc
      rw [hno] at hout
      by_cases hretry : resp.status = 419 ∨ (resp.status ≥ 500 ∧ resp.status < 599)
      · simp only [hretry, decide_True] at hout
        have hhead := CheckControllerStatus_head w m3
        have hlt := getElem?_lt_of_eq_some _ _ _ hhead
        have hchk : ∃ n, Step (fun _ => True) n (CheckControllerStatus w m3).2 out.2 := by
          rw [hout]
          split
          · rename_i err m5 h5; rw [h5]; exact ⟨0, Step.refl _ _ _⟩
          · rename_i x m5 h5
            rw [h5]
            exact ⟨_, (restRequest_step w fuel (retry + 1) verb uri payload tn m5).imp
              (fun _ _ => trivial)⟩
        obtain ⟨k, hk⟩ := hchk
        rw [hk.getElem? _ hlt, hhead] at hre
        simp at hre
      · simp only [hretry, decide_False] at hout
        rw [hout] at hre
        simp at hre
    · intro hc
      have hhead := hcases.1 hc
      rw [← hm4] at hhead
      have hlt := getElem?_lt_of_eq_some _ _ _ hhead
      rw [hstep.getElem? _ hlt, hhead]
  · intro hc hretry
    have hno := hcases.2 hc
    rw [hno] at hout
    simp only [hretry, decide_False] at hout
    exact hout


/-! ## Re-authentication -/

/-- C5: `restRequest` enters `initiateSession` right after a response exactly
when the status is 401, the session id (as it stands once the cookies of the
response are absorbed) is non-empty and the uri is not "login"; a 401 on
"login" adds nothing to the trace after the dispatch, so neither a re-login
nor a retry, and comes back as an `AviError` with `HttpStatusCode` 401 and
the verb and URL of the request. -/
theorem restRequest_reauth_iff (w : World) (fuel : Nat) (retry : Int) (verb uri : String)
    (payload : GoValue) (tenant : String) (m : Machine) (resp : Response)
    (hretry : retry ≤ 3) (hbody : marshalPayload payload ≠ none)
    (hnew : w.newRequestError verb (m.sess.urlPrefix ++ uri) = none)
    (hresp : w.controller m.clock = .resp resp) :
    ((restRequest w (fuel + 1) retry verb uri payload tenant m).2.trace[
        (checkRetryForSleep retry verb (m.sess.urlPrefix ++ uri) m).2.trace.length + 1]? =
        some (m.depth, .reauth) ↔
      (resp.status = 401 ∧ (collectCookiesFromResp m.sess resp).sessionid ≠ "" ∧
        uri ≠ "login")) ∧
    (resp.status = 401 → uri = "login" →
      (∃ r, (restRequest w (fuel + 1) retry verb uri payload tenant m).2.trace =
        (checkRetryForSleep retry verb (m.sess.urlPrefix ++ uri) m).2.trace ++
          [(m.depth, .dispatch r)]) ∧
      ∃ bytes e, (restRequest w (fuel + 1) retry verb uri payload tenant m).1 =
          some (bytes, some (.avi e)) ∧
        e.httpStatusCode = 401 ∧ e.verb = verb ∧ e.url = m.sess.urlPrefix ++ uri) := by
  obtain ⟨body, hb⟩ := Option.ne_none_iff_exists'.1 hbody
  obtain ⟨req, m3, _, htr, hd, hs, _, heq⟩ :=
    restRequest_answered w fuel retry verb uri payload tenant m resp body hretry hb hnew hresp
  have hafter := after_response w fuel retry verb uri payload _ _ resp m3 _ heq
  have hlen : m3.trace.length =
      (checkRetryForSleep retry verb (m.sess.urlPrefix ++ uri) m).2.trace.length + 1 := by
    rw [htr]; simp
  constructor
  · rw [← hlen, ← hd, ← hs]
    exact hafter.2.2.1
  · intro h401 hlogin
    have hnot : ¬ (resp.status = 401 ∧ m3.sess.sessionid ≠ "" ∧ uri ≠ "login") := by
      intro h; exact h.2.2 hlogin
    have hnr : ¬ (resp.status = 419 ∨ (resp.status ≥ 500 ∧ resp.status < 599)) := by
      rw [h401]; decide
    have hfin := hafter.2.2.2 hnot hnr
    rw [hfin]
    refine ⟨⟨req, htr⟩, ?_⟩
    unfold readResponse
    rw [if_neg (by rw [h401]; decide)]
    cases resp.readError with
    | none =>
      have hout : resp.status < 200 ∨ resp.status > 299 := by rw [h401]; decide
      rw [if_pos hout]
      exact ⟨_, _, rfl, h401, rfl, rfl⟩
    | some e => exact ⟨_, _, rfl, h401, rfl, rfl⟩

/-- The equivalence of C5 on a 401 that carries no cookie, for a session that
holds the session id "abc": a GET on "api/pool" is followed by a re-login. -/
theorem restRequest_reauth_iff_witness :
    (restRequest (always 401) 3 0 "GET" "api/pool" .null ""
        { sess := { sampleSession with sessionid := "abc" } }).2.trace[1]? =
      some (0, Event.reauth) ↔
    ((401 : Nat) = 401 ∧
      (collectCookiesFromResp { sampleSession with sessionid := "abc" }
        { status := 401 }).sessionid ≠ "" ∧ "api/pool" ≠ "login") :=
  (restRequest_reauth_iff (always 401) 2 0 "GET" "api/pool" .null ""
    { sess := { sampleSession with sessionid := "abc" } } { status := 401 }
    (by decide) (by decide) rfl rfl).1

/-! ## The status 599 -/

/-- C4: a response with status 599 is not classified as transient.  On a
controller that answers 599, a GET with the whole retry budget left makes one
dispatch, engages no readiness probe, and returns the status to the caller as
an error; with 598 the same call probes and retries until the budget is
spent. -/
theorem restRequest_status_599_not_retried :
    (restRequest (always 599) 9 0 "GET" "api/pool" .null "" sampleMachine).1 =
      some (some "", some (.avi
        { verb := "GET", url := "https://h/api/pool", httpStatusCode := 599,
          message := some "" })) ∧
    ((restRequest (always 599) 9 0 "GET" "api/pool" .null "" sampleMachine).2.trace.map
      fun e => e.2) =
      [.dispatch
        { verb := "GET", url := "https://h/api/pool",
          header := [("Content-Type", "application/json"), ("X-Avi-Version", "17.1.2"),
            ("Referer", "https://h/"), ("X-Avi-Tenant", "admin"),
            ("Accept", "application/json")],
          cookies := [], body := .empty }] ∧
    (restRequest (always 598) 9 0 "GET" "api/pool" .null "" sampleMachine).1 =
      some (none, some (.avi
        { verb := "GET", url := "https://h/api/pool",
          err := some "tried 3 times and failed" })) ∧
    (ownDispatches sampleMachine
      (restRequest (always 598) 9 0 "GET" "api/pool" .null "" sampleMachine).2).length = 4 := by
  decide

set_option maxRecDepth 8192 in
/-- C1: on a controller that answers every request with 599, one logical
POST (retry counter 0) makes a single dispatch and returns the status as an
error, not four dispatches followed by "tried 3 times and failed"; on a
controller that answers 503 the four dispatches and the abort error are
what the call produces. -/
theorem restRequest_all_599_single_dispatch :
    (ownDispatches sampleMachine
      (restRequest (always 599) 9 0 "POST" "api/pool" (.map [("name", .str "p")]) ""
        sampleMachine).2).length = 1 ∧
    (restRequest (always 599) 9 0 "POST" "api/pool" (.map [("name", .str "p")]) ""
        sampleMachine).1 =
      some (some "", some (.avi
        { verb := "POST", url := "https://h/api/pool", httpStatusCode := 599,
          message := some "" })) ∧
    (ownDispatches sampleMachine
      (restRequest (always 503) 9 0 "POST" "api/pool" (.map [("name", .str "p")]) ""
        sampleMachine).2).length = 4 ∧
    (restRequest (always 503) 9 0 "POST" "api/pool" (.map [("name", .str "p")]) ""
        sampleMachine).1 =
      some (none, some (.avi
        { verb := "POST", url := "https://h/api/pool",
          err := some "tried 3 times and failed" })) := by
  refine ⟨by decide, by decide, by decide, by decide⟩


/-! ## The multipart channels under a controller that is always unavailable -/

theorem probeRounds_always_503 (url : String) (n round : Nat) (m : Machine) :
    (probeRounds (always 503) url n round m).1 = (true, none) := by
  induction n generalizing round m with
  | zero => rfl
  | succ n ih =>
    unfold probeRounds
    simp only [always, clientDo]
    simp only [ne_eq, not_true_eq_false, false_and, if_false]
    exact ih _ _

theorem download_always_503 (fuel : Nat) (uri : String) (m : Machine) :
    (restMultipartDownloadRequest (always 503) fuel 0 "GET" uri m).1 = none := by
  induction fuel generalizing m with
  | zero => rfl
  | succ fuel ih =>
    unfold restMultipartDownloadRequest
    have hc : checkRetryForSleep 0 "GET" (m.sess.urlPrefix ++ "/api/fileservice/" ++ uri) m =
        (none, m) := by simp [checkRetryForSleep]
    dsimp only
    rw [hc]
    dsimp only
    obtain ⟨req, hreq⟩ := newAviRequest_ok (always 503) m.sess "GET"
      (m.sess.urlPrefix ++ "/api/fileservice/" ++ uri) .empty rfl
    rw [hreq]
    dsimp only
    have hdo : ∀ e, clientDo (always 503) e m =
        (.resp { status := 503 }, (clientDo (always 503) e m).2) := fun e => rfl
    rw [hdo]
    dsimp only
    have hdec : ∀ rest m3, retryDecision (always 503) rest { status := 503 } uri m3 =
        (some (none, true), m3) := by
      intro rest m3
      simp [retryDecision]
    rw [hdec]
    dsimp only
    have hchk : ∀ m4, CheckControllerStatus (always 503) m4 =
        ((true, none), (CheckControllerStatus (always 503) m4).2) := by
      intro m4
      apply Prod.ext
      · exact probeRounds_always_503 _ _ _ _
      · rfl
    rw [hchk]
    dsimp only
    exact ih _

set_option maxRecDepth 16384 in
/-- C3: the download path does not pass the incremented retry counter to its
recursive call, so the schedule never advances.  On a controller that answers
every request with 503 the download never returns, whatever the call budget:
with a budget of 6 it has made 6 dispatches and not slept once.  The upload
on the same controller stops after 4 dispatches with "tried 3 times and
failed". -/
theorem download_retry_counter_not_incremented :
    (∀ fuel : Nat, (GetMultipartRaw (always 503) fuel "GET" "file.bin" sampleMachine).1 = none) ∧
    (ownDispatches sampleMachine
      (GetMultipartRaw (always 503) 6 "GET" "file.bin" sampleMachine).2).length = 6 ∧
    ((GetMultipartRaw (always 503) 6 "GET" "file.bin" sampleMachine).2.trace.filter
      fun e => e.2 = Event.sleep 100 ∨ e.2 = Event.sleep 500 ∨ e.2 = Event.sleep 1000) = [] ∧
    (PostMultipartRequest (always 503) 9 "POST" "uploads" sampleMachine).1 =
      some (some (.avi
        { verb := "POST", url := "https://h//api/fileservice/uploads",
          err := some "tried 3 times and failed" })) ∧
    (ownDispatches sampleMachine
      (PostMultipartRequest (always 503) 9 "POST" "uploads" sampleMachine).2).length = 4 := by
  refine ⟨fun fuel => download_always_503 fuel _ _, by decide, by decide, by decide, by decide⟩


/-! ## Tenant -/

theorem locTenant_effective (m : Machine) (tenant : List String) :
    (if locTenant m tenant = "" then m.sess.tenant else locTenant m tenant) =
      effectiveTenant m.sess.tenant tenant.head? := by
  cases tenant with
  | nil => simp [locTenant, effectiveTenant]
  | cons t ts => simp [locTenant, effectiveTenant]

theorem restRequest_tenantScoped (w : World) (fuel : Nat) (verb uri : String)
    (payload : GoValue) (t : String) (m : Machine) (hm : m.sess.tenant ≠ "") :
    TenantScoped (if t = "" then m.sess.tenant else t) m
      (restRequest w fuel 0 verb uri payload t m).2 := by
  have h := restRequest_step w fuel 0 verb uri payload t m
  refine ⟨fun r hr => (h.own.1 r hr).2.2.1, ?_, h.tenant_eq⟩
  by_cases ht : t = ""
  · simpa [ht] using hm
  · simp [ht]

/-- C6: for each of the JSON verbs Get, Post, Put, Patch, Delete, GetRaw and
PostRaw on a session whose default tenant is not empty, every dispatch of the
call's own request, retries included, carries in `X-Avi-Tenant` the per-call
tenant when one is provided (an empty string counts as not provided) and the
session's default tenant otherwise; that header value is not empty, and the
session's default tenant is the same after the call as before. -/
theorem json_verbs_tenant_header (w : World) (fuel : Nat) (m : Machine)
    (hm : m.sess.tenant ≠ "") (uri : String) (payload : GoValue) (patchOp : String)
    (sink : Option GoValue) (params : List GoValue) (tenant : List String) (t : String) :
    TenantScoped (effectiveTenant m.sess.tenant tenant.head?) m
      (Get w (restRequest w fuel 0) uri sink tenant m).2 ∧
    TenantScoped (effectiveTenant m.sess.tenant tenant.head?) m
      (Post w (restRequest w fuel 0) uri payload sink tenant m).2 ∧
    TenantScoped (effectiveTenant m.sess.tenant tenant.head?) m
      (Put w (restRequest w fuel 0) uri payload sink tenant m).2 ∧
    TenantScoped (effectiveTenant m.sess.tenant tenant.head?) m
      (Patch w (restRequest w fuel 0) uri payload patchOp sink tenant m).2 ∧
    TenantScoped (effectiveTenant m.sess.tenant (some t)) m
      (Delete w (restRequest w fuel 0) uri t params m).2 ∧
    TenantScoped (effectiveTenant m.sess.tenant (some t)) m
      (GetRaw (restRequest w fuel 0) uri t m).2 ∧
    TenantScoped (effectiveTenant m.sess.tenant (some t)) m
      (PostRaw (restRequest w fuel 0) uri payload t m).2 := by
  have hv : ∀ verb p, TenantScoped (effectiveTenant m.sess.tenant tenant.head?) m
      (restRequest w fuel 0 verb uri p (locTenant m tenant) m).2 := by
    intro verb p
    rw [← locTenant_effective]
    exact restRequest_tenantScoped w fuel verb uri p _ m hm
  have ht : ∀ verb p, TenantScoped (effectiveTenant m.sess.tenant (some t)) m
      (restRequest w fuel 0 verb uri p t m).2 := by
    intro verb p
    exact restRequest_tenantScoped w fuel verb uri p t m hm
  refine ⟨?_, ?_, ?_, ?_, ?_, ?_, ?_⟩
  · unfold Get; rw [restRequestInterfaceResponse_machine]; exact hv _ _
  · unfold Post; rw [restRequestInterfaceResponse_machine]; exact hv _ _
  · unfold Put; rw [restRequestInterfaceResponse_machine]; exact hv _ _
  · unfold Patch; dsimp only; rw [restRequestInterfaceResponse_machine]; exact hv _ _
  · unfold Delete; dsimp only; rw [restRequestInterfaceResponse_machine]; exact ht _ _
  · exact ht _ _
  · exact ht _ _

set_option maxRecDepth 16384 in
/-- The tenant contract of C6 on a GET with the per-call tenant "tenantA"
that is retried on 503 until the budget is spent: the four dispatches carry
"tenantA", and the session keeps "admin". -/
theorem json_verbs_tenant_header_witness :
    sampleMachine.sess.tenant ≠ "" ∧
    TenantScoped (effectiveTenant sampleMachine.sess.tenant (["tenantA"].head?)) sampleMachine
      (Get (always 503) (restRequest (always 503) 9 0) "api/pool" none ["tenantA"]
        sampleMachine).2 ∧
    ((ownDispatches sampleMachine
      (Get (always 503) (restRequest (always 503) 9 0) "api/pool" none ["tenantA"]
        sampleMachine).2).map fun r => headerGet r.header "X-Avi-Tenant") =
      [some "tenantA", some "tenantA", some "tenantA", some "tenantA"] :=
  ⟨by decide,
    (json_verbs_tenant_header (always 503) 9 sampleMachine (by decide) "api/pool" .null ""
      none [] ["tenantA"] "").1,
    by decide⟩

theorem applyDefaults_tenant (s : AviSession) :
    (applyDefaults s).tenant = if s.tenant = "" then DEFAULT_API_TENANT else s.tenant := by
  unfold applyDefaults
  by_cases h1 : s.tenant = "" <;> by_cases h2 : s.version = "" <;>
    by_cases h3 : s.transport = none <;> by_cases h4 : s.timeout = 0 <;>
    simp [h1, h2, h3, h4]

/-- C7: the tenant of a session is never empty.  When all options succeed,
the session `NewAviSession` returns has the tenant the options left, or
"admin" when they left it blank; `SwitchTenant t` sets the tenant to `t`, or
to "admin" when `t` is empty, and that is what `GetTenant` returns; and
`restRequest`, through which every JSON verb goes, leaves the tenant as it
is. -/
theorem tenant_never_empty (w : World) (fuel : Nat) (host username : String)
    (options : List SessionOption)
    (hopts : (applyOptions options (freshSession host username)).2 = none) :
    (NewAviSession w fuel host username options).2.sess.tenant ≠ "" ∧
    (NewAviSession w fuel host username options).2.sess.tenant =
      (if (applyOptions options (freshSession host username)).1.tenant = "" then "admin"
        else (applyOptions options (freshSession host username)).1.tenant) ∧
    (∀ (s : AviSession) (t : String),
      (s.SwitchTenant t).1.tenant = (if t = "" then "admin" else t) ∧
      (s.SwitchTenant t).1.GetTenant = (if t = "" then "admin" else t) ∧
      (s.SwitchTenant t).1.tenant ≠ "" ∧ (s.SwitchTenant t).2 = none) ∧
    (∀ (retry : Int) (verb uri : String) (payload : GoValue) (tenant : String) (m : Machine),
      (restRequest w fuel retry verb uri payload tenant m).2.sess.tenant = m.sess.tenant) := by
  have hnew : (NewAviSession w fuel host username options).2.sess.tenant =
      (if (applyOptions options (freshSession host username)).1.tenant = "" then "admin"
        else (applyOptions options (freshSession host username)).1.tenant) := by
    unfold NewAviSession
    split
    · rename_i s err heq
      rw [heq] at hopts
      simp at hopts
    · rename_i s heq
      have hrest : ∀ v u p t m, Step (fun _ => True) 4 m (restRequest w fuel 0 v u p t m).2 :=
        fun v u p t m => (restRequest_step w fuel 0 v u p t m).imp (fun _ _ => trivial)
      have hstep := step_initiateSession (fun _ => True) w (restRequest w fuel 0) 4 hrest
        { sess := applyDefaults s }
      rw [hstep.tenant_eq, heq]
      exact applyDefaults_tenant s
  have hsw : ∀ (s : AviSession) (t : String),
      (s.SwitchTenant t).1.tenant = (if t = "" then "admin" else t) ∧
      (s.SwitchTenant t).2 = none := by
    intro s t
    unfold AviSession.SwitchTenant
    by_cases ht : t = ""
    · simp [ht, DEFAULT_API_TENANT]
    · simp [ht]
  have hne : ∀ t : String, (if t = "" then "admin" else t) ≠ "" := by
    intro t
    by_cases ht : t = ""
    · simp [ht]
    · simp [ht]
  refine ⟨?_, hnew, ?_, ?_⟩
  · rw [hnew]; exact hne _
  · intro s t
    refine ⟨(hsw s t).1, ?_, ?_, (hsw s t).2⟩
    · unfold AviSession.GetTenant; exact (hsw s t).1
    · rw [(hsw s t).1]; exact hne _
  · intro retry verb uri payload tenant m
    exact (restRequest_step w fuel retry verb uri payload tenant m).tenant_eq

/-- The invariant of C7 for a session constructed with `SetTenant("")` and a
password, on a controller that accepts the login. -/
theorem tenant_never_empty_witness :
    (applyOptions [SetTenant "", SetPassword "p"] (freshSession "h" "u")).2 = none ∧
    (NewAviSession (always 200) 5 "h" "u" [SetTenant "", SetPassword "p"]).2.sess.tenant ≠ "" ∧
    (NewAviSession (always 200) 5 "h" "u" [SetTenant "", SetPassword "p"]).1 = some none ∧
    (NewAviSession (always 200) 5 "h" "u" [SetTenant "", SetPassword "p"]).2.sess.tenant =
      "admin" :=
  ⟨rfl, (tenant_never_empty (always 200) 5 "h" "u" [SetTenant "", SetPassword "p"] rfl).1,
    by decide, by decide⟩


/-! ## CSRF token and session id on outgoing requests -/

/-- C8, as amended: once some response has carried a `csrftoken` cookie, the
session's CSRF token is the value of the most recent such cookie; a request
built by `newAviRequest` then carries that value both in the `X-CSRFToken`
header and in a `csrftoken` cookie when the value is not empty, and carries
neither the header nor the cookie when it is empty. -/
theorem csrf_latest_value (w : World) (s : AviSession) (resps : List Response) (v : String)
    (verb url : String) (body : Body) (req : Request) (e : AviError)
    (hseen : lastCookieValue "csrftoken" resps = some v)
    (hreq : newAviRequest w (resps.foldl collectCookiesFromResp s) verb url body =
      (some req, e)) :
    (resps.foldl collectCookiesFromResp s).csrfToken = v ∧
    (v ≠ "" → headerGet req.header "X-CSRFToken" = some v ∧
      (req.cookies.filter fun c => c.name = "csrftoken") =
        [{ name := "csrftoken", value := v }]) ∧
    (v = "" → headerGet req.header "X-CSRFToken" = none ∧
      (req.cookies.filter fun c => c.name = "csrftoken") = []) := by
  have htok : (resps.foldl collectCookiesFromResp s).csrfToken = v := by
    rw [foldl_collectCookiesFromResp, foldl_collectCookie_csrfToken]
    unfold lastCookieValue at hseen
    rw [hseen]
    rfl
  have hb := newAviRequest_built w _ verb url body req e hreq
  rw [htok] at hb
  refine ⟨htok, ?_, ?_⟩
  · intro hv
    refine ⟨by rw [hb.2.2.2.2.2.2]; simp [hv], ?_⟩
    rw [hb.2.2.2.2.2.1]
    by_cases hs : (resps.foldl collectCookiesFromResp s).sessionid = "" <;>
      simp [hv, hs, List.filter_cons]
  · intro hv
    refine ⟨by rw [hb.2.2.2.2.2.2]; simp [hv], ?_⟩
    rw [hb.2.2.2.2.2.1]
    by_cases hs : (resps.foldl collectCookiesFromResp s).sessionid = "" <;>
      simp [hv, hs, List.filter_cons]

/-- The amended C8 after a login answer that set `csrftoken=tok1` and a later
answer that set `csrftoken=tok2`: the next GET carries "tok2". -/
theorem csrf_latest_value_witness :
    lastCookieValue "csrftoken"
      [{ status := 200, cookies := [{ name := "csrftoken", value := "tok1" }] },
       { status := 200, cookies := [{ name := "csrftoken", value := "tok2" }] }] =
      some "tok2" ∧
    headerGet
      ({ verb := "GET", url := "https://h/api/pool",
         header := [("Content-Type", "application/json"), ("X-Avi-Version", "17.1.2"),
           ("X-CSRFToken", "tok2"), ("Referer", "https://h/"), ("X-Avi-Tenant", "admin")],
         cookies := [{ name := "csrftoken", value := "tok2" }],
         body := Body.empty } : Request).header "X-CSRFToken" = some "tok2" :=
  ⟨by decide,
    ((csrf_latest_value (always 200) sampleSession
      [{ status := 200, cookies := [{ name := "csrftoken", value := "tok1" }] },
       { status := 200, cookies := [{ name := "csrftoken", value := "tok2" }] }]
      "tok2" "GET" "https://h/api/pool" .empty _ { verb := "GET", url := "https://h/api/pool" }
      (by decide) (by decide)).2.1
        (by decide)).1⟩

/-- C8 as stated fails: after an answer that set `csrftoken=tok1` and a later
answer that set `csrftoken` to the empty value, a `csrftoken` cookie has been
observed and the most recent one has the value "", yet the request that
`newAviRequest` builds has no `X-CSRFToken` header and no `csrftoken`
cookie. -/
theorem csrf_empty_cookie_counterexample :
    lastCookieValue "csrftoken"
      [{ status := 200, cookies := [{ name := "csrftoken", value := "tok1" }] },
       { status := 200, cookies := [{ name := "csrftoken", value := "" }] }] = some "" ∧
    ((newAviRequest (always 200)
      ([{ status := 200, cookies := [{ name := "csrftoken", value := "tok1" }] },
        { status := 200, cookies := [{ name := "csrftoken", value := "" }] }].foldl
        collectCookiesFromResp sampleSession)
      "GET" "https://h/api/pool" .empty).1.map fun r =>
        (headerGet r.header "X-CSRFToken", r.cookies)) = some (none, []) := by
  refine ⟨by decide, by decide⟩

/-- C9: a request built by `newAviRequest` carries the cookies `sessionid`
and `avi-sessionid`, both with the session id, when the session id is not
empty, and no cookie of either name when it is empty; `collectCookiesFromResp`
sets the session id to the value of the last cookie of the response that is
called `sessionid` or `avi-sessionid`, and leaves it as it is when the
response carries no such cookie. -/
theorem sessionid_cookies (w : World) (s : AviSession) (verb url : String) (body : Body)
    (req : Request) (e : AviError) (resp : Response)
    (hreq : newAviRequest w s verb url body = (some req, e)) :
    (s.sessionid ≠ "" →
      (req.cookies.filter fun c => c.name = "sessionid" ∨ c.name = "avi-sessionid") =
        [{ name := "sessionid", value := s.sessionid },
         { name := "avi-sessionid", value := s.sessionid }]) ∧
    (s.sessionid = "" →
      (req.cookies.filter fun c => c.name = "sessionid" ∨ c.name = "avi-sessionid") = []) ∧
    (collectCookiesFromResp s resp).sessionid =
      (((resp.cookies.filter fun c => c.name = "sessionid" ∨ c.name = "avi-sessionid").getLast?).map
        fun c => c.value).getD s.sessionid ∧
    ((∀ c ∈ resp.cookies, c.name ≠ "sessionid" ∧ c.name ≠ "avi-sessionid") →
      (collectCookiesFromResp s resp).sessionid = s.sessionid) := by
  have hb := newAviRequest_built w s verb url body req e hreq
  have hlast := foldl_collectCookie_sessionid resp.cookies s
  refine ⟨?_, ?_, hlast, ?_⟩
  · intro hs
    rw [hb.2.2.2.2.2.1]
    by_cases hc : s.csrfToken = "" <;> simp [hs, hc, List.filter_cons]
  · intro hs
    rw [hb.2.2.2.2.2.1]
    by_cases hc : s.csrfToken = "" <;> simp [hs, hc, List.filter_cons]
  · intro hnone
    unfold collectCookiesFromResp
    rw [hlast]
    have hnil : (resp.cookies.filter fun c => c.name = "sessionid" ∨ c.name = "avi-sessionid")
        = [] := by
      rw [List.filter_eq_nil_iff]
      intro c hc
      have := hnone c hc
      simp [this.1, this.2]
    rw [hnil]
    rfl

/-- The statement of C9 for a session holding the session id "abc" and an
answer that sets `sessionid=s1` and then `avi-sessionid=s2`: the request
carries "abc" twice, and the session id becomes "s2". -/
theorem sessionid_cookies_witness :
    (({ verb := "GET", url := "https://h/api/pool",
        header := [("Content-Type", "application/json"), ("X-Avi-Version", "17.1.2"),
          ("Referer", "https://h/"), ("X-Avi-Tenant", "admin")],
        cookies := [{ name := "sessionid", value := "abc" },
          { name := "avi-sessionid", value := "abc" }],
        body := Body.empty } : Request).cookies.filter
      fun c => c.name = "sessionid" ∨ c.name = "avi-sessionid") =
      [{ name := "sessionid", value := "abc" }, { name := "avi-sessionid", value := "abc" }] ∧
    (collectCookiesFromResp { sampleSession with sessionid := "abc" }
      { status := 200, cookies := [{ name := "sessionid", value := "s1" },
          { name := "avi-sessionid", value := "s2" }] }).sessionid = "s2" :=
  ⟨(sessionid_cookies (always 200) { sampleSession with sessionid := "abc" } "GET"
      "https://h/api/pool" .empty _ { verb := "GET", url := "https://h/api/pool" }
      { status := 200 } (by decide)).1 (by decide),
    by decide⟩


/-! ## Patch -/

theorem marshal_single_key (k : String) (v : GoValue) :
    marshal (.map [(k, v)]) =
      (marshal v).map fun text => "\x7b" ++ (quoteString k ++ ":" ++ text) ++ "\x7d" := by
  cases hv : marshal v with
  | none => simp [marshal, marshalFields, hv]
  | some text => simp [marshal, marshalFields, hv, sortFields, insertField, joinComma]

/-- One level of `restRequest` for a request that is dispatched and meets a
transport error: the error is returned at once. -/
theorem restRequest_failed (w : World) (fuel : Nat) (retry : Int) (verb uri : String)
    (payload : GoValue) (tenant : String) (m : Machine) (msg : String) (body : Body)
    (hretry : retry ≤ 3) (hbody : marshalPayload payload = some body)
    (hnew : w.newRequestError verb (m.sess.urlPrefix ++ uri) = none)
    (hresp : w.controller m.clock = .fail msg) :
    ∃ req m2,
      RequestOf verb (m.sess.urlPrefix ++ uri) (if tenant = "" then m.sess.tenant else tenant)
        payload req ∧
      m2.trace = (checkRetryForSleep retry verb (m.sess.urlPrefix ++ uri) m).2.trace ++
        [(m.depth, .dispatch req)] ∧
      m2.sess = m.sess ∧
      restRequest w (fuel + 1) retry verb uri payload tenant m =
        (some (none, some (.avi
          { verb := verb, url := m.sess.urlPrefix ++ uri,
            err := some ("client.Do failed: " ++ msg) })), m2) := by
  have hsame := checkRetryForSleep_same retry verb (m.sess.urlPrefix ++ uri) m
  have hce : checkRetryForSleep retry verb (m.sess.urlPrefix ++ uri) m =
      (none, (checkRetryForSleep retry verb (m.sess.urlPrefix ++ uri) m).2) :=
    Prod.ext (checkRetryForSleep_ok retry hretry verb _ m) rfl
  generalize (checkRetryForSleep retry verb (m.sess.urlPrefix ++ uri) m).2 = pre at hsame hce ⊢
  generalize htn : (if tenant = "" then m.sess.tenant else tenant) = tn
  obtain ⟨req, hreq⟩ := newAviRequest_ok w pre.sess verb (m.sess.urlPrefix ++ uri) body hnew
  have hb := newAviRequest_built w _ verb _ body req _ hreq
  obtain ⟨req1, hreq1⟩ : ∃ req1, req1 =
      (req.setHeader "Accept" "application/json").setHeader "X-Avi-Tenant" tn := ⟨_, rfl⟩
  obtain ⟨m2, hm2⟩ : ∃ m2, m2 = (clientDo w (.dispatch req1) pre).2 := ⟨_, rfl⟩
  refine ⟨req1, m2, ?_, ?_, ?_, ?_⟩
  · rw [hreq1]
    refine ⟨hb.2.2.1, hb.2.2.2.1, ?_, ?_⟩
    · simp only [Request.setHeader]
      exact headerGet_headerSet _ _ _
    · simp only [Request.setHeader]
      rw [hb.2.2.2.2.1]
      exact hbody
  · simp [hm2, clientDo, Machine.log, hsame.2.2]
  · simp [hm2, clientDo, Machine.log, hsame.2.1]
  · conv => lhs; unfold restRequest
    dsimp only
    rw [hce]
    dsimp only
    rw [hbody]
    dsimp only
    rw [htn, hreq]
    dsimp only
    have hdo : clientDo w (.dispatch req1) pre = (.fail msg, m2) := by
      apply Prod.ext
      · simp [clientDo, hsame.1, hresp]
      · exact hm2.symm
    rw [← hreq1, hdo]

/-- A request that passes the retry check, encodes and builds is dispatched:
the entry that follows the pre-sleep is the dispatch of the request of the
call. -/
theorem restRequest_first_dispatch (w : World) (fuel : Nat) (retry : Int) (verb uri : String)
    (payload : GoValue) (tenant : String) (m : Machine) (body : Body)
    (hretry : retry ≤ 3) (hbody : marshalPayload payload = some body)
    (hnew : w.newRequestError verb (m.sess.urlPrefix ++ uri) = none) :
    ∃ req,
      RequestOf verb (m.sess.urlPrefix ++ uri) (if tenant = "" then m.sess.tenant else tenant)
        payload req ∧
      (restRequest w (fuel + 1) retry verb uri payload tenant m).2.trace[
        (checkRetryForSleep retry verb (m.sess.urlPrefix ++ uri) m).2.trace.length]? =
        some (m.depth, .dispatch req) := by
  cases hresp : w.controller m.clock with
  | resp resp =>
    obtain ⟨req, m3, hP, htr, _, _, _, heq⟩ :=
      restRequest_answered w fuel retry verb uri payload tenant m resp body hretry hbody hnew
        hresp
    have hafter := after_response w fuel retry verb uri payload _ _ resp m3 _ heq
    refine ⟨req, hP, ?_⟩
    rw [hafter.2.1 _ (by rw [htr]; simp), htr]
    simp
  | fail msg =>
    obtain ⟨req, m2, hP, htr, _, heq⟩ :=
      restRequest_failed w fuel retry verb uri payload tenant m msg body hretry hbody hnew hresp
    refine ⟨req, hP, ?_⟩
    rw [heq]
    show m2.trace[_]? = _
    rw [htr]
    simp

/-- C10: whatever the patchOp string and the payload, every request that
`Patch` dispatches for the call is a PATCH to the URL of the call whose body
is the JSON encoding of the object with the single key patchOp mapped to the
payload, that is, the text made of an opening brace, the quoted patchOp, a
colon, the encoded payload and a closing brace; and when the payload can be
encoded and the request can be built, the first thing `Patch` does is to
dispatch such a request. -/
theorem patch_sends_single_key_object (w : World) (fuel : Nat) (uri : String)
    (payload : GoValue) (patchOp : String) (sink : Option GoValue) (tenant : List String)
    (m : Machine) :
    (∀ r ∈ ownDispatches m (Patch w (restRequest w fuel 0) uri payload patchOp sink tenant m).2,
      r.verb = "PATCH" ∧ r.url = m.sess.urlPrefix ++ uri ∧
      marshalPayload (.map [(patchOp, payload)]) = some r.body ∧
      ∃ text, marshal payload = some text ∧
        r.body = .bytes ("\x7b" ++ (quoteString patchOp ++ ":" ++ text) ++ "\x7d")) ∧
    (∀ text, marshal payload = some text →
      w.newRequestError "PATCH" (m.sess.urlPrefix ++ uri) = none → 0 < fuel →
      ∃ r, (Patch w (restRequest w fuel 0) uri payload patchOp sink tenant m).2.trace[
          m.trace.length]? = some (m.depth, .dispatch r) ∧
        r.verb = "PATCH" ∧ r.url = m.sess.urlPrefix ++ uri ∧
        r.body = .bytes ("\x7b" ++ (quoteString patchOp ++ ":" ++ text) ++ "\x7d")) := by
  have hbody : ∀ b, marshalPayload (.map [(patchOp, payload)]) = some b →
      ∃ text, marshal payload = some text ∧
        b = .bytes ("\x7b" ++ (quoteString patchOp ++ ":" ++ text) ++ "\x7d") := by
    intro b hb
    simp only [marshalPayload, marshal_single_key] at hb
    cases hv : marshal payload with
    | none => simp [hv] at hb
    | some text =>
      simp only [hv, Option.map_some', Option.some.injEq] at hb
      exact ⟨text, rfl, hb.symm⟩
  have hmach : (Patch w (restRequest w fuel 0) uri payload patchOp sink tenant m).2 =
      (restRequest w fuel 0 "PATCH" uri (.map [(patchOp, payload)]) (locTenant m tenant) m).2 := by
    unfold Patch
    dsimp only
    rw [restRequestInterfaceResponse_machine]
  rw [hmach]
  constructor
  · intro r hr
    have h := (restRequest_step w fuel 0 "PATCH" uri (.map [(patchOp, payload)])
      (locTenant m tenant) m).own.1 r hr
    exact ⟨h.1, h.2.1, h.2.2.2, hbody _ h.2.2.2⟩
  · intro text htext hnew hfuel
    obtain ⟨k, hk⟩ : ∃ k, fuel = k + 1 := ⟨fuel - 1, by omega⟩
    subst hk
    have hmp : marshalPayload (.map [(patchOp, payload)]) =
        some (.bytes ("\x7b" ++ (quoteString patchOp ++ ":" ++ text) ++ "\x7d")) := by
      simp [marshalPayload, marshal_single_key, htext]
    obtain ⟨req, hP, hat⟩ := restRequest_first_dispatch w k 0 "PATCH" uri
      (.map [(patchOp, payload)]) (locTenant m tenant) m _ (by decide) hmp hnew
    have hpre : (checkRetryForSleep 0 "PATCH" (m.sess.urlPrefix ++ uri) m).2 = m := by
      simp [checkRetryForSleep]
    rw [hpre] at hat
    refine ⟨req, hat, hP.1, hP.2.1, ?_⟩
    have := hP.2.2.2
    rw [hmp] at this
    exact (Option.some.inj this).symm

set_option maxRecDepth 16384 in
/-- The example of C10: `Patch("/api/x/u", {"y":2}, "replace", sink)` on the
sample session dispatches first a PATCH whose body is the text
`{"replace":{"y":2}}`. -/
theorem patch_sends_single_key_object_witness :
    marshal (.map [("y", .int 2)]) = some "\x7b\"y\":2\x7d" ∧
    (∃ r, (Patch (always 200) (restRequest (always 200) 3 0) "/api/x/u"
          (.map [("y", .int 2)]) "replace" (some .null) [] sampleMachine).2.trace[
          sampleMachine.trace.length]? = some (sampleMachine.depth, .dispatch r) ∧
        r.verb = "PATCH" ∧ r.url = sampleMachine.sess.urlPrefix ++ "/api/x/u" ∧
        r.body = .bytes ("\x7b" ++ (quoteString "replace" ++ ":" ++ "\x7b\"y\":2\x7d") ++ "\x7d")) ∧
    ((ownDispatches sampleMachine
        (Patch (always 200) (restRequest (always 200) 3 0) "/api/x/u"
          (.map [("y", .int 2)]) "replace" (some .null) [] sampleMachine).2).map
      fun r => r.body) = [.bytes "\x7b\"replace\":\x7b\"y\":2\x7d\x7d"] :=
  ⟨by decide,
    (patch_sends_single_key_object (always 200) 3 "/api/x/u" (.map [("y", .int 2)]) "replace"
      (some .null) [] sampleMachine).2 "\x7b\"y\":2\x7d" (by decide) rfl (by decide),
    by decide⟩

/-! ## Exhausting the retry budget -/

theorem Step.extends {P : Request → Prop} {n : Nat} {m m1 : Machine} (h : Step P n m m1) :
    ∃ new, m1.trace = m.trace ++ new := by
  obtain ⟨_, _, _, new, e1, _, _, _⟩ := h
  exact ⟨new, e1⟩

theorem Step.own_nil {P : Request → Prop} {m m1 : Machine} (h : Step P 0 m m1) :
    ownDispatches m m1 = [] :=
  List.length_eq_zero.1 (Nat.le_zero.1 h.own.2)

theorem ownDispatches_trans (m m1 m2 : Machine) (h1 : ∃ a, m1.trace = m.trace ++ a)
    (h2 : ∃ b, m2.trace = m1.trace ++ b) (hd : m1.depth = m.depth) :
    ownDispatches m m2 = ownDispatches m m1 ++ ownDispatches m1 m2 := by
  obtain ⟨a, ha⟩ := h1
  obtain ⟨b, hb⟩ := h2
  unfold ownDispatches newEntries
  rw [hb, ha, hd, List.append_assoc, List.drop_left, List.drop_left, ← List.append_assoc,
    List.drop_left, dispatchesAt_append]

theorem ownDispatches_self (m : Machine) : ownDispatches m m = [] := by
  simp [ownDispatches, newEntries, dispatchesAt]

theorem probeRounds_ok (w : World) (url : String) (hprobe : w.newRequestError "GET" url = none)
    (n round : Nat) (m : Machine) : (probeRounds w url n round m).1 = (true, none) := by
  induction n generalizing round m with
  | zero => rfl
  | succ n ih =>
    unfold probeRounds
    rw [hprobe]
    dsimp only
    split
    · split
      · rfl
      · exact ih _ _
    · exact ih _ _

/-- A call whose every answer is 419 or lies in 500..598 uses up its retry
budget: entered with the retry counter `4 - k` it dispatches its request
exactly `k` times and returns "tried 3 times and failed". -/
theorem restRequest_exhausts_retries (w : World) (verb uri : String) (payload : GoValue)
    (body : Body) (hbody : marshalPayload payload = some body)
    (hall : ∀ n, ∃ r, w.controller n = .resp r ∧
      (r.status = 419 ∨ (r.status ≥ 500 ∧ r.status < 599)))
    (hnew : ∀ url, w.newRequestError verb url = none)
    (hprobe : ∀ url, w.newRequestError "GET" url = none) (k : Nat) :
    ∀ (fuel : Nat) (retry : Int) (tenant : String) (m : Machine),
      k < fuel → retry + k = 4 →
      (restRequest w fuel retry verb uri payload tenant m).1 =
        some (none, some (.avi
          { verb := verb, url := m.sess.urlPrefix ++ uri,
            err := some "tried 3 times and failed" })) ∧
      (ownDispatches m (restRequest w fuel retry verb uri payload tenant m).2).length = k := by
  induction k with
  | zero =>
    intro fuel retry tenant m hfuel hretry
    obtain ⟨f, hf⟩ : ∃ f, fuel = f + 1 := ⟨fuel - 1, by omega⟩
    subst hf
    have hab := checkRetryForSleep_abort retry (by omega) verb (m.sess.urlPrefix ++ uri) m
    unfold restRequest
    dsimp only
    rw [hab]
    exact ⟨rfl, by rw [ownDispatches_self]; rfl⟩
  | succ k ih =>
    intro fuel retry tenant m hfuel hretry
    obtain ⟨f, hf⟩ : ∃ f, fuel = f + 1 := ⟨fuel - 1, by omega⟩
    subst hf
    obtain ⟨resp, hresp, hstatus⟩ := hall m.clock
    obtain ⟨req, m3, _, htr, hd, hs, _, heq⟩ :=
      restRequest_answered w f retry verb uri payload tenant m resp body (by omega) hbody
        (hnew _) hresp
    have hrest : ∀ v u p t m, Step (fun _ => True) 4 m (restRequest w f 0 v u p t m).2 :=
      fun v u p t m => (restRequest_step w f 0 v u p t m).imp (fun _ _ => trivial)
    have hnot : ¬ (resp.status = 401 ∧ m3.sess.sessionid ≠ "" ∧ uri ≠ "login") := by
      intro h
      rcases hstatus with h1 | h1 <;> omega
    have hdec := (retryDecision_cases w (restRequest w f 0) 4 hrest resp uri m3).2 hnot
    have hchk : CheckControllerStatus w m3 = ((true, none), (CheckControllerStatus w m3).2) :=
      Prod.ext (probeRounds_ok w _ (hprobe _) _ _ _) rfl
    rw [hdec] at heq
    simp only [hstatus, decide_True] at heq
    rw [hchk] at heq
    dsimp only at heq
    have hpre := step_checkRetryForSleep (fun _ => True) retry verb (m.sess.urlPrefix ++ uri) m
    have hstep3 := step_CheckControllerStatus (fun _ => True) w m3
    have hbase3 : m3.sess.urlPrefix = m.sess.urlPrefix := by
      rw [hs]; exact (foldl_collectCookie_tenant _ _).2
    have hrec := ih f (retry + 1) (if tenant = "" then m.sess.tenant else tenant)
      (CheckControllerStatus w m3).2 (by omega) (by omega)
    rw [hstep3.base_eq, hbase3] at hrec
    rw [heq]
    refine ⟨hrec.1, ?_⟩
    -- count: nothing before the dispatch, the dispatch, nothing in the probe, k afterwards
    have hrecstep := restRequest_step w f (retry + 1) verb uri payload
      (if tenant = "" then m.sess.tenant else tenant) (CheckControllerStatus w m3).2
    have hd3 : (CheckControllerStatus w m3).2.depth = m.depth := hstep3.depth_eq.trans hd
    have e0 : ∃ a, m3.trace = m.trace ++ a := by
      obtain ⟨a, ha⟩ := hpre.extends
      exact ⟨a ++ [(m.depth, .dispatch req)], by rw [htr, ha, List.append_assoc]⟩
    have e1 : ∃ a, (CheckControllerStatus w m3).2.trace = m.trace ++ a := by
      obtain ⟨a, ha⟩ := e0
      obtain ⟨b, hb⟩ := hstep3.extends
      exact ⟨a ++ b, by rw [hb, ha, List.append_assoc]⟩
    have c0 : ownDispatches m m3 = [req] := by
      have hsplit := ownDispatches_trans m (checkRetryForSleep retry verb
        (m.sess.urlPrefix ++ uri) m).2 m3 hpre.extends ⟨_, htr⟩ hpre.depth_eq
      rw [hsplit, hpre.own_nil]
      unfold ownDispatches newEntries
      rw [htr, List.drop_left, hpre.depth_eq, dispatchesAt_dispatch]
      rfl
    rw [ownDispatches_trans m _ _ e1 hrecstep.extends hd3,
      ownDispatches_trans m m3 _ e0 hstep3.extends hd, c0, hstep3.own_nil,
      List.length_append, hrec.2]
    simp
    omega

/-! ## Object lookup -/

theorem GetUri_ok (obj : String) (options : List ApiOptionsParams) (opts : ApiOptions)
    (hopts : applyApiOptions options {} = (opts, none)) (hname : opts.name ≠ "")
    (hres : opts.result.isSome) : GetUri obj options = (specObjectUri obj opts, none) := by
  have hnone : opts.result.isNone = false := by
    cases h : opts.result with
    | none => rw [h] at hres; simp at hres
    | some v => rfl
  unfold GetUri specObjectUri
  rw [hopts]
  simp only [hnone, hname, if_false, Bool.false_eq_true]
  by_cases h1 : opts.cloud = "" <;> by_cases h2 : opts.cloudUUID = "" <;>
    cases h3 : opts.skipDefault <;> cases h4 : opts.includeName <;>
    simp [h1, h2, String.append_assoc]

/-- C11: when the options leave a non-empty name and a sink, `GetUri` returns
exactly the URI `api/<obj>?name=<name>`, then `&cloud=<cloud>` when a cloud
name is set, otherwise `&cloud_ref.uuid=<uuid>` when a cloud UUID is set,
then `&skip_default=true` when skipDefault is set, then `&include_name=true`
when includeName is set, and no error; when the name is empty or no sink was
supplied it returns the empty URI and an error. -/
theorem GetUri_spec (obj : String) (options : List ApiOptionsParams) (opts : ApiOptions)
    (hopts : applyApiOptions options {} = (opts, none)) :
    (opts.name ≠ "" → opts.result.isSome →
      GetUri obj options = (specObjectUri obj opts, none)) ∧
    ((opts.name = "" ∨ opts.result = none) →
      (GetUri obj options).1 = "" ∧ (GetUri obj options).2.isSome) := by
  constructor
  · intro hname hres
    exact GetUri_ok obj options opts hopts hname hres
  · intro h
    unfold GetUri
    rw [hopts]
    rcases h with h | h
    · by_cases hr : opts.result.isNone
      · simp [hr]
      · simp [hr, h]
    · simp [h]

/-- The URI of C11 for the pool "p" with a cloud name, a cloud UUID and both
flags set: the cloud name wins over the UUID. -/
theorem GetUri_spec_witness :
    GetUri "pool" [SetName "p", SetResult (some .null), SetCloud "c", SetCloudUUID "u",
        SetSkipDefault true, SetIncludeName true] =
      ("api/pool?name=p&cloud=c&skip_default=true&include_name=true", none) :=
  (GetUri_spec "pool" [SetName "p", SetResult (some .null), SetCloud "c", SetCloudUUID "u",
      SetSkipDefault true, SetIncludeName true]
    { name := "p", cloud := "c", cloudUUID := "u", skipDefault := true, includeName := true,
      result := some .null } rfl).1 (by decide) rfl

/-! ## Responses that are returned at once -/

/-- A dispatched request whose answer is neither a re-authenticating 401 nor
419 nor in 500..598 returns at once, with what `readResponse` makes of the
answer; nothing follows the dispatch in the trace. -/
theorem restRequest_returned_at_once (w : World) (fuel : Nat) (retry : Int) (verb uri : String)
    (payload : GoValue) (tenant : String) (m : Machine) (resp : Response)
    (hretry : retry ≤ 3) (hbody : marshalPayload payload ≠ none)
    (hnew : w.newRequestError verb (m.sess.urlPrefix ++ uri) = none)
    (hresp : w.controller m.clock = .resp resp)
    (hre : ¬ (resp.status = 401 ∧ (collectCookiesFromResp m.sess resp).sessionid ≠ "" ∧
      uri ≠ "login"))
    (hnot : ¬ (resp.status = 419 ∨ (resp.status ≥ 500 ∧ resp.status < 599))) :
    (restRequest w (fuel + 1) retry verb uri payload tenant m).1 =
      some (readResponse w
        { verb := verb, url := m.sess.urlPrefix ++ uri, httpStatusCode := resp.status } resp) ∧
    (∃ r, (restRequest w (fuel + 1) retry verb uri payload tenant m).2.trace =
      (checkRetryForSleep retry verb (m.sess.urlPrefix ++ uri) m).2.trace ++
        [(m.depth, .dispatch r)]) ∧
    (restRequest w (fuel + 1) retry verb uri payload tenant m).2.sess =
      collectCookiesFromResp m.sess resp := by
  obtain ⟨body, hb⟩ := Option.ne_none_iff_exists'.1 hbody
  obtain ⟨req, m3, _, htr, _, hs, _, heq⟩ :=
    restRequest_answered w fuel retry verb uri payload tenant m resp body hretry hb hnew hresp
  have hafter := after_response w fuel retry verb uri payload _ _ resp m3 _ heq
  rw [← hs] at hre
  have hfin := hafter.2.2.2 hre hnot
  rw [hfin]
  exact ⟨rfl, ⟨req, htr⟩, hs⟩

/-- C13: a response with status 204 that ends a call is "no content, no
error".  Whatever its body holds, `restRequest` returns the nil slice and a
nil error, with nothing following the dispatch; and whenever `restRequest`
returns the nil slice and a nil error, each of Get, Post, Put, Patch and
Delete returns a nil error without decoding and leaves the caller's sink as
it was, while GetRaw and PostRaw return what `restRequest` returns. -/
theorem status_204_no_content (w : World) (fuel : Nat) (retry : Int) (verb uri : String)
    (payload : GoValue) (tenant : String) (m : Machine) (resp : Response)
    (hretry : retry ≤ 3) (hbody : marshalPayload payload ≠ none)
    (hnew : w.newRequestError verb (m.sess.urlPrefix ++ uri) = none)
    (hresp : w.controller m.clock = .resp resp) (h204 : resp.status = 204) :
    (restRequest w (fuel + 1) retry verb uri payload tenant m).1 = some (none, none) ∧
    (∃ r, (restRequest w (fuel + 1) retry verb uri payload tenant m).2.trace =
      (checkRetryForSleep retry verb (m.sess.urlPrefix ++ uri) m).2.trace ++
        [(m.depth, .dispatch r)]) ∧
    (∀ (k : Nat) (u : String) (p : GoValue) (op : String) (sink : Option GoValue)
        (ts : List String) (t : String) (params : List GoValue) (m0 : Machine),
      ((restRequest w k 0 "GET" u .null (locTenant m0 ts) m0).1 = some (none, none) →
        (Get w (restRequest w k 0) u sink ts m0).1 = some (none, sink)) ∧
      ((restRequest w k 0 "POST" u p (locTenant m0 ts) m0).1 = some (none, none) →
        (Post w (restRequest w k 0) u p sink ts m0).1 = some (none, sink)) ∧
      ((restRequest w k 0 "PUT" u p (locTenant m0 ts) m0).1 = some (none, none) →
        (Put w (restRequest w k 0) u p sink ts m0).1 = some (none, sink)) ∧
      ((restRequest w k 0 "PATCH" u (.map [(op, p)]) (locTenant m0 ts) m0).1 =
          some (none, none) →
        (Patch w (restRequest w k 0) u p op sink ts m0).1 = some (none, sink)) ∧
      ((restRequest w k 0 "DELETE" u (match params with | [] => GoValue.null | q :: _ => q)
          t m0).1 = some (none, none) →
        (Delete w (restRequest w k 0) u t params m0).1 =
          some (none, (match params with | [_, r] => some r | _ => none))) ∧
      GetRaw (restRequest w k 0) u t m0 = restRequest w k 0 "GET" u .null t m0 ∧
      PostRaw (restRequest w k 0) u p t m0 = restRequest w k 0 "POST" u p t m0) := by
  have hre : ¬ (resp.status = 401 ∧ (collectCookiesFromResp m.sess resp).sessionid ≠ "" ∧
      uri ≠ "login") := by rw [h204]; simp
  have hnot : ¬ (resp.status = 419 ∨ (resp.status ≥ 500 ∧ resp.status < 599)) := by
    rw [h204]; decide
  have h := restRequest_returned_at_once w fuel retry verb uri payload tenant m resp hretry
    hbody hnew hresp hre hnot
  have hrr : ∀ (rest : RestFn) (v u : String) (p : GoValue) (t : String)
      (sink : Option GoValue) (m0 : Machine), (rest v u p t m0).1 = some (none, none) →
      (restRequestInterfaceResponse w rest v u p sink t m0).1 = some (none, sink) := by
    intro rest v u p t sink m0 hr
    unfold restRequestInterfaceResponse
    cases hc : rest v u p t m0 with
    | mk r m1 =>
      rw [hc] at hr
      simp only at hr
      subst hr
      rfl
  refine ⟨?_, h.2.1, ?_⟩
  · rw [h.1]
    simp [readResponse, h204]
  · intro k u p op sink ts t params m0
    exact ⟨hrr _ _ _ _ _ _ _, hrr _ _ _ _ _ _ _, hrr _ _ _ _ _ _ _, hrr _ _ _ _ _ _ _,
      hrr _ _ _ _ _ _ _, rfl, rfl⟩

/-- The statement of C13 on a GET that is answered 204 with a body that is
not JSON: `restRequest` returns nil and nil, and `Get` leaves a sink holding
the string "old" as it was. -/
theorem status_204_no_content_witness :
    (restRequest (replying [{ status := 204, body := "not json" }]) 2 0 "GET" "api/pool"
      .null "" sampleMachine).1 = some (none, none) ∧
    ((Get (replying [{ status := 204, body := "not json" }])
        (restRequest (replying [{ status := 204, body := "not json" }]) 2 0) "api/pool"
        (some (.str "old")) [] sampleMachine).1.map fun r => (r.1, r.2.map marshal)) =
      some (none, some (some "\"old\"")) :=
  ⟨(status_204_no_content (replying [{ status := 204, body := "not json" }]) 1 0 "GET"
      "api/pool" .null "" sampleMachine { status := 204, body := "not json" } (by decide)
      (by decide) rfl rfl rfl).1,
    by decide⟩

/-- C14, as amended: a response whose status lies outside 200..299 and that
recovery does not handle (it is not a re-authenticating 401, not 419 and not
in 500..598) is not retried, and `restRequest` returns an `AviError` with the
verb and URL of the request, with `HttpStatusCode` equal to the status, and
with a `Message` that is the stringified JSON-decoded body when the body
could be read, and "Response body read failed: " followed by the read error
when it could not. -/
theorem non_2xx_returned_as_error (w : World) (fuel : Nat) (retry : Int) (verb uri : String)
    (payload : GoValue) (tenant : String) (m : Machine) (resp : Response)
    (hretry : retry ≤ 3) (hbody : marshalPayload payload ≠ none)
    (hnew : w.newRequestError verb (m.sess.urlPrefix ++ uri) = none)
    (hresp : w.controller m.clock = .resp resp)
    (hout : resp.status < 200 ∨ resp.status > 299)
    (hre : ¬ (resp.status = 401 ∧ (collectCookiesFromResp m.sess resp).sessionid ≠ "" ∧
      uri ≠ "login"))
    (hnot : ¬ (resp.status = 419 ∨ (resp.status ≥ 500 ∧ resp.status < 599))) :
    (restRequest w (fuel + 1) retry verb uri payload tenant m).1 =
      some (some resp.body, some (.avi
        { verb := verb, url := m.sess.urlPrefix ++ uri, httpStatusCode := resp.status,
          message := some (match resp.readError with
            | none => showDecoded w resp.body
            | some e => "Response body read failed: " ++ e) })) ∧
    (∃ r, (restRequest w (fuel + 1) retry verb uri payload tenant m).2.trace =
      (checkRetryForSleep retry verb (m.sess.urlPrefix ++ uri) m).2.trace ++
        [(m.depth, .dispatch r)]) := by
  have h := restRequest_returned_at_once w fuel retry verb uri payload tenant m resp hretry
    hbody hnew hresp hre hnot
  refine ⟨?_, h.2.1⟩
  rw [h.1]
  have h204 : resp.status ≠ 204 := by omega
  unfold readResponse
  rw [if_neg h204]
  cases resp.readError with
  | none => simp [hout]
  | some e => rfl

/-- The amended C14 on a GET answered 404 with a JSON body: one dispatch, and
an `AviError` with status 404 whose message is the printed decoded body. -/
theorem non_2xx_returned_as_error_witness :
    (restRequest (decoding [{ status := 404, body := "\x7b\"error\":\"gone\"\x7d" }]) 2 0 "GET"
      "api/pool" .null "" sampleMachine).1 =
      some (some "\x7b\"error\":\"gone\"\x7d", some (.avi
        { verb := "GET", url := "https://h/api/pool", httpStatusCode := 404,
          message := some "map[error:gone]" })) :=
  (non_2xx_returned_as_error (decoding [{ status := 404, body := "\x7b\"error\":\"gone\"\x7d" }])
    1 0 "GET" "api/pool" .null "" sampleMachine
    { status := 404, body := "\x7b\"error\":\"gone\"\x7d" } (by decide) (by decide) rfl rfl
    (by decide) (by decide) (by decide)).1

/-- C14 as stated fails: for a 404 whose body cannot be read to its end
(`ioutil.ReadAll` fails with "unexpected EOF" after the bytes of a JSON
document), the `Message` of the returned `AviError` is "Response body read
failed: unexpected EOF", not the stringified decoded body, which would be
"map[error:gone]". -/
theorem non_2xx_unreadable_body_counterexample :
    (restRequest
        (decoding
          [{ status := 404, body := "\x7b\"error\":\"gone\"\x7d",
             readError := some "unexpected EOF" }])
        2 0 "GET" "api/pool" .null "" sampleMachine).1 =
      some (some "\x7b\"error\":\"gone\"\x7d", some (.avi
        { verb := "GET", url := "https://h/api/pool", httpStatusCode := 404,
          message := some "Response body read failed: unexpected EOF" })) ∧
    showDecoded (decoding []) "\x7b\"error\":\"gone\"\x7d" = "map[error:gone]" := by
  refine ⟨by decide, by decide⟩

/-! ## Readiness probe -/

theorem newEntries_of_append (m m1 : Machine) (new : List (Nat × Event))
    (h : m1.trace = m.trace ++ new) : newEntries m m1 = new := by
  unfold newEntries
  rw [h, List.drop_left]

theorem probeRounds_sess (w : World) (url : String) (n round : Nat) (m : Machine) :
    (probeRounds w url n round m).2.sess = m.sess := by
  induction n generalizing round m with
  | zero => rfl
  | succ n ih =>
    unfold probeRounds
    split
    · rfl
    · split
      · split
        · rename_i heq _
          have : (clientDo w (.probe url) m).2.sess = m.sess := rfl
          rw [heq] at this
          exact this
        · rename_i heq _
          have : (clientDo w (.probe url) m).2.sess = m.sess := rfl
          rw [heq] at this
          rw [ih]
          exact this
      · rename_i heq
        have : (clientDo w (.probe url) m).2.sess = m.sess := rfl
        rw [heq] at this
        rw [ih]
        exact this

/-- The polling loop, counted: with `n` rounds left and the first outcome
that ends the polling at position `i` from the current one, it issues
`min n (i + 1)` requests and sleeps `min n i` times; when that outcome comes
within the rounds left, the request that met it is the last entry. -/
theorem probeRounds_count (w : World) (url : String)
    (hnew : w.newRequestError "GET" url = none) (n : Nat) :
    ∀ (round : Nat) (m : Machine) (i : Nat),
      probeReady (w.controller (m.clock + i)) = true →
      (∀ j, j < i → probeReady (w.controller (m.clock + j)) = false) →
      probesIn (newEntries m (probeRounds w url n round m).2) = min n (i + 1) ∧
      probeSleepsIn (newEntries m (probeRounds w url n round m).2) = min n i ∧
      (i < n → (newEntries m (probeRounds w url n round m).2).getLast? =
        some (m.depth, .probe url)) := by
  induction n with
  | zero =>
    intro round m i _ _
    have : newEntries m (probeRounds w url 0 round m).2 = [] := by
      simp [probeRounds, newEntries]
    rw [this]
    simp [probesIn, probeSleepsIn]
  | succ n ih =>
    intro round m i hready hbefore
    have hm1 : (clientDo w (.probe url) m).2.trace = m.trace ++ [(m.depth, .probe url)] := rfl
    cases i with
    | zero =>
      have hr : probeReady (w.controller m.clock) = true := by simpa using hready
      have hout : (probeRounds w url (n + 1) round m).2 = (clientDo w (.probe url) m).2 := by
        unfold probeRounds
        rw [hnew]
        dsimp only
        cases hc : w.controller m.clock with
        | resp r =>
          rw [hc] at hr
          simp only [probeReady, ne_eq, decide_eq_true_eq] at hr
          simp [clientDo, hc, hr]
        | fail msg =>
          rw [hc] at hr
          simp [probeReady] at hr
      rw [hout, newEntries_of_append _ _ _ hm1]
      simp [probesIn, probeSleepsIn]
    | succ i =>
      have hr : probeReady (w.controller m.clock) = false := by
        have := hbefore 0 (by omega)
        simpa using this
      have hout : (probeRounds w url (n + 1) round m).2 =
          (probeRounds w url n (round + 1)
            ((clientDo w (.probe url) m).2.log (.probeSleep round))).2 := by
        conv => lhs; unfold probeRounds
        rw [hnew]
        dsimp only
        cases hc : w.controller m.clock with
        | resp r =>
          rw [hc] at hr
          simp only [probeReady, ne_eq, decide_eq_false_iff_not] at hr
          simp [clientDo, hc, hr]
        | fail msg => simp [clientDo, hc]
      have hm2 : ((clientDo w (.probe url) m).2.log (.probeSleep round)).trace =
          m.trace ++ [(m.depth, .probe url), (m.depth, .probeSleep round)] := by
        simp [Machine.log, clientDo]
      have hclock : ((clientDo w (.probe url) m).2.log (.probeSleep round)).clock =
          m.clock + 1 := rfl
      have hdepth : ((clientDo w (.probe url) m).2.log (.probeSleep round)).depth =
          m.depth := rfl
      have hrec := ih (round + 1) ((clientDo w (.probe url) m).2.log (.probeSleep round)) i
        (by rw [hclock]; rw [show m.clock + 1 + i = m.clock + (i + 1) by omega]; exact hready)
        (by
          intro j hj
          rw [hclock, show m.clock + 1 + j = m.clock + (j + 1) by omega]
          exact hbefore (j + 1) (by omega))
      obtain ⟨new, hnewtr⟩ := (step_probeRounds (fun _ => True) w url n (round + 1)
        ((clientDo w (.probe url) m).2.log (.probeSleep round))).extends
      have hinner := newEntries_of_append _ _ _ hnewtr
      rw [hinner, hdepth] at hrec
      have houter : newEntries m (probeRounds w url (n + 1) round m).2 =
          [(m.depth, .probe url), (m.depth, .probeSleep round)] ++ new := by
        apply newEntries_of_append
        rw [hout, hnewtr, hm2, List.append_assoc]
      rw [houter]
      refine ⟨?_, ?_, ?_⟩
      · have := hrec.1
        simp only [probesIn, List.countP_append] at this ⊢
        rw [this]
        simp
        omega
      · have := hrec.2.1
        simp only [probeSleepsIn, List.countP_append] at this ⊢
        rw [this]
        simp
        omega
      · intro hi
        have hlast := hrec.2.2 (by omega)
        have hne : new ≠ [] := by
          intro h
          rw [h] at hlast
          simp at hlast
        rw [List.getLast?_append_of_ne_nil _ hne]
        exact hlast

/-- The polling loop when no outcome ends the polling: all `n` rounds are
used. -/
theorem probeRounds_never_ready (w : World) (url : String)
    (hnew : w.newRequestError "GET" url = none) (n : Nat) :
    ∀ (round : Nat) (m : Machine),
      (∀ j, probeReady (w.controller (m.clock + j)) = false) →
      probesIn (newEntries m (probeRounds w url n round m).2) = n := by
  induction n with
  | zero =>
    intro round m _
    have : newEntries m (probeRounds w url 0 round m).2 = [] := by
      simp [probeRounds, newEntries]
    rw [this]
    simp [probesIn]
  | succ n ih =>
    intro round m hnever
    have hr : probeReady (w.controller m.clock) = false := by
      have := hnever 0
      simpa using this
    have hout : (probeRounds w url (n + 1) round m).2 =
        (probeRounds w url n (round + 1)
          ((clientDo w (.probe url) m).2.log (.probeSleep round))).2 := by
      conv => lhs; unfold probeRounds
      rw [hnew]
      dsimp only
      cases hc : w.controller m.clock with
      | resp r =>
        rw [hc] at hr
        simp only [probeReady, ne_eq, decide_eq_false_iff_not] at hr
        simp [clientDo, hc, hr]
      | fail msg => simp [clientDo, hc]
    have hm2 : ((clientDo w (.probe url) m).2.log (.probeSleep round)).trace =
        m.trace ++ [(m.depth, .probe url), (m.depth, .probeSleep round)] := by
      simp [Machine.log, clientDo]
    have hclock : ((clientDo w (.probe url) m).2.log (.probeSleep round)).clock =
        m.clock + 1 := rfl
    have hrec := ih (round + 1) ((clientDo w (.probe url) m).2.log (.probeSleep round))
      (by
        intro j
        rw [hclock, show m.clock + 1 + j = m.clock + (j + 1) by omega]
        exact hnever (j + 1))
    obtain ⟨new, hnewtr⟩ := (step_probeRounds (fun _ => True) w url n (round + 1)
      ((clientDo w (.probe url) m).2.log (.probeSleep round))).extends
    rw [newEntries_of_append _ _ _ hnewtr] at hrec
    have houter : newEntries m (probeRounds w url (n + 1) round m).2 =
        [(m.depth, .probe url), (m.depth, .probeSleep round)] ++ new := by
      apply newEntries_of_append
      rw [hout, hnewtr, hm2, List.append_assoc]
    rw [houter]
    simp only [probesIn, List.countP_append] at hrec ⊢
    rw [hrec]
    simp
    omega

theorem CheckControllerStatus_entries (w : World) (m : Machine) :
    ∃ new, newEntries m (CheckControllerStatus w m).2 = (m.depth, .readiness) :: new ∧
      newEntries (m.log .readiness)
        (probeRounds w (m.sess.urlPrefix ++ "/api/cluster/status") 10 0
          (m.log .readiness)).2 = new := by
  obtain ⟨new, hnewtr⟩ := (step_probeRounds (fun _ => True) w
    (m.sess.urlPrefix ++ "/api/cluster/status") 10 0 (m.log .readiness)).extends
  refine ⟨new, ?_, newEntries_of_append _ _ _ hnewtr⟩
  apply newEntries_of_append
  unfold CheckControllerStatus
  rw [hnewtr]
  simp [Machine.log]

/-- C17: when the cluster-status request can be built, `CheckControllerStatus`
issues at most 10 requests.  If the first outcome that is a response with a
status other than 500, 502 and 503 is the one at index `i` (transport errors
counting as not ready), it issues `min 10 (i + 1)` requests and sleeps
`min 10 i` times, and when `i < 10` the request that met that response is
the last thing it does, with no sleep after it; if there is no such outcome
it issues 10 requests. -/
theorem CheckControllerStatus_requests (w : World) (m : Machine)
    (hnew : w.newRequestError "GET" (m.sess.urlPrefix ++ "/api/cluster/status") = none) :
    probesIn (newEntries m (CheckControllerStatus w m).2) ≤ 10 ∧
    (∀ i, probeReady (w.controller (m.clock + i)) = true →
      (∀ j, j < i → probeReady (w.controller (m.clock + j)) = false) →
      probesIn (newEntries m (CheckControllerStatus w m).2) = min 10 (i + 1) ∧
      probeSleepsIn (newEntries m (CheckControllerStatus w m).2) = min 10 i ∧
      (i < 10 → (newEntries m (CheckControllerStatus w m).2).getLast? =
        some (m.depth, .probe (m.sess.urlPrefix ++ "/api/cluster/status")))) ∧
    ((∀ j, probeReady (w.controller (m.clock + j)) = false) →
      probesIn (newEntries m (CheckControllerStatus w m).2) = 10) := by
  obtain ⟨new, hent, hinner⟩ := CheckControllerStatus_entries w m
  have hfound : ∀ i, probeReady (w.controller (m.clock + i)) = true →
      (∀ j, j < i → probeReady (w.controller (m.clock + j)) = false) →
      probesIn (newEntries m (CheckControllerStatus w m).2) = min 10 (i + 1) ∧
      probeSleepsIn (newEntries m (CheckControllerStatus w m).2) = min 10 i ∧
      (i < 10 → (newEntries m (CheckControllerStatus w m).2).getLast? =
        some (m.depth, .probe (m.sess.urlPrefix ++ "/api/cluster/status"))) := by
    intro i hready hbefore
    have h := probeRounds_count w (m.sess.urlPrefix ++ "/api/cluster/status") hnew 10 0
      (m.log .readiness) i hready hbefore
    rw [hinner] at h
    rw [hent]
    refine ⟨?_, ?_, ?_⟩
    · have := h.1
      simp only [probesIn, List.countP_cons] at this ⊢
      rw [this]
      simp
    · have := h.2.1
      simp only [probeSleepsIn, List.countP_cons] at this ⊢
      rw [this]
      simp
    · intro hi
      have hlast := h.2.2 hi
      have hne : new ≠ [] := by
        intro hnil
        rw [hnil] at hlast
        simp at hlast
      have hsplit : (m.depth, Event.readiness) :: new = [(m.depth, Event.readiness)] ++ new :=
        rfl
      rw [hsplit, List.getLast?_append_of_ne_nil _ hne]
      exact hlast
  have hnever : (∀ j, probeReady (w.controller (m.clock + j)) = false) →
      probesIn (newEntries m (CheckControllerStatus w m).2) = 10 := by
    intro hn
    have h := probeRounds_never_ready w (m.sess.urlPrefix ++ "/api/cluster/status") hnew 10 0
      (m.log .readiness) hn
    rw [hinner] at h
    rw [hent]
    simp only [probesIn, List.countP_cons] at h ⊢
    rw [h]
    simp
  refine ⟨?_, hfound, hnever⟩
  by_cases hex : ∃ i, probeReady (w.controller (m.clock + i)) = true
  · have hspec := Nat.find_spec hex
    have := (hfound (Nat.find hex) hspec (fun j hj => by
      have := Nat.find_min hex hj
      simpa using this)).1
    rw [this]
    omega
  · have hn : ∀ j, probeReady (w.controller (m.clock + j)) = false := by
      intro j
      by_contra hc
      exact hex ⟨j, by simpa using hc⟩
    rw [hnever hn]

/-- The count of C17 on a controller that answers the cluster-status request
with 503, then 502, then 200: three requests, two sleeps, the third request
last. -/
theorem CheckControllerStatus_requests_witness :
    probesIn (newEntries sampleMachine
      (CheckControllerStatus (answering [503, 502, 200]) sampleMachine).2) = min 10 (2 + 1) ∧
    probeSleepsIn (newEntries sampleMachine
      (CheckControllerStatus (answering [503, 502, 200]) sampleMachine).2) = min 10 2 ∧
    (newEntries sampleMachine
      (CheckControllerStatus (answering [503, 502, 200]) sampleMachine).2).map (fun e => e.2) =
      [.readiness, .probe "https://h//api/cluster/status", .probeSleep 0,
        .probe "https://h//api/cluster/status", .probeSleep 1,
        .probe "https://h//api/cluster/status"] :=
  ⟨((CheckControllerStatus_requests (answering [503, 502, 200]) sampleMachine rfl).2.1 2
      (by decide) (by decide)).1,
    ((CheckControllerStatus_requests (answering [503, 502, 200]) sampleMachine rfl).2.1 2
      (by decide) (by decide)).2.1,
    by decide⟩

set_option maxRecDepth 16384 in
/-- C16: `CheckControllerStatus` does not report failure when its budget is
spent.  On a controller that answers every cluster-status request with 503,
and on one that cannot be reached at all, it issues its 10 requests and
returns true with a nil error; a GET on the controller that always answers
503 therefore goes on to retry after each probe, four dispatches in all, and
ends with "tried 3 times and failed", not with an error of the probe. -/
theorem CheckControllerStatus_true_when_exhausted :
    (CheckControllerStatus (always 503) sampleMachine).1 = (true, none) ∧
    probesIn (newEntries sampleMachine (CheckControllerStatus (always 503) sampleMachine).2)
      = 10 ∧
    (CheckControllerStatus unreachable sampleMachine).1 = (true, none) ∧
    probesIn (newEntries sampleMachine (CheckControllerStatus unreachable sampleMachine).2)
      = 10 ∧
    (ownDispatches sampleMachine
      (Get (always 503) (restRequest (always 503) 9 0) "api/pool" none [] sampleMachine).2).length
      = 4 ∧
    ((Get (always 503) (restRequest (always 503) 9 0) "api/pool" none []
        sampleMachine).1.map fun r => r.1) =
      some (some (.avi
        { verb := "GET", url := "https://h/api/pool",
          err := some "tried 3 times and failed" })) := by
  refine ⟨by decide, by decide, by decide, by decide, by decide, by decide⟩

/-! ## Transport -/

/-- C20: the transport that `NewAviSession` builds when none is injected
skips certificate verification whether or not the insecure option was given.
Constructed with a password only, the session has `insecure` false and a
transport, also the one of its client, with `InsecureSkipVerify` true;
constructed with `SetInsecure` it has the same transport. -/
theorem transport_skips_verification_without_insecure :
    (NewAviSession (always 200) 5 "h" "u" [SetPassword "p"]).2.sess.insecure = false ∧
    (NewAviSession (always 200) 5 "h" "u" [SetPassword "p"]).2.sess.transport =
      some { insecureSkipVerify := true } ∧
    (NewAviSession (always 200) 5 "h" "u" [SetPassword "p"]).2.sess.client =
      some { transport := some { insecureSkipVerify := true }, timeout := 60000000000 } ∧
    (NewAviSession (always 200) 5 "h" "u" [SetPassword "p", SetInsecure]).2.sess.insecure =
      true ∧
    (NewAviSession (always 200) 5 "h" "u" [SetPassword "p", SetInsecure]).2.sess.transport =
      some { insecureSkipVerify := true } := by
  refine ⟨by decide, by decide, by decide, by decide, by decide⟩

/-- C12, as amended: with a name and a sink set and a collection answer to
the name query that decodes without error, `GetObject` goes by the `count`
of the answer, not by the number of results it holds.  For the count 0 it
returns the error "No object of type <obj> with
name <name>is found", for a count above 1 the error "More than one object of
type <obj> with name <name>is found", both texts holding the object type and
the name, and in both cases the sink is as it was; for the count 1, with
results that decode to a list that has a first element, it decodes that
element into the sink and returns no error. -/
theorem GetObject_by_count (w : World) (rest : RestFn) (obj tenant : String)
    (options : List ApiOptionsParams) (opts : ApiOptions) (m m1 : Machine)
    (res : AviCollectionResult)
    (hopts : applyApiOptions options {} = (opts, none)) (hname : opts.name ≠ "")
    (hres : opts.result.isSome)
    (hcoll : GetCollectionRaw w rest (specObjectUri obj opts) tenant m =
      (some (res, none), m1)) :
    (res.Count = 0 →
      GetObject w rest obj tenant options m =
        (some (.returned (some (.other
          ("No object of type " ++ obj ++ " with name " ++ opts.name ++ "is found")),
          opts.result)), m1)) ∧
    (res.Count > 1 →
      GetObject w rest obj tenant options m =
        (some (.returned (some (.other
          ("More than one object of type " ++ obj ++ " with name " ++ opts.name ++
            "is found")),
          opts.result)), m1)) ∧
    (res.Count = 1 → ∀ (first : String) (others : List String) (sink : Option GoValue),
      w.unmarshalRawList res.Results = .ok (first :: others) →
      unmarshalInto w first opts.result = .ok sink →
      GetObject w rest obj tenant options m = (some (.returned (none, sink)), m1)) := by
  have huri := GetUri_ok obj options opts hopts hname hres
  refine ⟨?_, ?_, ?_⟩
  · intro h0
    unfold GetObject
    rw [hopts]
    dsimp only
    rw [huri]
    dsimp only
    rw [hcoll]
    dsimp only
    rw [if_pos h0]
  · intro h1
    have h0 : ¬ res.Count = 0 := by omega
    unfold GetObject
    rw [hopts]
    dsimp only
    rw [huri]
    dsimp only
    rw [hcoll]
    dsimp only
    rw [if_neg h0, if_pos h1]
  · intro h1 first others sink hlist hdec
    have h0 : ¬ res.Count = 0 := by omega
    have hgt : ¬ res.Count > 1 := by omega
    unfold GetObject
    rw [hopts]
    dsimp only
    rw [huri]
    dsimp only
    rw [hcoll]
    dsimp only
    rw [if_neg h0, if_neg hgt, hlist]
    dsimp only
    rw [hdec]

set_option maxRecDepth 16384 in
/-- The statement of C12 on `GetObjectByName("pool", "p", sink)`: an answer
with the count 2 gives the error that names "pool" and "p" and leaves the
sink, which holds the string "old", as it was; an answer with the count 1
and one result fills the sink with that result. -/
theorem GetObject_by_count_witness :
    ((GetObjectByName (collecting 2 ["r1", "r2"]) (restRequest (collecting 2 ["r1", "r2"]) 2 0)
        "pool" "p" (some (.str "old")) [] sampleMachine).1.map fun r =>
      match r with
      | .returned (e, sink) => (e, sink.map marshal)
      | .panicked _ => (none, none)) =
      some (some (.other "More than one object of type pool with name pis found"),
        some (some "\"old\"")) ∧
    ((GetObjectByName (collecting 1 ["r1"]) (restRequest (collecting 1 ["r1"]) 2 0)
        "pool" "p" (some (.str "old")) [] sampleMachine).1.map fun r =>
      match r with
      | .returned (e, sink) => (e, sink.map marshal)
      | .panicked _ => (none, none)) =
      some (none, some (some "\x7b\"name\":\"p\"\x7d")) :=
  ⟨by
      have h := (GetObject_by_count (collecting 2 ["r1", "r2"])
        (restRequest (collecting 2 ["r1", "r2"]) 2 0) "pool" "admin"
        [SetName "p", SetResult (some (.str "old"))]
        { name := "p", result := some (.str "old") } sampleMachine
        (GetCollectionRaw (collecting 2 ["r1", "r2"])
          (restRequest (collecting 2 ["r1", "r2"]) 2 0) "api/pool?name=p" "admin"
          sampleMachine).2
        { Count := 2, Results := some "results" } rfl (by decide) rfl rfl).2.1 (by decide)
      unfold GetObjectByName
      rw [show locTenant sampleMachine [] = "admin" from rfl, h]
      decide,
    by decide⟩

set_option maxRecDepth 16384 in
/-- C12 fails as stated, by the number of results the answer holds.  An
answer that holds two results next to the count 1 makes
`GetObjectByName("pool", "p", sink)` fill the sink from the first result and
return no error, where the claim has the "more than one object" error; an
answer that holds one result next to the count 0 makes it return the "no
object" error and leave the sink, which holds the string "old", as it was,
where the claim has the sink filled. -/
theorem GetObject_results_not_counted_counterexample :
    ((GetObjectByName (collecting 1 ["r1", "r2"]) (restRequest (collecting 1 ["r1", "r2"]) 2 0)
        "pool" "p" (some (.str "old")) [] sampleMachine).1.map fun r =>
      match r with
      | .returned (e, sink) => (e, sink.map marshal)
      | .panicked _ => (none, none)) =
      some (none, some (some "\x7b\"name\":\"p\"\x7d")) ∧
    ((GetObjectByName (collecting 0 ["r1"]) (restRequest (collecting 0 ["r1"]) 2 0)
        "pool" "p" (some (.str "old")) [] sampleMachine).1.map fun r =>
      match r with
      | .returned (e, sink) => (e, sink.map marshal)
      | .panicked _ => (none, none)) =
      some (some (.other "No object of type pool with name pis found"),
        some (some "\"old\"")) := by
  refine ⟨by decide, by decide⟩

/-! ## The invariants of the multipart channels -/

theorem step_closeOnReturn {P : Request → Prop} {n : Nat} {α : Type} (m : Machine)
    (r : α × Machine) (h : Step P n m r.2) : Step P n m (closeOnReturn r).2 := by
  have h2 := step_file P r.2 r.2.file.close
  have := h.trans h2
  simpa [closeOnReturn] using this

theorem restRequest_any_step (w : World) (fuel : Nat) :
    ∀ v u p t m, Step (fun _ => True) 4 m (restRequest w fuel 0 v u p t m).2 :=
  fun v u p t m => (restRequest_step w fuel 0 v u p t m).imp (fun _ _ => trivial)

/-- Every run of the upload leaves depth, default tenant and URL base
unchanged and dispatches its own request at most `4 - retry` times, each time
with the verb and URL of the call and the form field `uri` made from the
first piece of the uri. -/
theorem upload_step (w : World) (fuel : Nat) :
    ∀ (retry : Int) (verb uri : String) (m : Machine),
      Step (UploadOf verb (m.sess.urlPrefix ++ "/api/fileservice/" ++ uri) uri)
        (4 - retry).toNat m (restMultipartUploadRequest w fuel retry verb uri m).2 := by
  induction fuel with
  | zero =>
    intro retry verb uri m
    exact (Step.refl _ 0 m).mono (Nat.zero_le _)
  | succ fuel ih =>
    intro retry verb uri m
    have hrest := restRequest_any_step w fuel
    unfold restMultipartUploadRequest
    dsimp only
    have hpre := step_checkRetryForSleep
      (UploadOf verb (m.sess.urlPrefix ++ "/api/fileservice/" ++ uri) uri)
      retry verb (m.sess.urlPrefix ++ "/api/fileservice/" ++ uri) m
    split
    · rename_i e m1 heq
      rw [heq] at hpre
      exact hpre.mono (Nat.zero_le _)
    · rename_i m1 heq
      have hle : retry ≤ 3 := checkRetryForSleep_none retry verb _ m (by rw [heq])
      rw [heq] at hpre
      dsimp only at hpre
      apply step_closeOnReturn
      split
      · exact hpre.mono (Nat.zero_le _)
      · rename_i content f1 hread
        have hfile := step_file
          (UploadOf verb (m.sess.urlPrefix ++ "/api/fileservice/" ++ uri) uri) m1 f1
        have h0 := hpre.trans hfile
        split
        · exact h0.mono (Nat.zero_le _)
        · rename_i req errorResult hreq
          have hb := newAviRequest_built w _ verb _ _ req errorResult hreq
          have hP : UploadOf verb (m.sess.urlPrefix ++ "/api/fileservice/" ++ uri) uri
              (req.setHeader "Content-Type" ("multipart/form-data; boundary=" ++ w.boundary)) :=
            ⟨hb.2.2.1, hb.2.2.2.1, f1.name, content, by
              simp only [Request.setHeader]
              exact hb.2.2.2.2.1⟩
          have hdo := step_dispatch _ w { m1 with file := f1 } _ hP
          have h1 := h0.trans hdo
          split
          · rename_i e m2 hdoeq
            rw [hdoeq] at h1
            exact h1.mono (by omega)
          · rename_i resp m2 hdoeq
            rw [hdoeq] at h1
            dsimp only at h1
            have hcol := step_collect
              (UploadOf verb (m.sess.urlPrefix ++ "/api/fileservice/" ++ uri) uri) m2 resp
            have hdec := step_retryDecision
              (UploadOf verb (m.sess.urlPrefix ++ "/api/fileservice/" ++ uri) uri) w
              (restRequest w fuel 0) 4 hrest resp uri
              { m2 with sess := collectCookiesFromResp m2.sess resp }
            have h2 := (h1.trans hcol).trans hdec
            split
            · rename_i m4 hd4
              rw [hd4] at h2
              exact h2.mono (by omega)
            · rename_i err b m4 hd4
              rw [hd4] at h2
              exact h2.mono (by omega)
            · rename_i m4 hd4
              rw [hd4] at h2
              dsimp only at h2
              have hchk := step_CheckControllerStatus
                (UploadOf verb (m.sess.urlPrefix ++ "/api/fileservice/" ++ uri) uri) w m4
              have h3 := h2.trans hchk
              split
              · rename_i err m5 hc5
                rw [hc5] at h3
                exact h3.mono (by omega)
              · rename_i x m5 hc5
                rw [hc5] at h3
                dsimp only at h3
                have hrec := ih (retry + 1) verb uri m5
                rw [h3.base_eq] at hrec
                exact (h3.trans hrec).mono (by omega)
            · rename_i m4 hd4
              rw [hd4] at h2
              split
              · exact h2.mono (by omega)
              · exact h2.mono (by omega)

theorem stringsSplit_head (cs : List Char) : (stringsSplit cs).head? = some (splitHead cs) := by
  induction cs with
  | nil => rfl
  | cons c cs ih =>
    unfold stringsSplit splitHead
    by_cases hc : c = '?'
    · simp [hc]
    · simp only [hc, if_false]
      cases hs : stringsSplit cs with
      | nil => rw [hs] at ih; simp at ih
      | cons piece pieces =>
        rw [hs] at ih
        simp only [List.head?_cons, Option.some.injEq] at ih
        simp [ih]

theorem splitHead_takeWhile (cs : List Char) :
    splitHead cs = cs.takeWhile fun c => c ≠ '?' := by
  induction cs with
  | nil => rfl
  | cons c cs ih =>
    unfold splitHead
    by_cases hc : c = '?'
    · simp [hc]
    · simp [hc, ih]

set_option maxRecDepth 16384 in
/-- C18: for every upload uri, `strings.Split(uri, "?")` has a first element,
the empty uri included, and that element is the part of the uri that
precedes its first question mark (the whole uri when it has none); every
request the upload dispatches for the call has a form field `uri` with the
value "controller://" followed by that part.  For "uploads?x=1" the value is
"controller://uploads", as the upload of the file "foo.bin" shows. -/
theorem upload_uri_field (w : World) (fuel : Nat) (retry : Int) (verb uri : String)
    (m : Machine) :
    (stringsSplit uri.data).head? = some (uri.data.takeWhile fun c => c ≠ '?') ∧
    (∀ r ∈ ownDispatches m (restMultipartUploadRequest w fuel retry verb uri m).2,
      ∃ name content, r.body = .multipart name content
        ("controller://" ++ String.mk (uri.data.takeWhile fun c => c ≠ '?'))) ∧
    (stringsSplit "".data).head? = some [] ∧
    "controller://" ++ String.mk ("uploads?x=1".data.takeWhile fun c => c ≠ '?') =
      "controller://uploads" ∧
    ((ownDispatches
        { sess := sampleSession, file := { name := "foo.bin", unread := "data" } }
        (PostMultipartRequest (always 201) 3 "POST" "uploads?x=1"
          { sess := sampleSession, file := { name := "foo.bin", unread := "data" } }).2).map
      fun r => r.body) = [.multipart "foo.bin" "data" "controller://uploads"] := by
  refine ⟨?_, ?_, by decide, by decide, by decide⟩
  · rw [stringsSplit_head, splitHead_takeWhile]
  · intro r hr
    have h := (upload_step w fuel retry verb uri m).own.1 r hr
    obtain ⟨name, content, hbody⟩ := h.2.2
    rw [splitHead_takeWhile] at hbody
    exact ⟨name, content, hbody⟩

/-! ## What a call does to the session -/

theorem CheckControllerStatus_sess (w : World) (m : Machine) :
    (CheckControllerStatus w m).2.sess = m.sess := by
  unfold CheckControllerStatus
  rw [probeRounds_sess]
  rfl

theorem initiateSession_sess_rel (R : AviSession → AviSession → Prop)
    (htrans : ∀ a b c, R a b → R b c → R a c)
    (hrefresh : ∀ m, R m.sess (refreshToken m).sess) (w : World) (rest : RestFn)
    (hrest : ∀ v u p t m, R m.sess (rest v u p t m).2.sess) (m : Machine) :
    R m.sess (initiateSession w rest m).2.sess := by
  have h1 := hrefresh { m.log .reauth with depth := m.depth + 1 }
  have h1' : R m.sess (refreshToken { m.log .reauth with depth := m.depth + 1 }).sess := h1
  have hget : R (refreshToken { m.log .reauth with depth := m.depth + 1 }).sess
      (Get w rest "" none [] (refreshToken { m.log .reauth with depth := m.depth + 1 })).2.sess := by
    unfold Get
    rw [restRequestInterfaceResponse_machine]
    exact hrest _ _ _ _ _
  have h2 := htrans _ _ _ h1' hget
  unfold initiateSession
  dsimp only
  split
  · rename_i m2 heq
    rw [heq] at h2
    exact h2
  · rename_i r m2 heq
    rw [heq] at h2
    have hpost : R m2.sess (Post w rest "login" (loginCred m2.sess) none [] m2).2.sess := by
      unfold Post
      rw [restRequestInterfaceResponse_machine]
      exact hrest _ _ _ _ _
    have h3 := htrans _ _ _ h2 hpost
    split
    · rename_i m3 heq3
      rw [heq3] at h3
      exact h3
    · rename_i e s m3 heq3
      rw [heq3] at h3
      exact h3
    · rename_i s m3 heq3
      rw [heq3] at h3
      exact h3

theorem retryDecision_sess_rel (R : AviSession → AviSession → Prop) (hrefl : ∀ s, R s s)
    (htrans : ∀ a b c, R a b → R b c → R a c)
    (hrefresh : ∀ m, R m.sess (refreshToken m).sess) (w : World) (rest : RestFn)
    (hrest : ∀ v u p t m, R m.sess (rest v u p t m).2.sess) (resp : Response) (uri : String)
    (m : Machine) : R m.sess (retryDecision w rest resp uri m).2.sess := by
  have hi := initiateSession_sess_rel R htrans hrefresh w rest hrest m
  unfold retryDecision
  split
  · split
    · rename_i h; rw [h] at hi; exact hi
    · rename_i h; rw [h] at hi; exact hi
    · rename_i h; rw [h] at hi; exact hi
  · split
    · exact hrefl _
    · exact hrefl _

/-- A relation on sessions that is reflexive and transitive and that cookie
collection and the token refresh respect holds between the session before
and the session after every run of `restRequest`. -/
theorem restRequest_sess_rel (R : AviSession → AviSession → Prop) (hrefl : ∀ s, R s s)
    (htrans : ∀ a b c, R a b → R b c → R a c)
    (hcollect : ∀ s resp, R s (collectCookiesFromResp s resp))
    (hrefresh : ∀ m, R m.sess (refreshToken m).sess) (w : World) (fuel : Nat) :
    ∀ (retry : Int) (verb uri : String) (payload : GoValue) (tenant : String) (m : Machine),
      R m.sess (restRequest w fuel retry verb uri payload tenant m).2.sess := by
  induction fuel with
  | zero =>
    intro retry verb uri payload tenant m
    exact hrefl _
  | succ fuel ih =>
    intro retry verb uri payload tenant m
    have hsame := (checkRetryForSleep_same retry verb (m.sess.urlPrefix ++ uri) m).2.1
    unfold restRequest
    dsimp only
    split
    · rename_i e m1 heq
      rw [heq] at hsame
      dsimp only at hsame
      rw [hsame]
      exact hrefl _
    · rename_i m1 heq
      rw [heq] at hsame
      dsimp only at hsame
      split
      · rw [hsame]; exact hrefl _
      · split
        · rw [hsame]; exact hrefl _
        · rename_i req errorResult hreq
          split
          · rename_i e m2 hdoeq
            have : m2.sess = m1.sess := by
              have h : (clientDo w (.dispatch ((req.setHeader "Accept"
                "application/json").setHeader "X-Avi-Tenant"
                (if tenant = "" then m.sess.tenant else tenant))) m1).2.sess = m1.sess := rfl
              rw [hdoeq] at h
              exact h
            rw [this, hsame]
            exact hrefl _
          · rename_i resp m2 hdoeq
            have hm2 : m2.sess = m.sess := by
              have h : (clientDo w (.dispatch ((req.setHeader "Accept"
                "application/json").setHeader "X-Avi-Tenant"
                (if tenant = "" then m.sess.tenant else tenant))) m1).2.sess = m1.sess := rfl
              rw [hdoeq] at h
              rw [← hsame]
              exact h
            have h3 : R m.sess (collectCookiesFromResp m2.sess resp) := by
              rw [hm2]; exact hcollect _ _
            have hdec := retryDecision_sess_rel R hrefl htrans hrefresh w
              (restRequest w fuel 0) (ih 0) resp uri
              { m2 with sess := collectCookiesFromResp m2.sess resp }
            have h4 := htrans _ _ _ h3 hdec
            split
            · rename_i m4 hd4; rw [hd4] at h4; exact h4
            · rename_i err b m4 hd4; rw [hd4] at h4; exact h4
            · rename_i m4 hd4
              rw [hd4] at h4
              dsimp only at h4
              have hchk := CheckControllerStatus_sess w m4
              split
              · rename_i err m5 hc5
                rw [hc5] at hchk
                dsimp only at hchk
                rw [hchk]
                exact h4
              · rename_i x m5 hc5
                rw [hc5] at hchk
                dsimp only at hchk
                have hrec := ih (retry + 1) verb uri payload
                  (if tenant = "" then m.sess.tenant else tenant) m5
                rw [hchk] at hrec
                exact htrans _ _ _ h4 hrec
            · rename_i m4 hd4; rw [hd4] at h4; exact h4

/-! ## Credentials and the login payload -/

theorem credsKept_refl (s : AviSession) : CredsKept s s :=
  ⟨rfl, rfl, rfl, fun _ => rfl, fun _ _ => Or.inl rfl⟩

theorem credsKept_trans (a b c : AviSession) (h1 : CredsKept a b) (h2 : CredsKept b c) :
    CredsKept a c := by
  obtain ⟨u1, p1, c1, n1, s1⟩ := h1
  obtain ⟨u2, p2, c2, n2, s2⟩ := h2
  refine ⟨u2.trans u1, p2.trans p1, c2.trans c1, ?_, ?_⟩
  · intro hn
    rw [n2 (c1.trans hn), n1 hn]
  · intro f hf
    rcases s2 f (c1.trans hf) with h | ⟨k, hk⟩
    · rcases s1 f hf with h' | ⟨k, hk⟩
      · exact Or.inl (h.trans h')
      · exact Or.inr ⟨k, h.trans hk⟩
    · exact Or.inr ⟨k, hk⟩

theorem collectCookie_creds (s : AviSession) (c : Cookie) :
    (collectCookie s c).username = s.username ∧ (collectCookie s c).password = s.password ∧
    (collectCookie s c).refreshAuthToken = s.refreshAuthToken ∧
    (collectCookie s c).authToken = s.authToken := by
  unfold collectCookie
  by_cases h1 : c.name = "csrftoken" <;> by_cases h2 : c.name = "sessionid" <;>
    by_cases h3 : c.name = "avi-sessionid" <;> simp [h1, h2, h3]

theorem collectCookiesFromResp_creds (s : AviSession) (resp : Response) :
    CredsKept s (collectCookiesFromResp s resp) := by
  unfold collectCookiesFromResp
  generalize resp.cookies = cs
  induction cs generalizing s with
  | nil => exact credsKept_refl s
  | cons c cs ih =>
    simp only [List.foldl_cons]
    have hc := collectCookie_creds s c
    have h1 : CredsKept s (collectCookie s c) :=
      ⟨hc.1, hc.2.1, hc.2.2.1, fun _ => hc.2.2.2, fun _ _ => Or.inl hc.2.2.2⟩
    exact credsKept_trans _ _ _ h1 (ih _)

theorem refreshToken_creds (m : Machine) : CredsKept m.sess (refreshToken m).sess := by
  unfold refreshToken
  split
  · split
    · rename_i f hf
      refine ⟨rfl, rfl, rfl, ?_, ?_⟩
      · intro hn
        rw [hf] at hn
        simp at hn
      · intro g hg
        rw [hf] at hg
        have : f = g := Option.some.inj hg
        subst this
        exact Or.inr ⟨m.refreshes, rfl⟩
    · exact credsKept_refl _
  · exact credsKept_refl _

/-- After the start of `initiateSession`, a session with a refresh callback
holds the value the callback has just returned. -/
theorem refreshToken_token (m : Machine) (f : Nat → String)
    (hf : m.sess.refreshAuthToken = some f) :
    (refreshToken m).sess.authToken = f m.refreshes := by
  unfold refreshToken
  have hauth : m.sess.isTokenAuth = true := by
    simp [AviSession.isTokenAuth, hf]
  rw [if_pos hauth]
  split
  · rename_i g hg
    rw [hf] at hg
    have : f = g := Option.some.inj hg
    subst this
    rfl
  · rename_i hn
    rw [hf] at hn
    simp at hn

theorem CredsKept.isTokenAuth {s s' : AviSession} (h : CredsKept s s') :
    s'.isTokenAuth = s.isTokenAuth := by
  obtain ⟨_, _, hc, hn, _⟩ := h
  unfold AviSession.isTokenAuth
  rw [hc]
  cases hcb : s.refreshAuthToken with
  | none => rw [hn hcb]
  | some f => simp

theorem restRequest_creds (w : World) (fuel : Nat) (retry : Int) (verb uri : String)
    (payload : GoValue) (tenant : String) (m : Machine) :
    CredsKept m.sess (restRequest w fuel retry verb uri payload tenant m).2.sess :=
  restRequest_sess_rel CredsKept credsKept_refl credsKept_trans collectCookiesFromResp_creds
    refreshToken_creds w fuel retry verb uri payload tenant m

/-! ## The token state across a call -/

theorem tokenKept_refl (m : Machine) : TokenKept m m := ⟨rfl, rfl, rfl⟩

theorem tokenKept_trans {a b c : Machine} (h1 : TokenKept a b) (h2 : TokenKept b c) :
    TokenKept a c :=
  ⟨h2.1.trans h1.1, h2.2.1.trans h1.2.1, h2.2.2.trans h1.2.2⟩

theorem tokenAdvanced_refl (m : Machine) : TokenAdvanced m m := Or.inl (tokenKept_refl m)

theorem tokenAdvanced_trans {a b c : Machine} (h1 : TokenAdvanced a b)
    (h2 : TokenAdvanced b c) : TokenAdvanced a c := by
  rcases h1 with k1 | ⟨c1, l1, t1⟩
  · rcases h2 with k2 | ⟨c2, l2, t2⟩
    · exact Or.inl (tokenKept_trans k1 k2)
    · refine Or.inr ⟨c2.trans k1.2.2, by rw [← k1.1]; exact l2, ?_⟩
      intro f hf
      exact t2 f (k1.2.2.trans hf)
  · rcases h2 with k2 | ⟨c2, l2, t2⟩
    · refine Or.inr ⟨k2.2.2.trans c1, by rw [k2.1]; exact l1, ?_⟩
      intro f hf
      rw [k2.2.1, k2.1]
      exact t1 f hf
    · refine Or.inr ⟨c2.trans c1, by omega, ?_⟩
      intro f hf
      exact t2 f (c1.trans hf)

theorem checkRetryForSleep_token (retry : Int) (verb url : String) (m : Machine) :
    TokenKept m (checkRetryForSleep retry verb url m).2 := by
  unfold checkRetryForSleep
  split
  · exact tokenKept_refl m
  split
  · exact ⟨rfl, rfl, rfl⟩
  split
  · exact ⟨rfl, rfl, rfl⟩
  split
  · exact ⟨rfl, rfl, rfl⟩
  split
  · exact tokenKept_refl m
  · exact tokenKept_refl m

theorem collectCookiesFromResp_token (s : AviSession) (resp : Response) :
    (collectCookiesFromResp s resp).authToken = s.authToken ∧
    (collectCookiesFromResp s resp).refreshAuthToken = s.refreshAuthToken := by
  unfold collectCookiesFromResp
  generalize resp.cookies = cs
  induction cs generalizing s with
  | nil => exact ⟨rfl, rfl⟩
  | cons c cs ih =>
    simp only [List.foldl_cons]
    have hc := collectCookie_creds s c
    exact ⟨(ih _).1.trans hc.2.2.2, (ih _).2.trans hc.2.2.1⟩

theorem probeRounds_refreshes (w : World) (url : String) (n round : Nat) (m : Machine) :
    (probeRounds w url n round m).2.refreshes = m.refreshes := by
  induction n generalizing round m with
  | zero => rfl
  | succ n ih =>
    unfold probeRounds
    split
    · rfl
    · split
      · split
        · rename_i heq _
          have : (clientDo w (.probe url) m).2.refreshes = m.refreshes := rfl
          rw [heq] at this
          exact this
        · rename_i heq _
          have : (clientDo w (.probe url) m).2.refreshes = m.refreshes := rfl
          rw [heq] at this
          rw [ih]
          exact this
      · rename_i heq
        have : (clientDo w (.probe url) m).2.refreshes = m.refreshes := rfl
        rw [heq] at this
        rw [ih]
        exact this

theorem CheckControllerStatus_token (w : World) (m : Machine) :
    TokenKept m (CheckControllerStatus w m).2 := by
  have hs := CheckControllerStatus_sess w m
  refine ⟨?_, by rw [hs], by rw [hs]⟩
  unfold CheckControllerStatus
  rw [probeRounds_refreshes]
  rfl

theorem refreshToken_advanced (m : Machine) : TokenAdvanced m (refreshToken m) := by
  unfold refreshToken
  split
  · split
    · rename_i f hf
      refine Or.inr ⟨rfl, Nat.lt_succ_self _, ?_⟩
      intro g hg
      rw [hf] at hg
      have : f = g := Option.some.inj hg
      subst this
      rfl
    · exact tokenAdvanced_refl m
  · exact tokenAdvanced_refl m
theorem initiateSession_token (w : World) (rest : RestFn)
    (hrest : ∀ v u p t m, TokenAdvanced m (rest v u p t m).2) (m : Machine) :
    TokenAdvanced m (initiateSession w rest m).2 := by
  have h0 : TokenAdvanced m { m.log .reauth with depth := m.depth + 1 } :=
    Or.inl ⟨rfl, rfl, rfl⟩
  have h1 := tokenAdvanced_trans h0
    (refreshToken_advanced { m.log .reauth with depth := m.depth + 1 })
  have hget : TokenAdvanced (refreshToken { m.log .reauth with depth := m.depth + 1 })
      (Get w rest "" none [] (refreshToken { m.log .reauth with depth := m.depth + 1 })).2 := by
    unfold Get
    rw [restRequestInterfaceResponse_machine]
    exact hrest _ _ _ _ _
  have h2 := tokenAdvanced_trans h1 hget
  unfold initiateSession
  dsimp only
  split
  · rename_i m2 heq
    rw [heq] at h2
    exact tokenAdvanced_trans h2 (Or.inl ⟨rfl, rfl, rfl⟩)
  · rename_i r m2 heq
    rw [heq] at h2
    have hpost : TokenAdvanced m2
        (Post w rest "login" (loginCred m2.sess) none [] m2).2 := by
      unfold Post
      rw [restRequestInterfaceResponse_machine]
      exact hrest _ _ _ _ _
    have h3 := tokenAdvanced_trans h2 hpost
    split
    · rename_i m3 heq3
      rw [heq3] at h3
      exact tokenAdvanced_trans h3 (Or.inl ⟨rfl, rfl, rfl⟩)
    · rename_i e s m3 heq3
      rw [heq3] at h3
      exact tokenAdvanced_trans h3 (Or.inl ⟨rfl, rfl, rfl⟩)
    · rename_i s m3 heq3
      rw [heq3] at h3
      exact tokenAdvanced_trans h3 (Or.inl ⟨rfl, rfl, rfl⟩)

theorem retryDecision_token (w : World) (rest : RestFn)
    (hrest : ∀ v u p t m, TokenAdvanced m (rest v u p t m).2) (resp : Response) (uri : String)
    (m : Machine) :
    TokenAdvanced m (retryDecision w rest resp uri m).2 ∧
    (uri = "login" → TokenKept m (retryDecision w rest resp uri m).2) := by
  have hi := initiateSession_token w rest hrest m
  unfold retryDecision
  split
  · rename_i hc
    refine ⟨?_, fun hu => absurd hu hc.2.2⟩
    split
    · rename_i h; rw [h] at hi; exact hi
    · rename_i h; rw [h] at hi; exact hi
    · rename_i h; rw [h] at hi; exact hi
  · split
    · exact ⟨tokenAdvanced_refl _, fun _ => tokenKept_refl _⟩
    · exact ⟨tokenAdvanced_refl _, fun _ => tokenKept_refl _⟩

/-- What `restRequest` does to the token state: it leaves it as it was, or a
re-login has called the refresh callback again and the session holds the
most recent value; a call on "login" never does the latter. -/
theorem restRequest_token (w : World) (fuel : Nat) :
    ∀ (retry : Int) (verb uri : String) (payload : GoValue) (tenant : String) (m : Machine),
      TokenAdvanced m (restRequest w fuel retry verb uri payload tenant m).2 ∧
      (uri = "login" → TokenKept m (restRequest w fuel retry verb uri payload tenant m).2) := by
  induction fuel with
  | zero =>
    intro retry verb uri payload tenant m
    exact ⟨tokenAdvanced_refl _, fun _ => tokenKept_refl _⟩
  | succ fuel ih =>
    intro retry verb uri payload tenant m
    have hpre := checkRetryForSleep_token retry verb (m.sess.urlPrefix ++ uri) m
    unfold restRequest
    dsimp only
    split
    · rename_i e m1 heq
      rw [heq] at hpre
      exact ⟨Or.inl hpre, fun _ => hpre⟩
    · rename_i m1 heq
      rw [heq] at hpre
      dsimp only at hpre
      split
      · exact ⟨Or.inl hpre, fun _ => hpre⟩
      · split
        · exact ⟨Or.inl hpre, fun _ => hpre⟩
        · rename_i req errorResult hreq
          split
          · rename_i e m2 hdoeq
            have h2 : TokenKept m1 (clientDo w (.dispatch ((req.setHeader "Accept"
                "application/json").setHeader "X-Avi-Tenant"
                (if tenant = "" then m.sess.tenant else tenant))) m1).2 := ⟨rfl, rfl, rfl⟩
            rw [hdoeq] at h2
            have h := tokenKept_trans hpre h2
            exact ⟨Or.inl h, fun _ => h⟩
          · rename_i resp m2 hdoeq
            have h2 : TokenKept m1 (clientDo w (.dispatch ((req.setHeader "Accept"
                "application/json").setHeader "X-Avi-Tenant"
                (if tenant = "" then m.sess.tenant else tenant))) m1).2 := ⟨rfl, rfl, rfl⟩
            rw [hdoeq] at h2
            have hcol := collectCookiesFromResp_token m2.sess resp
            have h3 : TokenKept m { m2 with sess := collectCookiesFromResp m2.sess resp } :=
              tokenKept_trans (tokenKept_trans hpre h2) ⟨rfl, hcol.1, hcol.2⟩
            have hdec := retryDecision_token w (restRequest w fuel 0) (fun v u p t m =>
              (ih 0 v u p t m).1) resp uri
              { m2 with sess := collectCookiesFromResp m2.sess resp }
            have h4 : TokenAdvanced m (retryDecision w (restRequest w fuel 0) resp uri
                { m2 with sess := collectCookiesFromResp m2.sess resp }).2 :=
              tokenAdvanced_trans (Or.inl h3) hdec.1
            have h4k : uri = "login" → TokenKept m (retryDecision w (restRequest w fuel 0) resp
                uri { m2 with sess := collectCookiesFromResp m2.sess resp }).2 :=
              fun hu => tokenKept_trans h3 (hdec.2 hu)
            split
            · rename_i m4 hd4; rw [hd4] at h4 h4k; exact ⟨h4, h4k⟩
            · rename_i err b m4 hd4; rw [hd4] at h4 h4k; exact ⟨h4, h4k⟩
            · rename_i m4 hd4
              rw [hd4] at h4 h4k
              dsimp only at h4 h4k
              have hchk := CheckControllerStatus_token w m4
              split
              · rename_i err m5 hc5
                rw [hc5] at hchk
                dsimp only at hchk
                exact ⟨tokenAdvanced_trans h4 (Or.inl hchk),
                  fun hu => tokenKept_trans (h4k hu) hchk⟩
              · rename_i x m5 hc5
                rw [hc5] at hchk
                dsimp only at hchk
                have hrec := ih (retry + 1) verb uri payload
                  (if tenant = "" then m.sess.tenant else tenant) m5
                exact ⟨tokenAdvanced_trans (tokenAdvanced_trans h4 (Or.inl hchk)) hrec.1,
                  fun hu => tokenKept_trans (tokenKept_trans (h4k hu) hchk) (hrec.2 hu)⟩
            · rename_i m4 hd4; rw [hd4] at h4 h4k; exact ⟨h4, h4k⟩

/-- The dispatches `initiateSession` makes at its own level: those of its
GET on the empty uri, and those of its POST on "login", whose payload is the
login payload of the session as it stands after the GET, in the machine
`m2`; the token state of `m2` is that of the machine at the end of the
re-login. -/
theorem initiateSession_dispatches (w : World) (fuel : Nat) (m : Machine) :
    ∀ r ∈ dispatchesAt (m.depth + 1)
        (newEntries m (initiateSession w (restRequest w fuel 0) m).2),
      r.verb = "GET" ∨
      (r.verb = "POST" ∧ r.url = m.sess.urlPrefix ++ "login" ∧
        ∃ m2, CredsKept (refreshToken { m.log .reauth with depth := m.depth + 1 }).sess
            m2.sess ∧
          marshalPayload (loginCred m2.sess) = some r.body ∧
          TokenAdvanced (refreshToken { m.log .reauth with depth := m.depth + 1 }) m2 ∧
          TokenKept m2 (initiateSession w (restRequest w fuel 0) m).2) := by
  intro r
  unfold initiateSession
  dsimp only
  have hr := refreshToken_same
    { sess := (m.log Event.reauth).sess, clock := (m.log Event.reauth).clock,
      refreshes := (m.log Event.reauth).refreshes, file := (m.log Event.reauth).file,
      depth := m.depth + 1, trace := (m.log Event.reauth).trace }
  obtain ⟨hd1, ht1, _, _, hb1⟩ := hr
  generalize refreshToken
    { sess := (m.log Event.reauth).sess, clock := (m.log Event.reauth).clock,
      refreshes := (m.log Event.reauth).refreshes, file := (m.log Event.reauth).file,
      depth := m.depth + 1, trace := (m.log Event.reauth).trace } = m1 at hd1 ht1 hb1 ⊢
  dsimp only at hd1 ht1 hb1
  have ht1 : m1.trace = m.trace ++ [(m.depth, .reauth)] := by rw [ht1]; rfl
  have hget : Step (RequestOf "GET" (m1.sess.urlPrefix ++ "")
      (if locTenant m1 [] = "" then m1.sess.tenant else locTenant m1 []) .null) 4 m1
      (Get w (restRequest w fuel 0) "" none [] m1).2 := by
    unfold Get
    rw [restRequestInterfaceResponse_machine]
    exact restRequest_step w fuel 0 "GET" "" .null _ m1
  have hgc : CredsKept m1.sess (Get w (restRequest w fuel 0) "" none [] m1).2.sess := by
    unfold Get
    rw [restRequestInterfaceResponse_machine]
    exact restRequest_creds w fuel 0 "GET" "" .null _ m1
  have hgt : TokenAdvanced m1 (Get w (restRequest w fuel 0) "" none [] m1).2 := by
    unfold Get
    rw [restRequestInterfaceResponse_machine]
    exact (restRequest_token w fuel 0 "GET" "" .null _ m1).1
  -- the dispatches at depth `m.depth + 1` of a trace that extends the one of `m1`
  have hsplit : ∀ (mx : Machine) (new : List (Nat × Event)), mx.trace = m1.trace ++ new →
      dispatchesAt (m.depth + 1) (newEntries m { mx with depth := m.depth }) =
        dispatchesAt (m.depth + 1) new := by
    intro mx new hx
    have : newEntries m { mx with depth := m.depth } = [(m.depth, .reauth)] ++ new := by
      apply newEntries_of_append
      show mx.trace = _
      rw [hx, ht1, List.append_assoc]
    rw [this, dispatchesAt_append]
    have : dispatchesAt (m.depth + 1) [(m.depth, Event.reauth)] = [] :=
      dispatchesAt_other _ _ _ (by intro r; simp)
    rw [this]
    rfl
  split
  · rename_i m2 heq
    rw [heq] at hget
    obtain ⟨_, _, _, new, e1, _, p1, _⟩ := hget
    rw [hsplit m2 new e1]
    intro hr
    rw [hd1] at p1
    exact Or.inl (p1 r hr).1
  · rename_i res m2 heq
    rw [heq] at hget hgc hgt
    dsimp only at hget hgc hgt
    have hpt : TokenKept m2
        (Post w (restRequest w fuel 0) "login" (loginCred m2.sess) none [] m2).2 := by
      unfold Post
      rw [restRequestInterfaceResponse_machine]
      exact (restRequest_token w fuel 0 "POST" "login" _ _ m2).2 rfl
    have hpost : Step (RequestOf "POST" (m2.sess.urlPrefix ++ "login")
        (if locTenant m2 [] = "" then m2.sess.tenant else locTenant m2 [])
        (loginCred m2.sess)) 4 m2
        (Post w (restRequest w fuel 0) "login" (loginCred m2.sess) none [] m2).2 := by
      unfold Post
      rw [restRequestInterfaceResponse_machine]
      exact restRequest_step w fuel 0 "POST" "login" _ _ m2
    have hbase2 : m2.sess.urlPrefix = m.sess.urlPrefix := hget.base_eq.trans hb1
    have hdepth2 : m2.depth = m.depth + 1 := hget.depth_eq.trans hd1
    obtain ⟨_, _, _, newG, eG, _, pG, _⟩ := hget
    have hfinal : ∀ (m3 : Machine),
        m3 = (Post w (restRequest w fuel 0) "login" (loginCred m2.sess) none [] m2).2 →
        r ∈ dispatchesAt (m.depth + 1) (newEntries m { m3 with depth := m.depth }) →
        r.verb = "GET" ∨
        (r.verb = "POST" ∧ r.url = m.sess.urlPrefix ++ "login" ∧
          ∃ mx, CredsKept m1.sess mx.sess ∧ marshalPayload (loginCred mx.sess) = some r.body ∧
            TokenAdvanced m1 mx ∧ TokenKept mx { m3 with depth := m.depth }) := by
      intro m3 hm3 hr
      rw [← hm3] at hpost hpt
      obtain ⟨_, _, _, newP, eP, _, pP, _⟩ := hpost
      rw [hsplit m3 (newG ++ newP) (by rw [eP, eG, List.append_assoc]),
        dispatchesAt_append] at hr
      rcases List.mem_append.1 hr with h | h
      · rw [hd1] at pG
        exact Or.inl (pG r h).1
      · rw [hdepth2] at pP
        have hp := pP r h
        refine Or.inr ⟨hp.1, ?_, m2, hgc, hp.2.2.2, hgt,
          tokenKept_trans hpt ⟨rfl, rfl, rfl⟩⟩
        rw [hp.2.1, hbase2]
    split
    · rename_i m3 heq3
      exact hfinal m3 (by rw [heq3])
    · rename_i e s m3 heq3
      exact hfinal m3 (by rw [heq3])
    · rename_i s m3 heq3
      exact hfinal m3 (by rw [heq3])

/-- C19: every POST that `initiateSession` dispatches at its own level goes
to "login" with a payload of exactly two keys.  In token mode (the auth
token is non-empty or a refresh callback is configured) they are `username`
and `token`.  Without a callback the token is the session's auth token.
With a callback `f` it is the value of the most recent call of the callback:
`f k`, where `k + 1` calls have been made by the end of the re-login and `k`
is at least the number of calls made before it, so that the token is the
value the callback returned at the start of this re-login unless the
re-login's GET went through a re-login of its own, which refreshed the token
again.  Outside token mode the keys are `username` and `password`, with the
session's password. -/
theorem login_payload (w : World) (fuel : Nat) (m : Machine) (r : Request)
    (hr : r ∈ dispatchesAt (m.depth + 1)
      (newEntries m (initiateSession w (restRequest w fuel 0) m).2))
    (hpost : r.verb = "POST") :
    r.url = m.sess.urlPrefix ++ "login" ∧
    (m.sess.isTokenAuth = true →
      ∃ t, marshalPayload (.map [("username", .str m.sess.username), ("token", .str t)]) =
          some r.body ∧
        (m.sess.refreshAuthToken = none → t = m.sess.authToken) ∧
        (∀ f, m.sess.refreshAuthToken = some f →
          ∃ k, m.refreshes ≤ k ∧
            (initiateSession w (restRequest w fuel 0) m).2.refreshes = k + 1 ∧ t = f k)) ∧
    (m.sess.isTokenAuth = false →
      marshalPayload (.map [("username", .str m.sess.username),
        ("password", .str m.sess.password)]) = some r.body) := by
  rcases initiateSession_dispatches w fuel m r hr with
    hget | ⟨_, hurl, m2, hc, hbody, hadv, hkept⟩
  · rw [hpost] at hget
    exact absurd hget (by decide)
  · have h01 : CredsKept m.sess
        (refreshToken { m.log .reauth with depth := m.depth + 1 }).sess :=
      refreshToken_creds { m.log .reauth with depth := m.depth + 1 }
    have h02 := credsKept_trans _ _ _ h01 hc
    have hauth := h02.isTokenAuth
    refine ⟨hurl, ?_, ?_⟩
    · intro htok
      refine ⟨m2.sess.authToken, ?_, h02.2.2.2.1, ?_⟩
      · rw [← hbody]
        unfold loginCred
        rw [hauth, htok, h02.1]
        rfl
      · intro f hf
        have hf1 : (refreshToken { m.log .reauth with depth := m.depth + 1 }).sess.refreshAuthToken
            = some f := h01.2.2.1.trans hf
        have htoken := refreshToken_token { m.log .reauth with depth := m.depth + 1 } f hf
        have hcount : (refreshToken { m.log .reauth with depth := m.depth + 1 }).refreshes =
            m.refreshes + 1 := by
          unfold refreshToken
          have hta : ({ m.log .reauth with depth := m.depth + 1 } : Machine).sess.isTokenAuth =
              true := by
            show m.sess.isTokenAuth = true
            exact htok
          rw [if_pos hta]
          have hf' : ({ m.log .reauth with depth := m.depth + 1 } : Machine).sess.refreshAuthToken
              = some f := hf
          rw [hf']
          rfl
        rcases hadv with hk | ⟨_, hlt, hval⟩
        · refine ⟨m.refreshes, Nat.le_refl _, ?_, ?_⟩
          · rw [hkept.1, hk.1, hcount]
          · rw [hk.2.1]
            exact htoken
        · refine ⟨m2.refreshes - 1, by omega, ?_, hval f hf1⟩
          rw [hkept.1]
          omega
    · intro hpw
      rw [← hbody]
      unfold loginCred
      rw [hauth, hpw, h02.1, h02.2.1]
      rfl

set_option maxRecDepth 16384 in
/-- The statement of C19 for a session with a refresh callback that has been
called 3 times before, on a controller that accepts the login:
`initiateSession` dispatches a GET on the empty uri and a POST on "login"
whose body has the two keys `token`, with the value "tok3" of the fourth
call of the callback, and `username`; 4 calls have been made at the end. -/
theorem login_payload_witness :
    ((dispatchesAt 1 (newEntries { sess := tokenSession, refreshes := 3 }
        (initiateSession (always 200) (restRequest (always 200) 3 0)
          { sess := tokenSession, refreshes := 3 }).2)).map fun r => (r.verb, r.url, r.body)) =
      [("GET", "https://h/", .empty),
       ("POST", "https://h/login", .bytes "\x7b\"token\":\"tok3\",\"username\":\"u\"\x7d")] ∧
    (initiateSession (always 200) (restRequest (always 200) 3 0)
      { sess := tokenSession, refreshes := 3 }).2.refreshes = 4 ∧
    "https://h/login" = tokenSession.urlPrefix ++ "login" :=
  ⟨by decide, by decide,
    (login_payload (always 200) 3 { sess := tokenSession, refreshes := 3 }
      { verb := "POST", url := "https://h/login",
        header := [("Content-Type", "application/json"), ("X-Avi-Version", "17.1.2"),
          ("Referer", "https://h/"), ("X-Avi-Tenant", "admin"),
          ("Accept", "application/json")],
        cookies := [],
        body := .bytes "\x7b\"token\":\"tok3\",\"username\":\"u\"\x7d" }
      (by decide) rfl).1⟩

/-! ## The errors a call returns -/

theorem checkRetryForSleep_error (retry : Int) (verb url : String) (m : Machine) (a : AviError)
    (h : (checkRetryForSleep retry verb url m).1 = some a) : a.verb = verb ∧ a.url = url := by
  unfold checkRetryForSleep at h
  split at h
  · simp at h
  split at h
  · simp at h
  split at h
  · simp at h
  split at h
  · simp at h
  split at h
  · simp only [Option.some.injEq] at h
    subst h
    exact ⟨rfl, rfl⟩
  · simp at h

theorem newAviRequest_error (w : World) (s : AviSession) (verb url : String) (body : Body)
    (r : Option Request) (a : AviError) (h : newAviRequest w s verb url body = (r, a)) :
    a.verb = verb ∧ a.url = url := by
  unfold newAviRequest at h
  split at h
  · simp only [Prod.mk.injEq] at h
    rw [← h.2]
    exact ⟨rfl, rfl⟩
  · simp only [Prod.mk.injEq] at h
    rw [← h.2]
    exact ⟨rfl, rfl⟩

theorem readResponse_error (w : World) (a : AviError) (resp : Response) (e : GoError)
    (h : (readResponse w a resp).2 = some e) :
    ∃ a', e = .avi a' ∧ a'.verb = a.verb ∧ a'.url = a.url := by
  unfold readResponse at h
  split at h
  · simp at h
  · split at h
    · split at h
      · simp only [Option.some.injEq] at h
        exact ⟨_, h.symm, rfl, rfl⟩
      · simp at h
    · simp only [Option.some.injEq] at h
      exact ⟨_, h.symm, rfl, rfl⟩

theorem errorWithBody_fields (w : World) (a : AviError) (resp : Response) :
    (errorWithBody w a resp).verb = a.verb ∧ (errorWithBody w a resp).url = a.url := by
  unfold errorWithBody
  split <;> exact ⟨rfl, rfl⟩

theorem retryDecision_error (w : World) (rest : RestFn) (resp : Response) (uri : String)
    (m : Machine) (err : GoError) (b : Bool)
    (h : (retryDecision w rest resp uri m).1 = some (some err, b)) :
    (initiateSession w rest m).1 = some (some err) := by
  unfold retryDecision at h
  split at h
  · split at h
    · simp at h
    · rename_i e m4 heq
      simp only [Option.some.injEq, Prod.mk.injEq] at h
      rw [heq, ← h.1]
    · simp at h
  · split at h <;> simp at h

theorem retryDecision_base (w : World) (fuel : Nat) (resp : Response) (uri : String)
    (m : Machine) :
    (retryDecision w (restRequest w fuel 0) resp uri m).2.sess.urlPrefix = m.sess.urlPrefix :=
  (step_retryDecision (fun _ => True) w (restRequest w fuel 0) 4 (restRequest_any_step w fuel)
    resp uri m).base_eq

theorem clientDo_answer (w : World) (ev : Event) (m m2 : Machine) (r : DoResult)
    (h : clientDo w ev m = (r, m2)) : w.controller m.clock = r ∧ m2.sess = m.sess := by
  unfold clientDo at h
  simp only [Prod.mk.injEq] at h
  refine ⟨h.1, ?_⟩
  rw [← h.2]
  rfl

/-- The readiness probe reports failure only when its request cannot be
built, and then with the error of `http.NewRequest`. -/
theorem probeRounds_false (w : World) (url : String) (n : Nat) :
    ∀ (round : Nat) (m : Machine) (err : Option GoError),
      (probeRounds w url n round m).1 = (false, err) →
      ∃ msg, w.newRequestError "GET" url = some msg ∧ err = some (.other msg) := by
  induction n with
  | zero =>
    intro round m err h
    simp [probeRounds] at h
  | succ n ih =>
    intro round m err
    unfold probeRounds
    split
    · rename_i msg hmsg
      intro h
      simp only [Prod.mk.injEq, true_and] at h
      exact ⟨msg, hmsg, h.symm⟩
    · split
      · split
        · intro h
          simp at h
        · exact ih _ _ _
      · exact ih _ _ _

theorem CheckControllerStatus_error (w : World) (m : Machine) (err : Option GoError)
    (h : (CheckControllerStatus w m).1 = (false, err)) :
    ∃ e, err = some e ∧ ProbeError w m.sess.urlPrefix e := by
  unfold CheckControllerStatus at h
  obtain ⟨msg, hmsg, herr⟩ := probeRounds_false w _ 10 0 _ err h
  exact ⟨.other msg, herr, msg, hmsg, rfl⟩

theorem readResponse_body (w : World) (a : AviError) (resp : Response) (bytes : String)
    (h : (readResponse w a resp).1 = some bytes) : bytes = resp.body := by
  unfold readResponse at h
  split at h
  · simp at h
  · split at h
    · split at h
      · simp only [Option.some.injEq] at h
        exact h.symm
      · simp only [Option.some.injEq] at h
        exact h.symm
    · simp only [Option.some.injEq] at h
      exact h.symm

/-- The bytes `restRequest` returns are the body of a response of the
controller. -/
theorem restRequest_body (w : World) (fuel : Nat) :
    ∀ (retry : Int) (verb uri : String) (payload : GoValue) (tenant : String) (m : Machine)
      (bytes : String) (err : Option GoError),
      (restRequest w fuel retry verb uri payload tenant m).1 = some (some bytes, err) →
      ∃ n r, w.controller n = .resp r ∧ r.body = bytes := by
  induction fuel with
  | zero =>
    intro retry verb uri payload tenant m bytes err h
    simp [restRequest] at h
  | succ fuel ih =>
    intro retry verb uri payload tenant m bytes err
    unfold restRequest
    dsimp only
    split
    · intro h; simp at h
    · rename_i m1 heq
      split
      · intro h; simp at h
      · split
        · intro h; simp at h
        · rename_i req a hreq
          split
          · intro h; simp at h
          · rename_i resp m2 hdoeq
            have hdo := clientDo_answer w _ _ m2 _ hdoeq
            split
            · intro h; simp at h
            · intro h; simp at h
            · split
              · intro h; simp at h
              · exact ih _ _ _ _ _ _ _ _
            · rename_i m4 hd4
              intro h
              simp only [Option.some.injEq] at h
              have hb := readResponse_body w _ resp bytes (by rw [h])
              exact ⟨_, resp, hdo.1, hb.symm⟩

theorem unmarshalInto_error (w : World) (bytes : String) (sink : Option GoValue) (msg : String)
    (h : unmarshalInto w bytes sink = .error msg) : w.jsonUnmarshal bytes = .error msg := by
  unfold unmarshalInto at h
  split at h
  · simp at h
  · simp at h
  · rename_i e heq
    rw [heq]
    injection h with h
    rw [h]

/-- An error of a decoding verb is an error of its `restRequest`, or the
error of `json.Unmarshal` on the bytes that `restRequest` returned without
error. -/
theorem restRequestInterfaceResponse_error_cases (w : World) (rest : RestFn) (verb uri : String)
    (payload : GoValue) (sink : Option GoValue) (tenant : String) (m : Machine) (e : GoError)
    (s : Option GoValue)
    (h : (restRequestInterfaceResponse w rest verb uri payload sink tenant m).1 =
      some (some e, s)) :
    (∃ bytes, (rest verb uri payload tenant m).1 = some (bytes, some e)) ∨
    (∃ bytes msg, (rest verb uri payload tenant m).1 = some (some bytes, none) ∧
      w.jsonUnmarshal bytes = .error msg ∧ e = .other msg) := by
  unfold restRequestInterfaceResponse at h
  split at h
  · simp at h
  · rename_i res rerror m1 heq
    split at h
    · rename_i e' _
      simp only [Option.some.injEq, Prod.mk.injEq] at h
      exact Or.inl ⟨res, by rw [heq, h.1]⟩
    · simp at h
    · rename_i bytes
      split at h
      · simp at h
      · rename_i msg hdec
        simp only [Option.some.injEq, Prod.mk.injEq] at h
        exact Or.inr ⟨bytes, msg, by rw [heq], unmarshalInto_error w _ _ _ hdec, h.1.symm⟩

/-- The error of a failed re-login is the error of its POST on "login". -/
theorem initiateSession_error (w : World) (fuel : Nat)
    (herr : ∀ (verb uri : String) (payload : GoValue) (tenant : String) (m : Machine)
      (bytes : Option String) (e : GoError),
      (restRequest w fuel 0 verb uri payload tenant m).1 = some (bytes, some e) →
      OwnError verb (m.sess.urlPrefix ++ uri) e ∨ ReloginError w m.sess.urlPrefix e ∨
        ProbeError w m.sess.urlPrefix e)
    (m : Machine) (e : GoError)
    (h : (initiateSession w (restRequest w fuel 0) m).1 = some (some e)) :
    ReloginError w m.sess.urlPrefix e := by
  have h1 := refreshToken_same { m.log .reauth with depth := m.depth + 1 }
  have hb1 : (refreshToken { m.log .reauth with depth := m.depth + 1 }).sess.urlPrefix =
      m.sess.urlPrefix := h1.2.2.2.2
  have hget : (Get w (restRequest w fuel 0) "" none []
      (refreshToken { m.log .reauth with depth := m.depth + 1 })).2.sess.urlPrefix =
      m.sess.urlPrefix := by
    unfold Get
    rw [restRequestInterfaceResponse_machine]
    exact ((restRequest_any_step w fuel _ _ _ _ _).base_eq).trans hb1
  unfold initiateSession at h
  dsimp only at h
  split at h
  · simp at h
  · rename_i r m2 heq
    rw [heq] at hget
    dsimp only at hget
    split at h
    · simp at h
    · rename_i rerror s m3 hpost
      simp only [Option.some.injEq] at h
      subst h
      have hp : (Post w (restRequest w fuel 0) "login" (loginCred m2.sess) none [] m2).1 =
          some (some rerror, s) := by rw [hpost]
      unfold Post at hp
      rcases restRequestInterfaceResponse_error_cases w _ _ _ _ _ _ _ _ _ hp with
        ⟨bytes, hb⟩ | ⟨bytes, msg, hb, hdec, he⟩
      · have := herr _ _ _ _ _ _ _ hb
        rw [hget] at this
        rcases this with h | h | h
        · exact Or.inl h
        · exact h
        · exact Or.inr (Or.inl h)
      · obtain ⟨n, r, hn, hr⟩ := restRequest_body w fuel _ _ _ _ _ _ _ _ hb
        exact Or.inr (Or.inr ⟨n, r, msg, hn, by rw [hr]; exact hdec, he⟩)
    · simp at h

/-- Every error `restRequest` returns is an `AviError` with the verb and URL
of the request, or the error of a failed re-login, or the error of a
readiness probe that could not build its request. -/
theorem restRequest_error (w : World) (fuel : Nat) :
    ∀ (retry : Int) (verb uri : String) (payload : GoValue) (tenant : String) (m : Machine)
      (bytes : Option String) (e : GoError),
      (restRequest w fuel retry verb uri payload tenant m).1 = some (bytes, some e) →
      OwnError verb (m.sess.urlPrefix ++ uri) e ∨ ReloginError w m.sess.urlPrefix e ∨
        ProbeError w m.sess.urlPrefix e := by
  induction fuel with
  | zero =>
    intro retry verb uri payload tenant m bytes e h
    simp [restRequest] at h
  | succ fuel ih =>
    intro retry verb uri payload tenant m bytes e
    have hsame := (checkRetryForSleep_same retry verb (m.sess.urlPrefix ++ uri) m).2.1
    unfold restRequest
    dsimp only
    split
    · rename_i a m1 heq
      intro h
      simp only [Option.some.injEq, Prod.mk.injEq] at h
      have ha := checkRetryForSleep_error retry verb _ m a (by rw [heq])
      exact Or.inl ⟨a, h.2.symm, ha.1, ha.2⟩
    · rename_i m1 heq
      rw [heq] at hsame
      dsimp only at hsame
      split
      · intro h
        simp only [Option.some.injEq, Prod.mk.injEq] at h
        exact Or.inl ⟨_, h.2.symm, rfl, rfl⟩
      · split
        · rename_i a hreq
          intro h
          simp only [Option.some.injEq, Prod.mk.injEq] at h
          have ha := newAviRequest_error w _ verb _ _ _ a hreq
          exact Or.inl ⟨a, h.2.symm, ha.1, ha.2⟩
        · rename_i req a hreq
          have ha := newAviRequest_error w _ verb _ _ _ a hreq
          split
          · rename_i msg m2 hdoeq
            intro h
            simp only [Option.some.injEq, Prod.mk.injEq] at h
            exact Or.inl ⟨_, h.2.symm, ha.1, ha.2⟩
          · rename_i resp m2 hdoeq
            have hm2 : m2.sess = m.sess := by
              have h : (clientDo w (.dispatch ((req.setHeader "Accept"
                "application/json").setHeader "X-Avi-Tenant"
                (if tenant = "" then m.sess.tenant else tenant))) m1).2.sess = m1.sess := rfl
              rw [hdoeq] at h
              rw [← hsame]
              exact h
            have hb3 : (collectCookiesFromResp m2.sess resp).urlPrefix = m.sess.urlPrefix := by
              rw [hm2]; exact (foldl_collectCookie_tenant _ _).2
            have hb4 := retryDecision_base w fuel resp uri
              { m2 with sess := collectCookiesFromResp m2.sess resp }
            split
            · intro h; simp at h
            · rename_i err b m4 hd4
              intro h
              simp only [Option.some.injEq, Prod.mk.injEq] at h
              have := retryDecision_error w (restRequest w fuel 0) resp uri _ err b
                (by rw [hd4])
              rw [h.2] at this
              have hre := initiateSession_error w fuel (ih 0) _ e this
              rw [hb3] at hre
              exact Or.inr (Or.inl hre)
            · rename_i m4 hd4
              rw [hd4] at hb4
              dsimp only at hb4
              have hchk := CheckControllerStatus_sess w m4
              split
              · rename_i err m5 hc5
                intro h
                simp only [Option.some.injEq, Prod.mk.injEq] at h
                obtain ⟨e', he', hp⟩ := CheckControllerStatus_error w m4 err (by rw [hc5])
                rw [h.2] at he'
                have : e = e' := Option.some.inj he'
                subst this
                rw [hb4, hb3] at hp
                exact Or.inr (Or.inr hp)
              · rename_i x m5 hc5
                rw [hc5] at hchk
                dsimp only at hchk
                intro h
                have hrec := ih (retry + 1) verb uri payload
                  (if tenant = "" then m.sess.tenant else tenant) m5 bytes e h
                rw [hchk, hb4, hb3] at hrec
                exact hrec
            · rename_i m4 hd4
              intro h
              simp only [Option.some.injEq] at h
              have h2 : (readResponse w
                  { a with httpStatusCode := resp.status } resp).2 = some e := by
                rw [h]
              obtain ⟨a', he, hv, hu⟩ := readResponse_error w _ resp e h2
              exact Or.inl ⟨a', he, hv.trans ha.1, hu.trans ha.2⟩

/-- Every error a decoding verb returns is an error of `restRequest` or the
error of `json.Unmarshal` on the body of the response. -/
theorem restRequestInterfaceResponse_error (w : World) (fuel : Nat) (verb uri : String)
    (payload : GoValue) (sink : Option GoValue) (tenant : String) (m : Machine) (e : GoError)
    (s : Option GoValue)
    (h : (restRequestInterfaceResponse w (restRequest w fuel 0) verb uri payload sink tenant
      m).1 = some (some e, s)) :
    OwnError verb (m.sess.urlPrefix ++ uri) e ∨ ReloginError w m.sess.urlPrefix e ∨
      ProbeError w m.sess.urlPrefix e ∨ DecodeError w e := by
  rcases restRequestInterfaceResponse_error_cases w _ _ _ _ _ _ _ _ _ h with
    ⟨bytes, hb⟩ | ⟨bytes, msg, hb, hdec, he⟩
  · rcases restRequest_error w fuel 0 verb uri payload tenant m bytes e hb with h1 | h1 | h1
    · exact Or.inl h1
    · exact Or.inr (Or.inl h1)
    · exact Or.inr (Or.inr (Or.inl h1))
  · obtain ⟨n, r, hn, hr⟩ := restRequest_body w fuel _ _ _ _ _ _ _ _ hb
    exact Or.inr (Or.inr (Or.inr ⟨n, r, msg, hn, by rw [hr]; exact hdec, he⟩))

/-- Every error the download returns is an `AviError` with the verb and URL of
the request, or the error of a failed re-login, or the error of a readiness
probe that could not build its request, or the error of copying the body
into the file. -/
theorem download_error (w : World) (fuel : Nat) :
    ∀ (retry : Int) (verb uri : String) (m : Machine) (e : GoError),
      (restMultipartDownloadRequest w fuel retry verb uri m).1 = some (some e) →
      OwnError verb (m.sess.urlPrefix ++ "/api/fileservice/" ++ uri) e ∨
        ReloginError w m.sess.urlPrefix e ∨ ProbeError w m.sess.urlPrefix e ∨
        CopyError w e := by
  induction fuel with
  | zero =>
    intro retry verb uri m e h
    simp [restMultipartDownloadRequest] at h
  | succ fuel ih =>
    intro retry verb uri m e
    have hsame := (checkRetryForSleep_same retry verb
      (m.sess.urlPrefix ++ "/api/fileservice/" ++ uri) m).2.1
    unfold restMultipartDownloadRequest
    dsimp only
    split
    · rename_i a m1 heq
      intro h
      simp only [Option.some.injEq] at h
      have ha := checkRetryForSleep_error retry verb _ m a (by rw [heq])
      exact Or.inl ⟨a, h.symm, ha.1, ha.2⟩
    · rename_i m1 heq
      rw [heq] at hsame
      dsimp only at hsame
      split
      · rename_i a hreq
        intro h
        simp only [Option.some.injEq] at h
        have ha := newAviRequest_error w _ verb _ _ _ a hreq
        exact Or.inl ⟨a, h.symm, ha.1, ha.2⟩
      · rename_i req a hreq
        have ha := newAviRequest_error w _ verb _ _ _ a hreq
        split
        · rename_i msg m2 hdoeq
          intro h
          simp only [Option.some.injEq] at h
          exact Or.inl ⟨_, h.symm, ha.1, ha.2⟩
        · rename_i resp m2 hdoeq
          have hdo := clientDo_answer w _ m1 m2 _ hdoeq
          have hm2 : m2.sess = m.sess := hdo.2.trans hsame
          have hb3 : (collectCookiesFromResp m2.sess resp).urlPrefix = m.sess.urlPrefix := by
            rw [hm2]; exact (foldl_collectCookie_tenant _ _).2
          have hb4 := retryDecision_base w fuel resp uri
            { m2 with sess := collectCookiesFromResp m2.sess resp }
          split
          · intro h; simp at h
          · rename_i err b m4 hd4
            intro h
            simp only [Option.some.injEq] at h
            have := retryDecision_error w (restRequest w fuel 0) resp uri _ err b (by rw [hd4])
            rw [h] at this
            have hre := initiateSession_error w fuel (restRequest_error w fuel 0) _ e this
            rw [hb3] at hre
            exact Or.inr (Or.inl hre)
          · rename_i m4 hd4
            rw [hd4] at hb4
            dsimp only at hb4
            have hchk := CheckControllerStatus_sess w m4
            split
            · rename_i err m5 hc5
              intro h
              simp only [Option.some.injEq] at h
              obtain ⟨e', he', hp⟩ := CheckControllerStatus_error w m4 err (by rw [hc5])
              rw [h] at he'
              have : e = e' := Option.some.inj he'
              subst this
              rw [hb4, hb3] at hp
              exact Or.inr (Or.inr (Or.inl hp))
            · rename_i x m5 hc5
              rw [hc5] at hchk
              dsimp only at hchk
              intro h
              have hrec := ih 0 verb uri m5 e h
              rw [hchk, hb4, hb3] at hrec
              exact hrec
          · rename_i m4 hd4
            split
            · intro h; simp at h
            · split
              · intro h
                simp only [Option.some.injEq] at h
                have hf := errorWithBody_fields w { a with httpStatusCode := resp.status } resp
                exact Or.inl ⟨_, h.symm, hf.1.trans ha.1, hf.2.trans ha.2⟩
              · split
                · rename_i msg hw
                  intro h
                  simp only [Option.some.injEq] at h
                  have hmsg : msg = "file already closed" := by
                    unfold File.write at hw
                    split at hw
                    · simp at hw
                    · split at hw
                      · injection hw with hw
                        exact hw.symm
                      · simp at hw
                  exact Or.inr (Or.inr (Or.inr ⟨msg, h.symm, Or.inl hmsg⟩))
                · rename_i f msg _ hre
                  intro h
                  simp only [Option.some.injEq] at h
                  exact Or.inr (Or.inr (Or.inr ⟨msg, h.symm, Or.inr ⟨_, resp, hdo.1, hre⟩⟩))
                · intro h; simp at h

theorem closeOnReturn_fst {α : Type} (r : α × Machine) : (closeOnReturn r).1 = r.1 := rfl

/-- Every error the upload returns is an `AviError` with the verb and URL of
the request, or the error of a failed re-login, or the error of a readiness
probe that could not build its request, or the error of reading the file,
or, when the dispatch of its own request failed at the transport, the error
of the dump of that request. -/
theorem upload_error (w : World) (fuel : Nat) :
    ∀ (retry : Int) (verb uri : String) (m : Machine) (e : GoError),
      (restMultipartUploadRequest w fuel retry verb uri m).1 = some (some e) →
      OwnError verb (m.sess.urlPrefix ++ "/api/fileservice/" ++ uri) e ∨
        ReloginError w m.sess.urlPrefix e ∨ ProbeError w m.sess.urlPrefix e ∨
        CopyError w e ∨ DumpError w verb (m.sess.urlPrefix ++ "/api/fileservice/" ++ uri) e := by
  induction fuel with
  | zero =>
    intro retry verb uri m e h
    simp [restMultipartUploadRequest] at h
  | succ fuel ih =>
    intro retry verb uri m e
    have hsame := (checkRetryForSleep_same retry verb
      (m.sess.urlPrefix ++ "/api/fileservice/" ++ uri) m).2.1
    unfold restMultipartUploadRequest
    dsimp only
    split
    · rename_i a m1 heq
      intro h
      simp only [Option.some.injEq] at h
      have ha := checkRetryForSleep_error retry verb _ m a (by rw [heq])
      exact Or.inl ⟨a, h.symm, ha.1, ha.2⟩
    · rename_i m1 heq
      rw [heq] at hsame
      dsimp only at hsame
      rw [closeOnReturn_fst]
      split
      · rename_i msg hread
        intro h
        simp only [Option.some.injEq] at h
        have hmsg : msg = "file already closed" := by
          unfold File.readAll at hread
          split at hread
          · injection hread with hread
            exact hread.symm
          · simp at hread
        exact Or.inr (Or.inr (Or.inr (Or.inl ⟨msg, h.symm, Or.inl hmsg⟩)))
      · rename_i content f1 hread
        split
        · rename_i a hreq
          intro h
          simp only [Option.some.injEq] at h
          have ha := newAviRequest_error w _ verb _ _ _ a hreq
          exact Or.inl ⟨a, h.symm, ha.1, ha.2⟩
        · rename_i req a hreq
          have ha := newAviRequest_error w _ verb _ _ _ a hreq
          split
          · rename_i msg m2 hdoeq
            have hdo := clientDo_answer w _ _ m2 _ hdoeq
            have hb := newAviRequest_built w _ verb _ _ req _ hreq
            intro h
            simp only [Option.some.injEq, Option.map_eq_some'] at h
            obtain ⟨d, hd, he⟩ := h
            exact Or.inr (Or.inr (Or.inr (Or.inr
              ⟨req.setHeader "Content-Type" ("multipart/form-data; boundary=" ++ w.boundary),
                _, msg, d, hb.2.2.1, hb.2.2.2.1, hdo.1, hd, he.symm⟩)))
          · rename_i resp m2 hdoeq
            have hdo := clientDo_answer w _ _ m2 _ hdoeq
            have hm2 : m2.sess = m.sess := hdo.2.trans hsame
            have hb3 : (collectCookiesFromResp m2.sess resp).urlPrefix = m.sess.urlPrefix := by
              rw [hm2]; exact (foldl_collectCookie_tenant _ _).2
            have hb4 := retryDecision_base w fuel resp uri
              { m2 with sess := collectCookiesFromResp m2.sess resp }
            split
            · intro h; simp at h
            · rename_i err b m4 hd4
              intro h
              simp only [Option.some.injEq] at h
              have := retryDecision_error w (restRequest w fuel 0) resp uri _ err b
                (by rw [hd4])
              rw [h] at this
              have hre := initiateSession_error w fuel (restRequest_error w fuel 0) _ e this
              rw [hb3] at hre
              exact Or.inr (Or.inl hre)
            · rename_i m4 hd4
              rw [hd4] at hb4
              dsimp only at hb4
              have hchk := CheckControllerStatus_sess w m4
              split
              · rename_i err m5 hc5
                intro h
                simp only [Option.some.injEq] at h
                obtain ⟨e', he', hp⟩ := CheckControllerStatus_error w m4 err (by rw [hc5])
                rw [h] at he'
                have : e = e' := Option.some.inj he'
                subst this
                rw [hb4, hb3] at hp
                exact Or.inr (Or.inr (Or.inl hp))
              · rename_i x m5 hc5
                rw [hc5] at hchk
                dsimp only at hchk
                intro h
                have hrec := ih (retry + 1) verb uri m5 e h
                rw [hchk, hb4, hb3] at hrec
                exact hrec
            · rename_i m4 hd4
              split
              · intro h
                simp only [Option.some.injEq] at h
                have hf := errorWithBody_fields w { a with httpStatusCode := resp.status } resp
                exact Or.inl ⟨_, h.symm, hf.1.trans ha.1, hf.2.trans ha.2⟩
              · intro h; simp at h

/-- The first attempt of `restRequest`, answered: when the retry decision
hands back an error, that error is what the call returns. -/
theorem restRequest_decision_error (w : World) (fuel : Nat) (verb uri : String)
    (payload : GoValue) (tenant : String) (m : Machine) (resp : Response) (body : Body)
    (req : Request) (errorResult : AviError) (err : GoError) (b : Bool)
    (hbody : marshalPayload payload = some body)
    (hreq : newAviRequest w m.sess verb (m.sess.urlPrefix ++ uri) body = (some req, errorResult))
    (hresp : w.controller m.clock = .resp resp)
    (hdec : (retryDecision w (restRequest w fuel 0) resp uri
      { m with
        sess := collectCookiesFromResp m.sess resp,
        clock := m.clock + 1,
        trace := m.trace ++ [(m.depth, .dispatch
          ((req.setHeader "Accept" "application/json").setHeader "X-Avi-Tenant"
            (if tenant = "" then m.sess.tenant else tenant)))] }).1 = some (some err, b)) :
    (restRequest w (fuel + 1) 0 verb uri payload tenant m).1 = some (none, some err) := by
  unfold restRequest
  simp only [checkRetryForSleep, if_true, hbody, hreq, clientDo, hresp, Machine.log]
  revert hdec
  generalize retryDecision w (restRequest w fuel 0) resp uri _ = r
  intro hdec
  obtain ⟨r1, r2⟩ := r
  dsimp only at hdec
  subst hdec
  rfl

/-- An error of `restRequest` is the error of the decoding verb. -/
theorem restRequestInterfaceResponse_of_error (w : World) (rest : RestFn) (verb uri : String)
    (payload : GoValue) (sink : Option GoValue) (tenant : String) (m : Machine)
    (res : Option String) (e : GoError)
    (h : (rest verb uri payload tenant m).1 = some (res, some e)) :
    (restRequestInterfaceResponse w rest verb uri payload sink tenant m).1 =
      some (some e, sink) := by
  unfold restRequestInterfaceResponse
  generalize rest verb uri payload tenant m = r at h
  obtain ⟨r1, r2⟩ := r
  dsimp only at h
  subst h
  rfl

/-- When `client.Do` fails, the upload returns what `httputil.DumpRequestOut`
returned: no error at all when the request could be dumped. -/
theorem upload_transport_failure_returns_dump_result :
    (PostMultipartRequest unreachable 3 "POST" "uploads"
      { sess := sampleSession, file := { name := "foo.bin", unread := "data" } }).1
      = some none ∧
    (PostMultipartRequest { unreachable with dumpRequestOut := fun _ => some "short body" } 3
      "POST" "uploads"
      { sess := sampleSession, file := { name := "foo.bin", unread := "data" } }).1
      = some (some (.other "short body")) := by
  constructor <;> decide

/-- C15, as amended: every error returned by `restRequest`, and so by a raw
verb, is an `AviError` whose verb and URL are those of the request, or the
error of a failed re-login handed on as it is (that of the POST on "login":
an `AviError` with the verb POST and the login URL, or one of the two kinds
that follow), or the error of a readiness probe that could not build its
request, or the error of `json.Unmarshal` on the answer to a login.  Every
error returned by `restRequestInterfaceResponse`, and so by Get, Post, Put,
Patch and Delete, is one of these or the error of `json.Unmarshal` on the
2xx body, handed on as it is.  Every error returned by the download is one
of the first three or the error of `io.Copy`, handed on as it is.  So is
every error returned by the upload, but for the one it returns when the
dispatch of its own request fails at the transport, which is the error of
the dump of that request. -/
theorem returned_error_shapes (w : World) (fuel : Nat) (retry : Int) (verb uri : String)
    (payload : GoValue) (sink : Option GoValue) (tenant : String) (m : Machine) (e : GoError) :
    (∀ bytes, (restRequest w fuel retry verb uri payload tenant m).1 = some (bytes, some e) →
      OwnError verb (m.sess.urlPrefix ++ uri) e ∨ ReloginError w m.sess.urlPrefix e ∨
        ProbeError w m.sess.urlPrefix e) ∧
    (∀ s, (restRequestInterfaceResponse w (restRequest w fuel 0) verb uri payload sink tenant
        m).1 = some (some e, s) →
      OwnError verb (m.sess.urlPrefix ++ uri) e ∨ ReloginError w m.sess.urlPrefix e ∨
        ProbeError w m.sess.urlPrefix e ∨ DecodeError w e) ∧
    ((restMultipartDownloadRequest w fuel retry verb uri m).1 = some (some e) →
      OwnError verb (m.sess.urlPrefix ++ "/api/fileservice/" ++ uri) e ∨
        ReloginError w m.sess.urlPrefix e ∨ ProbeError w m.sess.urlPrefix e ∨
        CopyError w e) ∧
    ((restMultipartUploadRequest w fuel retry verb uri m).1 = some (some e) →
      OwnError verb (m.sess.urlPrefix ++ "/api/fileservice/" ++ uri) e ∨
        ReloginError w m.sess.urlPrefix e ∨ ProbeError w m.sess.urlPrefix e ∨
        CopyError w e ∨
        DumpError w verb (m.sess.urlPrefix ++ "/api/fileservice/" ++ uri) e) :=
  ⟨fun bytes h => restRequest_error w fuel retry verb uri payload tenant m bytes e h,
   fun s h => restRequestInterfaceResponse_error w fuel verb uri payload sink tenant m e s h,
   fun h => download_error w fuel retry verb uri m e h,
   fun h => upload_error w fuel retry verb uri m e h⟩

/-- A witness for C15: a GET answered with 404 returns an `AviError` with the
verb GET and the URL of the request. -/
theorem returned_error_shapes_witness :
    OwnError "GET" (sampleMachine.sess.urlPrefix ++ "api/pool")
        (.avi
          { message := some "", verb := "GET", url := "https://h/api/pool",
            httpStatusCode := 404 }) ∨
      ReloginError (always 404) sampleMachine.sess.urlPrefix
        (.avi
          { message := some "", verb := "GET", url := "https://h/api/pool",
            httpStatusCode := 404 }) ∨
      ProbeError (always 404) sampleMachine.sess.urlPrefix
        (.avi
          { message := some "", verb := "GET", url := "https://h/api/pool",
            httpStatusCode := 404 }) ∨
      DecodeError (always 404)
        (.avi
          { message := some "", verb := "GET", url := "https://h/api/pool",
            httpStatusCode := 404 }) :=
  (returned_error_shapes (always 404) 2 0 "GET" "api/pool" .null none "admin" sampleMachine
      (.avi
        { message := some "", verb := "GET", url := "https://h/api/pool",
          httpStatusCode := 404 })).2.1 none rfl

set_option maxRecDepth 8000 in
/-- C15 fails as stated: a 200 whose body does not decode makes Get return the
error of `json.Unmarshal`, which is no `AviError`; a GET whose re-login is
answered with 403 returns the error of the login request, whose verb and URL
are POST and the login URL, not those of the GET; and a download whose 200
carries the body "data", into a file that is closed, returns the error of
`io.Copy`, which is no `AviError`. -/
theorem returned_error_counterexample :
    ((Get (decoding [{ status := 200, body := "not json" }])
        (restRequest (decoding [{ status := 200, body := "not json" }]) 2 0) "api/pool"
        (some .null) [] sampleMachine).1.map fun r => r.1)
      = some (some (.other "invalid character")) ∧
    ¬ OwnError "GET" "https://h/api/pool" (.other "invalid character") ∧
    ((Get (answering [401, 200, 403]) (restRequest (answering [401, 200, 403]) 2 0) "api/pool"
        none [] { sess := { sampleSession with sessionid := "abc" } }).1.map fun r => r.1)
      = some (some (.avi
          { message := some "", verb := "POST", url := "https://h/login",
            httpStatusCode := 403 })) ∧
    ¬ OwnError "GET" "https://h/api/pool"
        (.avi
          { message := some "", verb := "POST", url := "https://h/login",
            httpStatusCode := 403 }) ∧
    (GetMultipartRaw (replying [{ status := 200, body := "data" }]) 3 "GET" "f.bin"
        { sess := sampleSession, file := { name := "f.bin", closed := true } }).1
      = some (some (.other "file already closed")) ∧
    ¬ OwnError "GET" "https://h/api/fileservice/f.bin" (.other "file already closed") := by
  refine ⟨by decide, ?_, ?_, ?_, by decide, ?_⟩
  · rintro ⟨a, h, -, -⟩
    cases h
  · have h := restRequest_decision_error (answering [401, 200, 403]) 1 "GET" "api/pool" .null
      "admin" { sess := { sampleSession with sessionid := "abc" } } { status := 401 } .empty
      ((newAviRequest (answering [401, 200, 403]) { sampleSession with sessionid := "abc" }
        "GET" "https://h/api/pool" .empty).1.getD
          { verb := "", url := "", header := [], cookies := [], body := .empty })
      { verb := "GET", url := "https://h/api/pool" }
      (.avi
        { message := some "", verb := "POST", url := "https://h/login",
          httpStatusCode := 403 })
      false (by decide) (by decide) (by decide) (by decide)
    have h2 := restRequestInterfaceResponse_of_error (answering [401, 200, 403]) _ "GET"
      "api/pool" .null none "admin" _ _ _ h
    unfold Get
    rw [show locTenant { sess := { sampleSession with sessionid := "abc" } } [] = "admin"
      from rfl, h2]
    rfl
  · rintro ⟨a, h, hv, -⟩
    injection h with h
    rw [← h] at hv
    exact absurd hv (by decide)
  · rintro ⟨a, h, -, -⟩
    cases h

/-- A download whose 200 carries no bytes returns without error when the file
is closed: `io.Copy` has nothing to write. -/
theorem download_empty_body_closed_file :
    (GetMultipartRaw (always 200) 3 "GET" "f.bin"
      { sess := sampleSession, file := { name := "f.bin", closed := true } }).1 = some none := by
  decide

/-! ## Transport failures -/

/-- C22: when the transport answers the dispatch of a JSON verb with an error
and no response, the verb fails at once.  The call adds exactly one entry to
the trace, the dispatch of its request: no sleep, no retry, no readiness
probe and no re-login.  The session, its cookies included, is as it was, the
sink is as it was, and the error returned is an `AviError` with the verb and
URL of the request, the transport's error inside its inner error and the
HTTP status code 0. -/
theorem transport_error_fails_at_once (w : World) (fuel : Nat) (verb uri : String)
    (payload : GoValue) (sink : Option GoValue) (tenant : String) (m : Machine) (msg : String)
    (hbody : marshalPayload payload ≠ none)
    (hnew : w.newRequestError verb (m.sess.urlPrefix ++ uri) = none)
    (hresp : w.controller m.clock = .fail msg) :
    (restRequestInterfaceResponse w (restRequest w (fuel + 1) 0) verb uri payload sink tenant
        m).1 =
      some (some (.avi
        { verb := verb, url := m.sess.urlPrefix ++ uri, httpStatusCode := 0,
          err := some ("client.Do failed: " ++ msg) }), sink) ∧
    (∃ req,
      RequestOf verb (m.sess.urlPrefix ++ uri) (if tenant = "" then m.sess.tenant else tenant)
        payload req ∧
      newEntries m (restRequestInterfaceResponse w (restRequest w (fuel + 1) 0) verb uri payload
        sink tenant m).2 = [(m.depth, .dispatch req)]) ∧
    (restRequestInterfaceResponse w (restRequest w (fuel + 1) 0) verb uri payload sink tenant
        m).2.sess = m.sess := by
  obtain ⟨body, hb⟩ := Option.ne_none_iff_exists'.1 hbody
  obtain ⟨req, m2, hreq, htr, hs, heq⟩ :=
    restRequest_failed w fuel 0 verb uri payload tenant m msg body (by omega) hb hnew hresp
  have hpre : (checkRetryForSleep 0 verb (m.sess.urlPrefix ++ uri) m).2 = m := by
    simp [checkRetryForSleep]
  rw [hpre] at htr
  unfold restRequestInterfaceResponse
  rw [heq]
  exact ⟨rfl, ⟨req, hreq, newEntries_of_append _ _ _ htr⟩, hs⟩

/-- A witness for C22: a GET on a controller that cannot be reached. -/
theorem transport_error_fails_at_once_witness :
    (Get unreachable (restRequest unreachable 1 0) "api/pool" none [] sampleMachine).1 =
      some (some (.avi
        { verb := "GET", url := "https://h/api/pool", httpStatusCode := 0,
          err := some "client.Do failed: connection refused" }), none) :=
  (transport_error_fails_at_once unreachable 0 "GET" "api/pool" .null none "admin"
    sampleMachine "connection refused" (by decide) rfl rfl).1

/-! ## The first element of the results -/

/-- With the count 1 and results that decode to an empty list, `GetObject`
reaches `elems[0]` on a slice of length 0. -/
theorem GetObject_empty_results (w : World) (rest : RestFn) (obj tenant : String)
    (options : List ApiOptionsParams) (opts : ApiOptions) (m m1 : Machine)
    (res : AviCollectionResult)
    (hopts : applyApiOptions options {} = (opts, none)) (hname : opts.name ≠ "")
    (hres : opts.result.isSome)
    (hcoll : GetCollectionRaw w rest (specObjectUri obj opts) tenant m =
      (some (res, none), m1))
    (h1 : res.Count = 1) (hlist : w.unmarshalRawList res.Results = .ok []) :
    GetObject w rest obj tenant options m =
      (some (.panicked "index out of range [0] with length 0"), m1) := by
  have huri := GetUri_ok obj options opts hopts hname hres
  have h0 : ¬ res.Count = 0 := by omega
  have h2 : ¬ res.Count > 1 := by omega
  unfold GetObject
  rw [hopts]
  dsimp only
  rw [huri]
  dsimp only
  rw [hcoll]
  dsimp only
  rw [if_neg h0, if_neg h2, hlist]

/-- C23: the access to the first element of the decoded results can be out of
range.  On an answer whose count is 1 and whose results decode to an empty
list, as the JSON documents `[]` and `null` do, `GetObjectByName` panics with
"index out of range [0] with length 0": it returns neither success nor an
error.  With one result in the list the same call returns without error. -/
theorem GetObject_index_out_of_range :
    (GetObjectByName (collecting 1 []) (restRequest (collecting 1 []) 1 0) "pool" "p"
      (some .null) [] sampleMachine).1 =
        some (.panicked "index out of range [0] with length 0") ∧
    (GetObjectByName (collecting 1 ["first"]) (restRequest (collecting 1 ["first"]) 1 0) "pool"
      "p" (some .null) [] sampleMachine).1 =
        some (.returned (none, some (.map [("name", .str "p")]))) :=
  ⟨rfl, rfl⟩

/-! ## Re-login inside the re-login -/

theorem refreshToken_sessionid (m : Machine) :
    (refreshToken m).sess.sessionid = m.sess.sessionid := by
  unfold refreshToken
  split
  · split
    · rfl
    · rfl
  · rfl

theorem dispatchesIn_append (a b : List (Nat × Event)) :
    dispatchesIn (a ++ b) = dispatchesIn a + dispatchesIn b := by
  simp [dispatchesIn, List.countP_append]

/-- On a controller that answers every request with 401, a call that holds a
session id and is not the login never comes to an end: the re-login it
triggers starts with a GET on the empty uri, which is answered 401 and
triggers a re-login of its own.  Whatever the call budget, the budget runs
out, and every unit of it went into one dispatch. -/
theorem restRequest_unauthorized_forever (fuel : Nat) :
    ∀ (verb uri : String) (payload : GoValue) (tenant : String) (m : Machine),
      marshalPayload payload ≠ none → uri ≠ "login" → m.sess.sessionid ≠ "" →
      (restRequest (always 401) fuel 0 verb uri payload tenant m).1 = none ∧
      ∃ new, (restRequest (always 401) fuel 0 verb uri payload tenant m).2.trace =
          m.trace ++ new ∧ dispatchesIn new = fuel := by
  induction fuel with
  | zero =>
    intro verb uri payload tenant m _ _ _
    exact ⟨rfl, [], by simp [restRequest], rfl⟩
  | succ f ih =>
    intro verb uri payload tenant m hbody huri hsid
    obtain ⟨body, hb⟩ := Option.ne_none_iff_exists'.1 hbody
    obtain ⟨req, m3, _, htr, hd, hs, _, heq⟩ :=
      restRequest_answered (always 401) f 0 verb uri payload tenant m { status := 401 } body
        (by omega) hb rfl rfl
    have hpre : (checkRetryForSleep 0 verb (m.sess.urlPrefix ++ uri) m).2 = m := by
      simp [checkRetryForSleep]
    rw [hpre] at htr
    have hs3 : m3.sess = m.sess := hs
    have hsid3 : m3.sess.sessionid ≠ "" := by rw [hs3]; exact hsid
    -- the re-login: its GET on the empty uri is the call of the induction hypothesis
    have h1 := refreshToken_same { m3.log .reauth with depth := m3.depth + 1 }
    have hsid1 : (refreshToken { m3.log .reauth with depth := m3.depth + 1 }).sess.sessionid
        ≠ "" := by
      rw [refreshToken_sessionid]
      exact hsid3
    have hrec := ih "GET" "" .null
      (locTenant (refreshToken { m3.log .reauth with depth := m3.depth + 1 }) [])
      (refreshToken { m3.log .reauth with depth := m3.depth + 1 })
      (by decide) (by decide) hsid1
    obtain ⟨hnone, new, hnew, hcount⟩ := hrec
    have hinit : initiateSession (always 401) (restRequest (always 401) f 0) m3 =
        (none, { (restRequest (always 401) f 0 "GET" "" .null
          (locTenant (refreshToken { m3.log .reauth with depth := m3.depth + 1 }) [])
          (refreshToken { m3.log .reauth with depth := m3.depth + 1 })).2 with
          depth := m3.depth }) := by
      unfold initiateSession Get restRequestInterfaceResponse
      dsimp only
      generalize restRequest (always 401) f 0 "GET" "" .null _ _ = r at hnone ⊢
      obtain ⟨r1, r2⟩ := r
      dsimp only at hnone
      subst hnone
      rfl
    have hdec : retryDecision (always 401) (restRequest (always 401) f 0) { status := 401 } uri
        m3 = (none, { (restRequest (always 401) f 0 "GET" "" .null
          (locTenant (refreshToken { m3.log .reauth with depth := m3.depth + 1 }) [])
          (refreshToken { m3.log .reauth with depth := m3.depth + 1 })).2 with
          depth := m3.depth }) := by
      unfold retryDecision
      rw [if_pos ⟨rfl, hsid3, huri⟩, hinit]
    rw [hdec] at heq
    rw [heq]
    refine ⟨rfl, [(m.depth, .dispatch req), (m3.depth, .reauth)] ++ new, ?_, ?_⟩
    · dsimp only
      rw [hnew, h1.2.1]
      simp [Machine.log, htr]
    · rw [dispatchesIn_append, hcount]
      simp [dispatchesIn]
      omega

/-- C24: re-authentication can recurse without bound.  On a controller that
answers every request with 401, a GET by a session that holds a session id
triggers a re-login whose first request, the GET on the empty uri, is
answered 401 and triggers a re-login in turn.  For every call budget the
call uses the budget up without a result, and makes as many dispatches as
the budget allows: no number bounds the dispatches of the call. -/
theorem relogin_recursion_unbounded (fuel : Nat) :
    (Get (always 401) (restRequest (always 401) fuel 0) "api/pool" none []
      { sess := { sampleSession with sessionid := "abc" } }).1 = none ∧
    dispatchesIn (newEntries { sess := { sampleSession with sessionid := "abc" } }
      (Get (always 401) (restRequest (always 401) fuel 0) "api/pool" none []
        { sess := { sampleSession with sessionid := "abc" } }).2) = fuel := by
  obtain ⟨hnone, new, hnew, hcount⟩ := restRequest_unauthorized_forever fuel "GET" "api/pool"
    .null "admin" { sess := { sampleSession with sessionid := "abc" } }
    (by decide) (by decide) (by decide)
  unfold Get restRequestInterfaceResponse
  rw [show locTenant { sess := { sampleSession with sessionid := "abc" } } [] = "admin"
    from rfl]
  generalize restRequest (always 401) fuel 0 "GET" "api/pool" .null "admin" _ = r
    at hnone hnew ⊢
  obtain ⟨r1, r2⟩ := r
  dsimp only at hnone hnew
  subst hnone
  dsimp only
  rw [newEntries_of_append _ _ _ hnew, hcount]
  exact ⟨rfl, rfl⟩

/-! ## Transient answers followed by success -/

theorem checkRetryForSleep_trace (r : Nat) (hr : r ≤ 3) (verb url : String) (m : Machine) :
    (checkRetryForSleep (r : Int) verb url m).2.trace =
      m.trace ++ (sleepBefore r).map fun ms => (m.depth, Event.sleep ms) := by
  interval_cases r <;> simp [checkRetryForSleep, sleepBefore, Machine.log]

/-- A readiness probe whose first request meets a ready controller: it
reports success after that one request. -/
theorem CheckControllerStatus_ready (w : World) (m : Machine)
    (hprobe : w.newRequestError "GET" (m.sess.urlPrefix ++ "/api/cluster/status") = none)
    (hready : probeReady (w.controller m.clock) = true) :
    ∃ m5, CheckControllerStatus w m = ((true, none), m5) ∧
      m5.trace = m.trace ++
        [(m.depth, .readiness), (m.depth, .probe (m.sess.urlPrefix ++ "/api/cluster/status"))] ∧
      m5.clock = m.clock + 1 ∧ m5.sess = m.sess ∧ m5.depth = m.depth := by
  unfold CheckControllerStatus probeRounds
  rw [hprobe]
  dsimp only
  cases hc : w.controller m.clock with
  | resp r =>
    rw [hc] at hready
    simp only [probeReady, ne_eq, decide_eq_true_eq] at hready
    have hc2 : w.controller (m.log .readiness).clock = .resp r := hc
    simp only [clientDo, hc2, ne_eq, hready, not_false_eq_true, and_self, if_true]
    exact ⟨_, rfl, by simp [Machine.log], rfl, rfl, rfl⟩
  | fail msg =>
    rw [hc] at hready
    simp [probeReady] at hready

theorem readinessIn_append (a b : List (Nat × Event)) :
    readinessIn (a ++ b) = readinessIn a + readinessIn b := by
  simp [readinessIn, List.countP_append]

theorem probesIn_append (a b : List (Nat × Event)) :
    probesIn (a ++ b) = probesIn a + probesIn b := by
  simp [probesIn, List.countP_append]

theorem sleepsIn_append (a b : List (Nat × Event)) :
    sleepsIn (a ++ b) = sleepsIn a ++ sleepsIn b := by
  simp [sleepsIn, List.filterMap_append]

theorem sleepsIn_sleeps (d : Nat) (l : List Nat) :
    sleepsIn (l.map fun ms => (d, Event.sleep ms)) = l := by
  induction l with
  | nil => rfl
  | cons x xs ih =>
    simp only [sleepsIn, List.map_cons, List.filterMap_cons] at ih ⊢
    rw [ih]

theorem readinessIn_sleeps (d : Nat) (l : List Nat) :
    readinessIn (l.map fun ms => (d, Event.sleep ms)) = 0 := by
  induction l with
  | nil => rfl
  | cons x xs ih =>
    simp only [readinessIn, List.map_cons, List.countP_cons] at ih ⊢
    rw [ih]
    rfl

theorem probesIn_sleeps (d : Nat) (l : List Nat) :
    probesIn (l.map fun ms => (d, Event.sleep ms)) = 0 := by
  induction l with
  | nil => rfl
  | cons x xs ih =>
    simp only [probesIn, List.map_cons, List.countP_cons] at ih ⊢
    rw [ih]
    rfl

theorem dispatchesAt_sleeps (d : Nat) (l : List Nat) :
    dispatchesAt d (l.map fun ms => (d, Event.sleep ms)) = [] := by
  induction l with
  | nil => rfl
  | cons x xs ih =>
    simp only [dispatchesAt, List.map_cons, List.filterMap_cons] at ih ⊢
    rw [ih]

/-- A call whose first `k` answers are transient (419 or 500..598), each
followed by a readiness probe that finds the controller ready at its first
request, and whose next answer is a readable 200: entered with the retry
counter `r`, where `r + k` is at most 3, it returns the body of the 200 and
no error, after `k + 1` dispatches of its request, `k` invocations of the
readiness probe with one request each, and the sleeps that precede the
attempts `r` to `r + k`. -/
theorem restRequest_transient_then_ok (w : World) (verb uri : String) (payload : GoValue)
    (body : Body) (hbody : marshalPayload payload = some body)
    (hnew : ∀ url, w.newRequestError verb url = none)
    (hprobe : ∀ url, w.newRequestError "GET" url = none)
    (last : Response) (hlast : last.status = 200) (hread : last.readError = none) (k : Nat) :
    ∀ (fuel r : Nat) (tenant : String) (m : Machine),
      k < fuel → r + k ≤ 3 →
      (∀ i, i < k → ∃ resp, w.controller (m.clock + 2 * i) = .resp resp ∧
        (resp.status = 419 ∨ (resp.status ≥ 500 ∧ resp.status < 599)) ∧
        probeReady (w.controller (m.clock + 2 * i + 1)) = true) →
      w.controller (m.clock + 2 * k) = .resp last →
      (restRequest w fuel (r : Int) verb uri payload tenant m).1 = some (some last.body, none) ∧
      (ownDispatches m (restRequest w fuel (r : Int) verb uri payload tenant m).2).length =
        k + 1 ∧
      readinessIn (newEntries m (restRequest w fuel (r : Int) verb uri payload tenant m).2) =
        k ∧
      probesIn (newEntries m (restRequest w fuel (r : Int) verb uri payload tenant m).2) = k ∧
      sleepsIn (newEntries m (restRequest w fuel (r : Int) verb uri payload tenant m).2) =
        (List.range' r (k + 1)).flatMap sleepBefore := by
  induction k with
  | zero =>
    intro fuel r tenant m hfuel hr _ hfinal
    obtain ⟨f, hf⟩ : ∃ f, fuel = f + 1 := ⟨fuel - 1, by omega⟩
    subst hf
    have hfin : w.controller m.clock = .resp last := by simpa using hfinal
    obtain ⟨h1, ⟨req, htr⟩, _⟩ := restRequest_returned_at_once w f (r : Int) verb uri payload
      tenant m last (by omega) (by rw [hbody]; simp) (hnew _) hfin
      (by rw [hlast]; intro h; omega) (by rw [hlast]; intro h; omega)
    have hpre := checkRetryForSleep_trace r (by omega) verb (m.sess.urlPrefix ++ uri) m
    have hentries : newEntries m (restRequest w (f + 1) (r : Int) verb uri payload tenant m).2 =
        ((sleepBefore r).map fun ms => (m.depth, Event.sleep ms)) ++
          [(m.depth, .dispatch req)] := by
      apply newEntries_of_append
      rw [htr, hpre, List.append_assoc]
    refine ⟨?_, ?_, ?_, ?_, ?_⟩
    · rw [h1]
      simp [readResponse, hlast, hread]
    · unfold ownDispatches
      rw [hentries, dispatchesAt_append, dispatchesAt_sleeps, dispatchesAt_dispatch]
      rfl
    · rw [hentries, readinessIn_append, readinessIn_sleeps]
      rfl
    · rw [hentries, probesIn_append, probesIn_sleeps]
      rfl
    · rw [hentries, sleepsIn_append, sleepsIn_sleeps]
      simp [sleepsIn, List.range']
  | succ k ih =>
    intro fuel r tenant m hfuel hr htrans hfinal
    obtain ⟨f, hf⟩ : ∃ f, fuel = f + 1 := ⟨fuel - 1, by omega⟩
    subst hf
    obtain ⟨resp, hresp, hstatus, hready⟩ := htrans 0 (by omega)
    simp only [Nat.mul_zero, Nat.add_zero] at hresp hready
    obtain ⟨req, m3, _, htr, hd, hs, hc, heq⟩ :=
      restRequest_answered w f (r : Int) verb uri payload tenant m resp body (by omega) hbody
        (hnew _) hresp
    have hrest : ∀ v u p t m, Step (fun _ => True) 4 m (restRequest w f 0 v u p t m).2 :=
      fun v u p t m => (restRequest_step w f 0 v u p t m).imp (fun _ _ => trivial)
    have hnot : ¬ (resp.status = 401 ∧ m3.sess.sessionid ≠ "" ∧ uri ≠ "login") := by
      intro h
      rcases hstatus with h1 | h1 <;> omega
    have hdec := (retryDecision_cases w (restRequest w f 0) 4 hrest resp uri m3).2 hnot
    obtain ⟨m5, hchk, htr5, hc5, hs5, hd5⟩ := CheckControllerStatus_ready w m3 (hprobe _)
      (by rw [hc]; exact hready)
    rw [hdec] at heq
    simp only [hstatus, decide_True] at heq
    rw [hchk] at heq
    dsimp only at heq
    have hbase5 : m5.sess.urlPrefix = m.sess.urlPrefix := by
      rw [hs5, hs]; exact (foldl_collectCookie_tenant _ _).2
    have hclock5 : m5.clock = m.clock + 2 := by rw [hc5, hc]
    have hrec := ih f (r + 1) (if tenant = "" then m.sess.tenant else tenant) m5 (by omega)
      (by omega)
      (by
        intro i hi
        obtain ⟨resp', h1, h2, h3⟩ := htrans (i + 1) (by omega)
        refine ⟨resp', ?_, h2, ?_⟩
        · rw [hclock5, show m.clock + 2 + 2 * i = m.clock + 2 * (i + 1) by omega]
          exact h1
        · rw [hclock5, show m.clock + 2 + 2 * i + 1 = m.clock + 2 * (i + 1) + 1 by omega]
          exact h3)
      (by
        rw [hclock5, show m.clock + 2 + 2 * k = m.clock + 2 * (k + 1) by omega]
        exact hfinal)
    rw [show ((r + 1 : Nat) : Int) = (r : Int) + 1 by push_cast; rfl] at hrec
    rw [heq]
    have hrecstep := (restRequest_step w f ((r : Int) + 1) verb uri payload
      (if tenant = "" then m.sess.tenant else tenant) m5).extends
    generalize restRequest w f ((r : Int) + 1) verb uri payload
      (if tenant = "" then m.sess.tenant else tenant) m5 = out at hrec hrecstep ⊢
    obtain ⟨new, hnewtr⟩ := hrecstep
    have hin : newEntries m5 out.2 = new := newEntries_of_append _ _ _ hnewtr
    unfold ownDispatches at hrec
    rw [hin, hd5, hd] at hrec
    obtain ⟨hres, hown, hrdy, hprb, hslp⟩ := hrec
    have hpre := checkRetryForSleep_trace r (by omega) verb (m.sess.urlPrefix ++ uri) m
    have hentries : newEntries m out.2 =
        ((sleepBefore r).map fun ms => (m.depth, Event.sleep ms)) ++
          ([(m.depth, .dispatch req)] ++
            ([(m.depth, .readiness),
              (m.depth, .probe (m3.sess.urlPrefix ++ "/api/cluster/status"))] ++ new)) := by
      apply newEntries_of_append
      rw [hnewtr, htr5, htr, hpre, hd]
      simp only [List.append_assoc]
    refine ⟨hres, ?_, ?_, ?_, ?_⟩
    · unfold ownDispatches
      have hmid : dispatchesAt m.depth [(m.depth, Event.readiness),
          (m.depth, .probe (m3.sess.urlPrefix ++ "/api/cluster/status"))] = [] := by
        simp [dispatchesAt]
      rw [hentries, dispatchesAt_append, dispatchesAt_append, dispatchesAt_append,
        dispatchesAt_sleeps, dispatchesAt_dispatch, hmid]
      simp only [List.nil_append, List.length_append, List.length_singleton, hown]
      omega
    · rw [hentries, readinessIn_append, readinessIn_append, readinessIn_append,
        readinessIn_sleeps, hrdy]
      simp [readinessIn]
      omega
    · rw [hentries, probesIn_append, probesIn_append, probesIn_append, probesIn_sleeps, hprb]
      simp [probesIn]
      omega
    · rw [hentries, sleepsIn_append, sleepsIn_append, sleepsIn_append, sleepsIn_sleeps, hslp]
      simp [sleepsIn, List.range']

/-- The sleeps that precede the attempts 0 to `k` are the first `k` entries
of 100 ms, 500 ms and 1 s. -/
theorem sleepBefore_schedule (k : Nat) (hk : k ≤ 3) :
    (List.range' 0 (k + 1)).flatMap sleepBefore = [100, 500, 1000].take k := by
  interval_cases k <;> decide

/-- The transient storm, for a call as a verb makes it (retry counter 0): `k`
transient answers among 419 and 500..598, each followed by a probe that
finds the controller ready, then a readable 200.  The call returns the body
of the 200 without error after `k + 1` dispatches, `k` invocations of the
probe and the first `k` of the sleeps 100 ms, 500 ms and 1 s. -/
theorem restRequest_transient_storm (w : World) (verb uri : String) (payload : GoValue)
    (body : Body) (hbody : marshalPayload payload = some body)
    (hnew : ∀ url, w.newRequestError verb url = none)
    (hprobe : ∀ url, w.newRequestError "GET" url = none)
    (last : Response) (hlast : last.status = 200) (hread : last.readError = none) (k : Nat)
    (hk : k ≤ 3) (fuel : Nat) (hfuel : k < fuel) (tenant : String) (m : Machine)
    (htrans : ∀ i, i < k → ∃ resp, w.controller (m.clock + 2 * i) = .resp resp ∧
      (resp.status = 419 ∨ (resp.status ≥ 500 ∧ resp.status < 599)) ∧
      probeReady (w.controller (m.clock + 2 * i + 1)) = true)
    (hfinal : w.controller (m.clock + 2 * k) = .resp last) :
    (restRequest w fuel 0 verb uri payload tenant m).1 = some (some last.body, none) ∧
    (ownDispatches m (restRequest w fuel 0 verb uri payload tenant m).2).length = k + 1 ∧
    readinessIn (newEntries m (restRequest w fuel 0 verb uri payload tenant m).2) = k ∧
    probesIn (newEntries m (restRequest w fuel 0 verb uri payload tenant m).2) = k ∧
    sleepsIn (newEntries m (restRequest w fuel 0 verb uri payload tenant m).2) =
      [100, 500, 1000].take k := by
  have h := restRequest_transient_then_ok w verb uri payload body hbody hnew hprobe last hlast
    hread k fuel 0 tenant m hfuel (by omega) htrans hfinal
  rw [sleepBefore_schedule k hk] at h
  exact h

set_option maxRecDepth 16384 in
/-- C21: a transient answer with the status 599 is not retried.  On a
controller that answers 599, then 200 to the readiness probe, then 200, a GET
makes one dispatch, invokes no readiness probe, does not sleep and returns
the 599 as an error, where the claim promises two dispatches, one probe, a
sleep of 100 ms and the body of the 200.  With 503 in the place of 599 the
call does as the claim says: on 503, 503, 200 it makes 3 dispatches, invokes
the probe twice, sleeps 100 ms and 500 ms and returns the body of the 200
without error. -/
theorem transient_599_then_ok_not_retried :
    (restRequest
        (replying [{ status := 599 }, { status := 200 }, { status := 200, body := "ok" }])
        9 0 "GET" "api/pool" .null "" sampleMachine).1 =
      some (some "", some (.avi
        { verb := "GET", url := "https://h/api/pool", httpStatusCode := 599,
          message := some "" })) ∧
    (ownDispatches sampleMachine
      (restRequest
        (replying [{ status := 599 }, { status := 200 }, { status := 200, body := "ok" }])
        9 0 "GET" "api/pool" .null "" sampleMachine).2).length = 1 ∧
    readinessIn (newEntries sampleMachine
      (restRequest
        (replying [{ status := 599 }, { status := 200 }, { status := 200, body := "ok" }])
        9 0 "GET" "api/pool" .null "" sampleMachine).2) = 0 ∧
    sleepsIn (newEntries sampleMachine
      (restRequest
        (replying [{ status := 599 }, { status := 200 }, { status := 200, body := "ok" }])
        9 0 "GET" "api/pool" .null "" sampleMachine).2) = [] ∧
    (restRequest
        (replying [{ status := 503 }, { status := 200 }, { status := 503 }, { status := 200 },
          { status := 200, body := "ok" }])
        9 0 "GET" "api/pool" .null "" sampleMachine).1 = some (some "ok", none) ∧
    (ownDispatches sampleMachine
      (restRequest
        (replying [{ status := 503 }, { status := 200 }, { status := 503 }, { status := 200 },
          { status := 200, body := "ok" }])
        9 0 "GET" "api/pool" .null "" sampleMachine).2).length = 3 ∧
    readinessIn (newEntries sampleMachine
      (restRequest
        (replying [{ status := 503 }, { status := 200 }, { status := 503 }, { status := 200 },
          { status := 200, body := "ok" }])
        9 0 "GET" "api/pool" .null "" sampleMachine).2) = 2 ∧
    sleepsIn (newEntries sampleMachine
      (restRequest
        (replying [{ status := 503 }, { status := 200 }, { status := 503 }, { status := 200 },
          { status := 200, body := "ok" }])
        9 0 "GET" "api/pool" .null "" sampleMachine).2) = [100, 500] := by
  refine ⟨by decide, by decide, by decide, by decide, by decide, by decide, by decide,
    by decide⟩

end Avi
